import Mathlib

/-!
# The hybrid limit search of `Hybrid.cc`

A shallow embedding of `src/src/Hybrid.cc` (class `Hybrid` of HiggsAnalysis/CombinedLimit):
`Hybrid::applyOptions`, `Hybrid::run`, `Hybrid::runLimit`, `Hybrid::runSignificance`,
`Hybrid::readToysFromFile` and `Hybrid::eval`.

Conventions of the embedding.

* C++ `double` (and the global `float cl`) is an arbitrary linearly ordered field `α`; rounding,
  overflow and NaN are not modelled.  Instantiated at `ℚ` every definition evaluates.
* The bisection loop, whose number of iterations depends on the rounding, is embedded a second
  time with the rounding: in `evalRounded` and `bisectRounded` the result of every arithmetic
  operation goes through a rounding function `rd`, and `roundDouble` is the rounding of IEEE 754
  binary64 (to nearest, ties to even) on `ℚ`, with the exponent range unbounded: overflow,
  underflow and subnormal numbers are not modelled.
* `RooRealVar` (ROOT) is a record of its value, range and constant flag.  `setVal` and `setMax`
  store their argument; the range clipping of the library is not modelled (with a lower range
  bound `≤ 0`, `runLimit` only stores values lying inside the range).
* `RooStats::HybridCalculatorOriginal` and `RooStats::HybridResult` (ROOT) are a parameter: a
  record of the operations the code calls.  `GetHypoTest` reads the calculator's hidden state and
  the workspace variable `r`, and returns a null pointer (`none`) or a result.
* Every `GetHypoTest` request is appended to a log, so that statements about the number and the
  place of the requests can be made.
* Loops take fuel: a loop that is still running when its fuel is used up yields
  `Fault.outOfFuel`.  `HybridResult::Add` applied to a null pointer yields `Fault.nullDeref`.
* The significance, which `runSignificance` tests with `isfinite`, is a `Double`: a number of
  `α`, an infinity or NaN.
* A `throw` of `std::logic_error` in `run` and `runSignificance` is recorded in the outcome of the
  run, next to the environment at the throw.
* Output to `std::cout`/`std::cerr` is dropped.
-/

namespace CombinedLimit

/-- The part of ROOT's `RooRealVar` that `Hybrid.cc` reads and writes. -/
structure RooRealVar (α : Type) where
  /-- Current value: `getVal()`. -/
  getVal : α
  /-- Lower end of the range: `getMin()`. -/
  getMin : α
  /-- Upper end of the range: `getMax()`. -/
  getMax : α
  /-- Constant flag: `isConstant()`. -/
  isConstant : Bool
  deriving DecidableEq, Repr

namespace RooRealVar
variable {α : Type}

/-- `r->setVal(v)`. -/
def setVal (r : RooRealVar α) (v : α) : RooRealVar α := { r with getVal := v }

/-- `r->setMax(v)`. -/
def setMax (r : RooRealVar α) (v : α) : RooRealVar α := { r with getMax := v }

/-- `r->setConstant(b)`. -/
def setConstant (r : RooRealVar α) (b : Bool) : RooRealVar α := { r with isConstant := b }

end RooRealVar

/-- The operations of `RooStats::HybridCalculatorOriginal` and of the `RooStats::HybridResult`
it produces, as far as `Hybrid.cc` calls them.  `σ` is the hidden state of the calculator (its
settings and random generator), `ρ` the type of a result. -/
structure HybridCalculatorOriginal (σ ρ α : Type) where
  /-- `hc->GetHypoTest()`: run the toys at the current state of the workspace variable `r`;
  `none` is the null pointer. -/
  GetHypoTest : σ → RooRealVar α → Option ρ × σ
  /-- `hcResult->Add(more)` for a non-null `more`. -/
  Add : ρ → ρ → ρ
  /-- `hcResult->CLs()`. -/
  CLs : ρ → α
  /-- `hcResult->CLsError()`. -/
  CLsError : ρ → α
  /-- `hcResult->CLsplusb()`. -/
  CLsplusb : ρ → α
  /-- `hcResult->CLsplusbError()`. -/
  CLsplusbError : ρ → α
  /-- `hcResult->CLb()`. -/
  CLb : ρ → α
  /-- `hcResult->CLbError()`. -/
  CLbError : ρ → α

/-- What a call works on besides the object itself: the calculator's hidden state, the workspace
variable `r`, and the log of the `GetHypoTest` requests made so far (the state of `r` at each
request, oldest first). -/
structure Env (σ α : Type) where
  /-- Hidden state of the calculator. -/
  hc : σ
  /-- The workspace variable `w->var("r")`. -/
  r : RooRealVar α
  /-- Log of the `GetHypoTest` requests. -/
  requests : List (RooRealVar α)
  deriving DecidableEq, Repr

/-- Ways in which a run does not come back with a value. -/
inductive Fault where
  /-- A loop was still running when the fuel ran out. -/
  | outOfFuel
  /-- `HybridResult::Add` was handed a null pointer. -/
  | nullDeref
  deriving DecidableEq, Repr

/-- The pair `std::pair<double,double>` of a statistic and its error (`CLs_t`). -/
abbrev CLs_t (α : Type) := α × α

/-- The data members of class `Hybrid`. -/
structure Hybrid (α : Type) where
  /-- Option `toysH`. -/
  nToys_ : Nat
  /-- Option `clsAcc`. -/
  clsAccuracy_ : α
  /-- Option `rAbsAcc`. -/
  rAbsAccuracy_ : α
  /-- Option `rRelAcc`. -/
  rRelAccuracy_ : α
  /-- Option `rule`. -/
  rule_ : String
  /-- Option `testStat`. -/
  testStat_ : String
  /-- Set by `applyOptions` from `rule_`. -/
  CLs_ : Bool
  /-- Set by `applyOptions`. -/
  rInterval_ : Bool
  /-- Set by `applyOptions`. -/
  saveHybridResult_ : Bool
  /-- Set by `applyOptions`. -/
  readHybridResults_ : Bool
  deriving DecidableEq, Repr

/-- The exception `std::invalid_argument` with its message. -/
structure invalid_argument where
  /-- The message: `what()`. -/
  what : String
  deriving DecidableEq, Repr

namespace Hybrid
variable {σ ρ α : Type} [LinearOrderedField α]

/-- The constructor `Hybrid::Hybrid()`: the defaults of the options (lines 15-28).  The members
that only `applyOptions` assigns start as `false`. -/
def ctor : Hybrid α :=
  { nToys_ := 500
    clsAccuracy_ := 5 / 1000
    rAbsAccuracy_ := 1 / 10
    rRelAccuracy_ := 5 / 100
    rule_ := "CLs"
    testStat_ := "LEP"
    CLs_ := false
    rInterval_ := false
    saveHybridResult_ := false
    readHybridResults_ := false }

/-- `Hybrid::applyOptions` (lines 30-44).  `vm` is `vm.count`; a `throw` is `Except.error`. -/
def applyOptions (self : Hybrid α) (vm : String → Nat) : Except invalid_argument (Hybrid α) := do
  let self ←
    if self.rule_ = "CLs" then
      pure { self with CLs_ := true }
    else if self.rule_ = "CLsplusb" then
      pure { self with CLs_ := false }
    else
      throw ⟨"Hybrid: Rule should be one of 'CLs' or 'CLsplusb'"⟩
  let self := { self with rInterval_ := decide (vm "rInterval" ≠ 0) }
  if self.testStat_ ≠ "LEP" ∧ self.testStat_ ≠ "TEV" ∧ self.testStat_ ≠ "Atlas" then
    throw ⟨"Hybrid: Test statistics should be one of 'LEP' or 'TEV' or 'Atlas'"⟩
  pure { self with
         saveHybridResult_ := decide (vm "saveHybridResult" ≠ 0)
         readHybridResults_ := decide (vm "readHybridResults" ≠ 0) }

/-- The statistic that drives the search and its error, read off a result:
`(CLs_ ? hcResult->CLs() : hcResult->CLsplusb())` and the same for the error (lines 202-203 and
209-210). -/
def readCLs (self : Hybrid α) (hc : HybridCalculatorOriginal σ ρ α) (hcResult : ρ) : CLs_t α :=
  (if self.CLs_ then hc.CLs hcResult else hc.CLsplusb hcResult,
   if self.CLs_ then hc.CLsError hcResult else hc.CLsplusbError hcResult)

/-- The `while` loop of `Hybrid::eval` (lines 206-212): as long as the statistic is within three
errors of `clsTarget` and the error is at least `clsAccuracy_`, request one more result and add
it. -/
def evalWhile (self : Hybrid α) (hc : HybridCalculatorOriginal σ ρ α) (clsTarget : α) :
    Nat → ρ → Env σ α → Except Fault (ρ × Env σ α)
  | fuel, hcResult, env =>
    let clsMid := (self.readCLs hc hcResult).1
    let clsMidErr := (self.readCLs hc hcResult).2
    if |clsMid - clsTarget| < 3 * clsMidErr ∧ clsMidErr ≥ self.clsAccuracy_ then
      match fuel with
      | 0 => .error .outOfFuel
      | fuel + 1 =>
        match hc.GetHypoTest env.hc env.r with
        | (none, _) => .error .nullDeref
        | (some more, hcState) =>
          evalWhile self hc clsTarget fuel (hc.Add hcResult more)
            { env with hc := hcState, requests := env.requests ++ [env.r] }
    else
      .ok (hcResult, env)

/-- Modelled from the spec: the default of the argument `adaptive` of `eval`, declared in
`Hybrid.h`, which is not among the sources.  The specification has the bracket expander, whose
call of line 94 leaves the argument out, evaluate the statistic non-adaptively. -/
abbrev adaptiveDefault : Bool := false

/-- Modelled from the spec: the default of the argument `clsTarget` of `eval`, declared in
`Hybrid.h`, which is not among the sources.  A call that is not adaptive does not read it. -/
abbrev clsTargetDefault : α := -1

/-- `Hybrid::eval` (lines 194-222). -/
def eval (self : Hybrid α) (hc : HybridCalculatorOriginal σ ρ α) (fuel : Nat) (env : Env σ α)
    (rVal : α) (adaptive : Bool) (clsTarget : α) : Except Fault (CLs_t α × Env σ α) :=
  let r := env.r.setVal rVal
  match hc.GetHypoTest env.hc r with
  | (none, hcState) =>
    .ok ((-1, -1), { hc := hcState, r := r, requests := env.requests ++ [r] })
  | (some hcResult, hcState) =>
    let env := { hc := hcState, r := r, requests := env.requests ++ [r] }
    if adaptive then
      match self.evalWhile hc clsTarget fuel hcResult env with
      | .error e => .error e
      | .ok (hcResult, env) => .ok (self.readCLs hc hcResult, env)
    else
      .ok (self.readCLs hc hcResult, env)

end Hybrid

/-- The local variables of `Hybrid::runLimit` during the search, with the environment. -/
structure Search (σ α : Type) where
  /-- Calculator state, `r` and request log. -/
  env : Env σ α
  /-- Lower end of the bracket. -/
  rMin : α
  /-- Upper end of the bracket. -/
  rMax : α
  /-- The outer `clsMin` of line 89. -/
  clsMin : CLs_t α
  /-- The outer `clsMax` of line 89. -/
  clsMax : CLs_t α
  deriving DecidableEq, Repr

/-- How the `do ... while` loop of lines 106-122 is left. -/
inductive Exit where
  /-- `return false` of line 110. -/
  | hypotestFailed
  /-- `lucky = true; break` of lines 114-115. -/
  | lucky
  /-- The `while` condition of line 122 is false. -/
  | widthReached
  deriving DecidableEq, Repr

/-- What `Hybrid::runLimit` leaves behind when it returns. -/
structure LimitRun (σ α : Type) where
  /-- The value returned. -/
  ret : Bool
  /-- The caller's variable `limit` after the call. -/
  limit : α
  /-- The local `lucky` (false when the bisection loop was not reached). -/
  lucky : Bool
  /-- The locals and the environment at the return. -/
  final : Search σ α
  deriving DecidableEq, Repr

namespace Hybrid
variable {σ ρ α : Type} [LinearOrderedField α]

/-- The `for (;;)` loop of lines 93-101, the search for an upper end of the bracket.  `rMax` is
the local of line 90, the upper end of the range of `r` on entry.  The result is `true` when the
loop is left by `break` and `false` when it is left by `return false`.  The `clsMax` declared
inside the loop (line 94) is a variable of its own, gone when the loop is left. -/
def expand (self : Hybrid α) (hc : HybridCalculatorOriginal σ ρ α) (cl rMax : α) (fuel : Nat) :
    Nat → Env σ α → Except Fault (Bool × Env σ α)
  | 0, _ => .error .outOfFuel
  | n + 1, env =>
    match self.eval hc fuel env env.r.getMax adaptiveDefault clsTargetDefault with
    | .error e => .error e
    | .ok (clsMax, env) =>
      if clsMax.1 = 0 ∨ clsMax.1 + 3 * |clsMax.2| < cl then
        .ok (true, env)
      else
        let env := { env with r := env.r.setMax (env.r.getMax * 2) }
        if env.r.getVal / rMax ≥ 20 then
          .ok (false, env)
        else
          expand self hc cl rMax fuel n env

/-- The `do ... while` loop of lines 106-122, the bisection. -/
def bisect (self : Hybrid α) (hc : HybridCalculatorOriginal σ ρ α) (clsTarget : α) (fuel : Nat) :
    Nat → Search σ α → Except Fault (Exit × Search σ α)
  | 0, _ => .error .outOfFuel
  | n + 1, s =>
    match self.eval hc fuel s.env (1 / 2 * (s.rMin + s.rMax)) true clsTarget with
    | .error e => .error e
    | .ok (clsMid, env) =>
      if clsMid.2 = -1 then
        .ok (.hypotestFailed, { s with env := env })
      else if |clsMid.1 - clsTarget| ≤ self.clsAccuracy_ then
        .ok (.lucky, { s with env := env })
      else
        let s : Search σ α :=
          if decide (clsMid.1 > clsTarget) = decide (s.clsMax.1 > clsTarget) then
            { s with env := env, rMax := env.r.getVal, clsMax := clsMid }
          else
            { s with env := env, rMin := env.r.getVal, clsMin := clsMid }
        if s.rMax - s.rMin > max self.rAbsAccuracy_ (self.rRelAccuracy_ * s.env.r.getVal) then
          bisect self hc clsTarget fuel n s
        else
          .ok (.widthReached, s)

/-- The `for` loop of lines 131-133 after its initialisation `r->setVal(rMin)`: the lower edge of
the interval.  The sample is stored in `clsMax`. -/
def lowerEdge (self : Hybrid α) (hc : HybridCalculatorOriginal σ ρ α)
    (clsTarget limit rBoundLow : α) (fuel : Nat) : Nat → Search σ α → Except Fault (Search σ α)
  | n, s =>
    if s.env.r.getVal < rBoundLow ∧ |s.clsMin.1 - clsTarget| ≥ self.clsAccuracy_ then
      match n with
      | 0 => .error .outOfFuel
      | n + 1 =>
        match self.eval hc fuel s.env (1 / 2 * (s.env.r.getVal + limit)) true clsTarget with
        | .error e => .error e
        | .ok (cls, env) =>
          lowerEdge self hc clsTarget limit rBoundLow fuel n
            { s with env := env, clsMax := cls, rMin := env.r.getVal }
    else
      .ok s

/-- The `for` loop of lines 136-138 after its initialisation `r->setVal(rMax)`: the upper edge of
the interval. -/
def upperEdge (self : Hybrid α) (hc : HybridCalculatorOriginal σ ρ α)
    (clsTarget limit rBoundHigh : α) (fuel : Nat) : Nat → Search σ α → Except Fault (Search σ α)
  | n, s =>
    if s.env.r.getVal > rBoundHigh ∧ |s.clsMax.1 - clsTarget| ≥ self.clsAccuracy_ then
      match n with
      | 0 => .error .outOfFuel
      | n + 1 =>
        match self.eval hc fuel s.env (1 / 2 * (s.env.r.getVal + limit)) true clsTarget with
        | .error e => .error e
        | .ok (cls, env) =>
          upperEdge self hc clsTarget limit rBoundHigh fuel n
            { s with env := env, clsMax := cls, rMax := env.r.getVal }
    else
      .ok s

/-- Lines 124-145 of `Hybrid::runLimit`: what follows the bisection loop when it is left by
`break` (`lucky = true`) or by its `while` condition (`lucky = false`). -/
def conclude (self : Hybrid α) (hc : HybridCalculatorOriginal σ ρ α) (clsTarget : α)
    (fuel : Nat) (lucky : Bool) (s : Search σ α) : Except Fault (LimitRun σ α) :=
  if lucky then
    let limit := s.env.r.getVal
    if self.rInterval_ then
      let rBoundLow := limit - 1 / 2 * max self.rAbsAccuracy_ (self.rRelAccuracy_ * limit)
      match self.lowerEdge hc clsTarget limit rBoundLow fuel fuel
          { s with env := { s.env with r := s.env.r.setVal s.rMin } } with
      | .error e => .error e
      | .ok s =>
        let rBoundHigh := limit + 1 / 2 * max self.rAbsAccuracy_ (self.rRelAccuracy_ * limit)
        match self.upperEdge hc clsTarget limit rBoundHigh fuel fuel
            { s with env := { s.env with r := s.env.r.setVal s.rMax } } with
        | .error e => .error e
        | .ok s => .ok { ret := true, limit := limit, lucky := true, final := s }
    else
      .ok { ret := true, limit := limit, lucky := true, final := s }
  else
    .ok { ret := true, limit := 1 / 2 * (s.rMax + s.rMin), lucky := false, final := s }

/-- Lines 104-145 of `Hybrid::runLimit`: the bisection loop from the locals `s`, with `n`
iterations of fuel, and what follows it.  `limit` is the caller's variable. -/
def search (self : Hybrid α) (hc : HybridCalculatorOriginal σ ρ α) (clsTarget : α)
    (fuel n : Nat) (limit : α) (s : Search σ α) : Except Fault (LimitRun σ α) :=
  match self.bisect hc clsTarget fuel n s with
  | .error e => .error e
  | .ok (.hypotestFailed, s) => .ok { ret := false, limit := limit, lucky := false, final := s }
  | .ok (.lucky, s) => self.conclude hc clsTarget fuel true s
  | .ok (.widthReached, s) => self.conclude hc clsTarget fuel false s

/-- `Hybrid::runLimit` (lines 80-146).  `cl` is the global confidence level, `limit` the caller's
variable and `hint` the pointer argument (`none` is the null pointer). -/
def runLimit (self : Hybrid α) (hc : HybridCalculatorOriginal σ ρ α) (cl : α) (fuel : Nat)
    (env : Env σ α) (limit : α) (hint : Option α) : Except Fault (LimitRun σ α) :=
  let r := env.r.setConstant true
  let r :=
    match hint with
    | some h => if h > r.getMin then r.setMax (min (3 * h) r.getMax) else r
    | none => r
  let env := { env with r := r }
  let clsTarget := 1 - cl
  let clsMin : CLs_t α := (1, 0)
  let clsMax : CLs_t α := (0, 0)
  let rMin : α := 0
  let rMax := r.getMax
  match self.expand hc cl rMax fuel fuel env with
  | .error e => .error e
  | .ok (false, env) =>
    .ok { ret := false, limit := limit, lucky := false,
          final := { env := env, rMin := rMin, rMax := rMax, clsMin := clsMin, clsMax := clsMax } }
  | .ok (true, env) =>
    self.search hc clsTarget fuel fuel limit
      { env := env, rMin := rMin, rMax := env.r.getMax, clsMin := clsMin, clsMax := clsMax }

end Hybrid

/-- The exception `std::logic_error` with its message. -/
structure logic_error where
  /-- The message: `what()`. -/
  what : String
  deriving DecidableEq, Repr

/-- A C++ `double` that may be not finite. -/
inductive Double (α : Type) where
  /-- A finite number. -/
  | finite (x : α)
  /-- Plus or minus infinity. -/
  | inf (negative : Bool)
  /-- Not a number. -/
  | nan
  deriving DecidableEq, Repr

/-- The test `isfinite` of `<cmath>`. -/
def Double.isfinite {α : Type} : Double α → Bool
  | .finite _ => true
  | .inf _ => false
  | .nan => false

/-- The operations of `RooStats::HybridResult` that only the significance mode calls. -/
structure HybridResultOps (ρ α : Type) where
  /-- `hcResult->Significance()`. -/
  Significance : ρ → Double α
  /-- `ret->Append(toy)`. -/
  Append : ρ → ρ → ρ

/-- A key of the directory `toys` of the input file: its name, and the object it holds read as a
`HybridResult` (`none` when the `dynamic_cast` gives the null pointer). -/
structure TKey (ρ : Type) where
  /-- `k->GetName()`. -/
  GetName : String
  /-- `dynamic_cast<RooStats::HybridResult *>(toyDir->Get(k->GetName()))`. -/
  Get : Option ρ

/-- The input file `readToysFromHere`: the keys of its directory `toys`, or `none` when
`GetDirectory("toys")` gives the null pointer. -/
structure TFile (ρ : Type) where
  /-- `GetDirectory("toys")->GetListOfKeys()`. -/
  toys : Option (List (TKey ρ))

/-- The setters of `RooStats::HybridCalculatorOriginal` that `run` calls, acting on the hidden
state of the calculator. -/
structure HybridCalculatorSetters (σ : Type) where
  /-- `hc->UseNuisance(b)`. -/
  UseNuisance : Bool → σ → σ
  /-- `hc->SetNuisancePdf(*w->pdf("nuisancePdf"))`. -/
  SetNuisancePdf : σ → σ
  /-- `hc->SetNuisanceParameters(*w->set("nuisances"))`. -/
  SetNuisanceParameters : σ → σ
  /-- `hc->SetTestStatistic(n)`. -/
  SetTestStatistic : Nat → σ → σ
  /-- `hc->PatchSetExtended(b)`. -/
  PatchSetExtended : Bool → σ → σ
  /-- `hc->SetNumberOfToys(n)`. -/
  SetNumberOfToys : Nat → σ → σ

/-- The globals of `Combine.h` and the facts about the workspace that `Hybrid.cc` reads. -/
structure Combine (ρ α : Type) where
  /-- The global `cl`. -/
  cl : α
  /-- The global `withSystematics`. -/
  withSystematics : Bool
  /-- The flag `doSignificance_`. -/
  doSignificance_ : Bool
  /-- Whether `w->set("nuisances")` is not null. -/
  hasNuisances : Bool
  /-- Whether `w->pdf("nuisancePdf")` is not null. -/
  hasNuisancePdf : Bool
  /-- The value of `w->pdf("model_b")->canBeExtended()`. -/
  canBeExtended : Bool
  /-- What `w->loadSnapshot("clean")` does to the variable `r`. -/
  loadSnapshot : RooRealVar α → RooRealVar α
  /-- Whether the global `writeToysHere` is not null. -/
  writeToysHere : Bool
  /-- The global `readToysFromHere` (`none` is the null pointer). -/
  readToysFromHere : Option (TFile ρ)
  /-- The value that `RooRandom::integer` returns in `runSignificance`. -/
  randomInteger : Nat

/-- What a call of `run` or `runSignificance` leaves behind. -/
structure Run (σ ρ α : Type) where
  /-- The value returned, or the exception thrown. -/
  outcome : Except logic_error Bool
  /-- The caller's variable `limit` after the call. -/
  limit : Double α
  /-- The environment at the return or at the throw. -/
  env : Env σ α
  /-- The object written by `writeToysHere->WriteTObject`, with its name. -/
  written : Option (String × ρ)

namespace Hybrid
variable {σ ρ α : Type} [LinearOrderedField α]

/-- `Hybrid::readToysFromFile` (lines 172-193). -/
def readToysFromFile (ops : HybridResultOps ρ α) (readToysFromHere : Option (TFile ρ)) :
    Except logic_error (Option ρ) :=
  match readToysFromHere with
  | none =>
    .error ⟨"Cannot use readHybridResult: option toysFile not specified, or input file empty"⟩
  | some file =>
    match file.toys with
    | none =>
      .error ⟨"Cannot use readHybridResult: option toysFile not specified, or input file empty"⟩
    | some keys =>
      .ok (keys.foldl
        (fun ret k =>
          if ¬ "HybridResult_".isPrefixOf k.GetName then ret
          else
            match k.Get with
            | none => ret
            | some toy =>
              match ret with
              | none => some toy
              | some acc => some (ops.Append acc toy))
        none)

/-- Lines 158-169 of `Hybrid::runSignificance`: what is done with a result that is not null. -/
def reportSignificance (self : Hybrid α) (ops : HybridResultOps ρ α) (g : Combine ρ α)
    (env : Env σ α) (limit : Double α) (hcResult : ρ) : Run σ ρ α :=
  if self.saveHybridResult_ ∧ ¬ g.writeToysHere then
    { outcome := .error ⟨"Option saveToys must be enabled to turn on saveHybridResult"⟩
      limit := limit, env := env, written := none }
  else
    { outcome := .ok (ops.Significance hcResult).isfinite
      limit := ops.Significance hcResult
      env := env
      written :=
        if self.saveHybridResult_ then
          some ("HybridResult_" ++ toString g.randomInteger, hcResult)
        else none }

/-- `Hybrid::runSignificance` (lines 148-170).  `limit` is the caller's variable. -/
def runSignificance (self : Hybrid α) (hc : HybridCalculatorOriginal σ ρ α)
    (ops : HybridResultOps ρ α) (g : Combine ρ α) (env : Env σ α) (limit : Double α) :
    Run σ ρ α :=
  let r := (env.r.setVal 1).setConstant true
  let env := { env with r := r }
  if self.readHybridResults_ then
    match readToysFromFile ops g.readToysFromHere with
    | .error e => { outcome := .error e, limit := limit, env := env, written := none }
    | .ok none => { outcome := .ok false, limit := limit, env := env, written := none }
    | .ok (some hcResult) => self.reportSignificance ops g env limit hcResult
  else
    match hc.GetHypoTest env.hc env.r with
    | (none, hcState) =>
      { outcome := .ok false, limit := limit
        env := { env with hc := hcState, requests := env.requests ++ [env.r] }
        written := none }
    | (some hcResult, hcState) =>
      self.reportSignificance ops g
        { env with hc := hcState, requests := env.requests ++ [env.r] } limit hcResult

/-- `Hybrid::run` (lines 46-78).  `env.hc` is the hidden state of the calculator that line 53
constructs, `limit` the caller's variable and `hint` the pointer argument. -/
def run (self : Hybrid α) (hc : HybridCalculatorOriginal σ ρ α)
    (set : HybridCalculatorSetters σ) (ops : HybridResultOps ρ α) (g : Combine ρ α)
    (fuel : Nat) (env : Env σ α) (limit : α) (hint : Option α) :
    Except Fault (Run σ ρ α) :=
  let r := g.loadSnapshot (env.r.setConstant true)
  if g.withSystematics ∧ (¬ g.hasNuisances ∨ ¬ g.hasNuisancePdf) then
    .ok { outcome := .error ⟨"Hybrid: running with systematics enabled, but nuisances or nuisancePdf not defined."⟩
          limit := .finite limit, env := { env with r := r }, written := none }
  else
    let hcState :=
      if g.withSystematics then
        set.SetNuisanceParameters (set.SetNuisancePdf (set.UseNuisance true env.hc))
      else
        set.UseNuisance false env.hc
    let (hcState, r) :=
      if self.testStat_ = "LEP" then
        (set.SetTestStatistic 1 hcState, r.setConstant true)
      else if self.testStat_ = "TEV" then
        (set.SetTestStatistic 3 hcState, r.setConstant true)
      else if self.testStat_ = "Atlas" then
        (set.SetTestStatistic 3 hcState, r.setConstant false)
      else
        (hcState, r)
    let hcState := set.SetNumberOfToys self.nToys_ (set.PatchSetExtended g.canBeExtended hcState)
    let env := { env with hc := hcState, r := r }
    if g.doSignificance_ then
      .ok (self.runSignificance hc ops g env (.finite limit))
    else
      match self.runLimit hc g.cl fuel env limit hint with
      | .error e => .error e
      | .ok res =>
        .ok { outcome := .ok res.ret, limit := .finite res.limit, env := res.final.env
              written := none }

end Hybrid

/-! ### The arithmetic of `double` -/

/-- The integer nearest to `q`, the even one of the two when `q` is half way between two
integers. -/
def roundHalfEven (q : ℚ) : ℤ :=
  if q - ⌊q⌋ < 1 / 2 then ⌊q⌋
  else if 1 / 2 < q - ⌊q⌋ then ⌊q⌋ + 1
  else if ⌊q⌋ % 2 = 0 then ⌊q⌋
  else ⌊q⌋ + 1

/-- The `double` nearest to `x`, the one with the even significand when `x` is half way between
two: the result of an arithmetic operation on `double` whose exact value is `x`.  For `x` with
`2 ^ L ≤ |x| < 2 ^ (L + 1)` the doubles around `x` are the multiples of `2 ^ (L - 52)`, 53 binary
digits.  The exponent `L` is not bounded. -/
def roundDouble (x : ℚ) : ℚ :=
  roundHalfEven (x / 2 ^ (Int.log 2 |x| - 52)) * 2 ^ (Int.log 2 |x| - 52)

namespace Hybrid
variable {σ ρ α : Type} [LinearOrderedField α]

/-- The `while` loop of `Hybrid::eval` (lines 206-212) with the results of the subtraction and of
the product in its condition rounded by `rd`. -/
def evalWhileRounded (rd : α → α) (self : Hybrid α) (hc : HybridCalculatorOriginal σ ρ α)
    (clsTarget : α) : Nat → ρ → Env σ α → Except Fault (ρ × Env σ α)
  | fuel, hcResult, env =>
    let clsMid := (self.readCLs hc hcResult).1
    let clsMidErr := (self.readCLs hc hcResult).2
    if |rd (clsMid - clsTarget)| < rd (3 * clsMidErr) ∧ clsMidErr ≥ self.clsAccuracy_ then
      match fuel with
      | 0 => .error .outOfFuel
      | fuel + 1 =>
        match hc.GetHypoTest env.hc env.r with
        | (none, _) => .error .nullDeref
        | (some more, hcState) =>
          evalWhileRounded rd self hc clsTarget fuel (hc.Add hcResult more)
            { env with hc := hcState, requests := env.requests ++ [env.r] }
    else
      .ok (hcResult, env)

/-- `Hybrid::eval` (lines 194-222) with the arithmetic rounded by `rd`. -/
def evalRounded (rd : α → α) (self : Hybrid α) (hc : HybridCalculatorOriginal σ ρ α)
    (fuel : Nat) (env : Env σ α) (rVal : α) (adaptive : Bool) (clsTarget : α) :
    Except Fault (CLs_t α × Env σ α) :=
  let r := env.r.setVal rVal
  match hc.GetHypoTest env.hc r with
  | (none, hcState) =>
    .ok ((-1, -1), { hc := hcState, r := r, requests := env.requests ++ [r] })
  | (some hcResult, hcState) =>
    let env := { hc := hcState, r := r, requests := env.requests ++ [r] }
    if adaptive then
      match self.evalWhileRounded rd hc clsTarget fuel hcResult env with
      | .error e => .error e
      | .ok (hcResult, env) => .ok (self.readCLs hc hcResult, env)
    else
      .ok (self.readCLs hc hcResult, env)

/-- The `do ... while` loop of lines 106-122, the bisection, with the arithmetic rounded by `rd`:
the sum and the product of the midpoint `0.5*(rMin+rMax)`, the difference in the test of
line 112, and the difference and the product in the `while` condition of line 122. -/
def bisectRounded (rd : α → α) (self : Hybrid α) (hc : HybridCalculatorOriginal σ ρ α)
    (clsTarget : α) (fuel : Nat) : Nat → Search σ α → Except Fault (Exit × Search σ α)
  | 0, _ => .error .outOfFuel
  | n + 1, s =>
    match self.evalRounded rd hc fuel s.env (rd (1 / 2 * rd (s.rMin + s.rMax))) true clsTarget
    with
    | .error e => .error e
    | .ok (clsMid, env) =>
      if clsMid.2 = -1 then
        .ok (.hypotestFailed, { s with env := env })
      else if |rd (clsMid.1 - clsTarget)| ≤ self.clsAccuracy_ then
        .ok (.lucky, { s with env := env })
      else
        let s : Search σ α :=
          if decide (clsMid.1 > clsTarget) = decide (s.clsMax.1 > clsTarget) then
            { s with env := env, rMax := env.r.getVal, clsMax := clsMid }
          else
            { s with env := env, rMin := env.r.getVal, clsMin := clsMid }
        if rd (s.rMax - s.rMin)
            > max self.rAbsAccuracy_ (rd (self.rRelAccuracy_ * s.env.r.getVal)) then
          bisectRounded rd self hc clsTarget fuel n s
        else
          .ok (.widthReached, s)

end Hybrid

end CombinedLimit

/-! ## Notions used in the statements -/

namespace CombinedLimit

namespace Hybrid
variable {σ ρ α : Type} [LinearOrderedField α]

/-- The condition under which the `while` loop of `eval` goes on (line 206). -/
def unresolved (self : Hybrid α) (clsTarget : α) (c : CLs_t α) : Prop :=
  |c.1 - clsTarget| < 3 * c.2 ∧ c.2 ≥ self.clsAccuracy_

/-- The environment right after the first `GetHypoTest` request of `eval` at `rVal`. -/
def afterFirst (hc : HybridCalculatorOriginal σ ρ α) (env : Env σ α) (rVal : α) : Env σ α :=
  { hc := (hc.GetHypoTest env.hc (env.r.setVal rVal)).2
    r := env.r.setVal rVal
    requests := env.requests ++ [env.r.setVal rVal] }

/-- The sample of a first request: the sentinel `(-1, -1)` for a null pointer, else the statistic
and its error read off the result. -/
def firstSample (self : Hybrid α) (hc : HybridCalculatorOriginal σ ρ α) (env : Env σ α)
    (rVal : α) : CLs_t α :=
  match (hc.GetHypoTest env.hc (env.r.setVal rVal)).1 with
  | none => (-1, -1)
  | some hcResult => self.readCLs hc hcResult

/-- The stop condition of the bracket expansion (line 95): the statistic is zero, or the
statistic plus three times its error is below `cl`. -/
def stops (cl : α) (c : CLs_t α) : Prop :=
  c.1 = 0 ∨ c.1 + 3 * |c.2| < cl

instance (cl : α) (c : CLs_t α) : Decidable (stops cl c) :=
  inferInstanceAs (Decidable (_ ∨ _))

/-- The variable `r` at probe `k` of the expansion that starts from `r`: its value and the upper
end of its range are both `r.getMax * 2 ^ k`. -/
def probeVar (r : RooRealVar α) (k : Nat) : RooRealVar α :=
  { r with getVal := r.getMax * 2 ^ k, getMax := r.getMax * 2 ^ k }

/-- The hidden state of the calculator before probe `k`, when the probes `0, 1, ...` are
requested in turn from the state `s0`. -/
def probeState (hc : HybridCalculatorOriginal σ ρ α) (r : RooRealVar α) (s0 : σ) : Nat → σ
  | 0 => s0
  | k + 1 => (hc.GetHypoTest (probeState hc r s0 k) (probeVar r k)).2

/-- The sample of probe `k`: one request at `probeVar r k`, no adaptive resampling. -/
def probeSample (self : Hybrid α) (hc : HybridCalculatorOriginal σ ρ α) (r : RooRealVar α)
    (s0 : σ) (k : Nat) : CLs_t α :=
  match (hc.GetHypoTest (probeState hc r s0 k) (probeVar r k)).1 with
  | none => (-1, -1)
  | some hcResult => self.readCLs hc hcResult

/-- The environment in which the expansion from `env` is left when probe `k` is accepted. -/
def acceptedEnv (hc : HybridCalculatorOriginal σ ρ α) (env : Env σ α) (k : Nat) : Env σ α :=
  { hc := probeState hc env.r env.hc (k + 1)
    r := probeVar env.r k
    requests := env.requests ++ (List.range (k + 1)).map (probeVar env.r) }

/-- The environment in which the expansion from `env` is left when it gives up, after probe 5. -/
def cappedEnv (hc : HybridCalculatorOriginal σ ρ α) (env : Env σ α) : Env σ α :=
  { hc := probeState hc env.r env.hc 6
    r := (probeVar env.r 5).setMax (env.r.getMax * 2 ^ 6)
    requests := env.requests ++ (List.range 6).map (probeVar env.r) }

/-- The environment at the head of the loop before probe `k`; `v` is the value of `r` then. -/
def stageEnv (hc : HybridCalculatorOriginal σ ρ α) (env : Env σ α) (k : Nat) (v : α) :
    Env σ α :=
  { hc := probeState hc env.r env.hc k
    r := { env.r with getVal := v, getMax := env.r.getMax * 2 ^ k }
    requests := env.requests ++ (List.range k).map (probeVar env.r) }

/-- The locals after an iteration of the bisection that neither fails nor is lucky
(lines 117-121): the midpoint, which is the value of `r`, replaces `rMax` when the sample and
`clsMax` are on the same side of `clsTarget`, and `rMin` otherwise. -/
def replace (clsTarget : α) (s : Search σ α) (clsMid : CLs_t α) (env : Env σ α) : Search σ α :=
  if decide (clsMid.1 > clsTarget) = decide (s.clsMax.1 > clsTarget) then
    { s with env := env, rMax := env.r.getVal, clsMax := clsMid }
  else
    { s with env := env, rMin := env.r.getVal, clsMin := clsMid }

/-- A calculator without noise on the curve `f`: every request returns a result, and the
statistic that drives the search, read off that result, is `f` at the current value of `r` with
error `0`. -/
def Noiseless (self : Hybrid α) (hc : HybridCalculatorOriginal σ ρ α) (f : α → α) : Prop :=
  ∀ (st : σ) (r : RooRealVar α),
    ∃ res, (hc.GetHypoTest st r).1 = some res ∧ self.readCLs hc res = (f r.getVal, 0)

/-- The environment after lines 81-84 of `runLimit`: `r` is set constant, and a hint above the
lower end of its range caps the upper end at three times the hint. -/
def prepare (env : Env σ α) (hint : Option α) : Env σ α :=
  { env with
    r := match hint with
      | some h =>
        if h > (env.r.setConstant true).getMin then
          (env.r.setConstant true).setMax (min (3 * h) (env.r.setConstant true).getMax)
        else env.r.setConstant true
      | none => env.r.setConstant true }

/-- The locals of `runLimit` at line 104, when the expansion has left the environment `env`:
the bracket is `[0, r->getMax()]`, `clsMin = (1, 0)` and `clsMax = (0, 0)`. -/
def bracket (env : Env σ α) : Search σ α :=
  { env := env, rMin := 0, rMax := env.r.getMax, clsMin := (1, 0), clsMax := (0, 0) }

/-- With the fuel `fuel`, every adaptive evaluation towards `clsTarget` returns: no request of
the resampling loop hits a null pointer, and the loop ends within the fuel. -/
def EvalReturns (self : Hybrid α) (hc : HybridCalculatorOriginal σ ρ α) (clsTarget : α)
    (fuel : Nat) : Prop :=
  ∀ (env : Env σ α) (rVal : α), ∃ out, self.eval hc fuel env rVal true clsTarget = .ok out

/-- The stored samples of the locals `s` are on the two sides of the target:
`clsMax.value ≤ clsTarget < clsMin.value`. -/
def Straddles (clsTarget : α) (s : Search σ α) : Prop :=
  s.clsMax.1 ≤ clsTarget ∧ clsTarget < s.clsMin.1

/-- The replacement rule as a direct comparison with the target: the midpoint, which is the value
of `r`, replaces `rMax` exactly when the sample is not above `clsTarget`, and `rMin` exactly when
it is above. -/
def replaceDirect (clsTarget : α) (s : Search σ α) (clsMid : CLs_t α) (env : Env σ α) :
    Search σ α :=
  if clsMid.1 ≤ clsTarget then
    { s with env := env, rMax := env.r.getVal, clsMax := clsMid }
  else
    { s with env := env, rMin := env.r.getVal, clsMin := clsMid }

/-- The bisection loop with the replacement rule as a direct comparison with the target, in
place of the sign agreement with `clsMax` of line 117. -/
def bisectDirect (self : Hybrid α) (hc : HybridCalculatorOriginal σ ρ α) (clsTarget : α)
    (fuel : Nat) : Nat → Search σ α → Except Fault (Exit × Search σ α)
  | 0, _ => .error .outOfFuel
  | n + 1, s =>
    match self.eval hc fuel s.env (1 / 2 * (s.rMin + s.rMax)) true clsTarget with
    | .error e => .error e
    | .ok (clsMid, env) =>
      if clsMid.2 = -1 then
        .ok (.hypotestFailed, { s with env := env })
      else if |clsMid.1 - clsTarget| ≤ self.clsAccuracy_ then
        .ok (.lucky, { s with env := env })
      else if (replaceDirect clsTarget s clsMid env).rMax
          - (replaceDirect clsTarget s clsMid env).rMin
          > max self.rAbsAccuracy_ (self.rRelAccuracy_ * env.r.getVal) then
        bisectDirect self hc clsTarget fuel n (replaceDirect clsTarget s clsMid env)
      else
        .ok (.widthReached, replaceDirect clsTarget s clsMid env)

/-- The bound `max(1, ceil(log2(W / rAbsAccuracy)))` on the number of bisection iterations for a
bracket of width `W`: the least `k ≥ 1` with `W / rAbsAccuracy ≤ 2 ^ k`. -/
def iterationBound [FloorRing α] (W rAbsAccuracy : α) : Nat :=
  max 1 (Nat.clog 2 ⌈W / rAbsAccuracy⌉₊)

/-- The variable `r` as `runSignificance` leaves it at lines 151-152, before line 153. -/
def significanceVar (r : RooRealVar α) : RooRealVar α :=
  (r.setVal 1).setConstant true

/-- The sample that `runSignificance` works on, what line 153 stores in `hcResult`: the result
read from the input file when `readHybridResults_` is on, the result of one request to the
calculator otherwise; `none` is the null pointer, and an error is the exception that
`readToysFromFile` throws. -/
def significanceSample (self : Hybrid α) (hc : HybridCalculatorOriginal σ ρ α)
    (ops : HybridResultOps ρ α) (g : Combine ρ α) (env : Env σ α) :
    Except logic_error (Option ρ) :=
  if self.readHybridResults_ then readToysFromFile ops g.readToysFromHere
  else .ok (hc.GetHypoTest env.hc (significanceVar env.r)).1

/-- The input file of `readHybridResults` is missing: `readToysFromHere` is the null pointer, or
the file has no directory `toys`. -/
def NoToysToRead (g : Combine ρ α) : Prop :=
  g.readToysFromHere = none ∨ ∃ file, g.readToysFromHere = some file ∧ file.toys = none

/-- The variable `r` is constant in `env`, and it was constant at every request recorded in
`env`. -/
def HeldConstant (env : Env σ α) : Prop :=
  env.r.isConstant = true ∧ ∀ x ∈ env.requests, x.isConstant = true

/-- The systematics are on and the workspace lacks the set `nuisances` or the pdf `nuisancePdf`:
the condition under which line 56 of `run` throws. -/
def NuisancesMissing (g : Combine ρ α) : Prop :=
  g.withSystematics = true ∧ (g.hasNuisances = false ∨ g.hasNuisancePdf = false)

/-- The environment in which `run` calls `runSignificance` or `runLimit` at line 77, after lines
48-75: the calculator is configured, and `r` is constant for `LEP` and `TEV` and not constant
for `Atlas`. -/
def configured (self : Hybrid α) (set : HybridCalculatorSetters σ) (g : Combine ρ α)
    (env : Env σ α) : Env σ α :=
  { hc := set.SetNumberOfToys self.nToys_ (set.PatchSetExtended g.canBeExtended
      ((if self.testStat_ = "LEP" then set.SetTestStatistic 1
        else if self.testStat_ = "TEV" then set.SetTestStatistic 3
        else if self.testStat_ = "Atlas" then set.SetTestStatistic 3
        else fun st => st)
        (if g.withSystematics then
          set.SetNuisanceParameters (set.SetNuisancePdf (set.UseNuisance true env.hc))
        else set.UseNuisance false env.hc)))
    r := if self.testStat_ = "LEP" ∨ self.testStat_ = "TEV" then
        (g.loadSnapshot (env.r.setConstant true)).setConstant true
      else if self.testStat_ = "Atlas" then
        (g.loadSnapshot (env.r.setConstant true)).setConstant false
      else g.loadSnapshot (env.r.setConstant true)
    requests := env.requests }

end Hybrid

end CombinedLimit

/-! ## Concrete inputs -/

namespace CombinedLimit

namespace Example
variable {α : Type} [LinearOrderedField α]

/-- A calculator without noise and without hidden state: a result is the value `f r` of a curve
`f` at the current value of `r`, every statistic of a result is that value, and every error is
`0`. -/
def noiseless (f : α → α) : HybridCalculatorOriginal Unit α α :=
  { GetHypoTest := fun _ r => (some (f r.getVal), ())
    Add := fun a _ => a
    CLs := fun a => a
    CLsError := fun _ => 0
    CLsplusb := fun a => a
    CLsplusbError := fun _ => 0
    CLb := fun a => a
    CLbError := fun _ => 0 }

/-- A calculator over `ℚ` whose every request returns the null pointer. -/
def failing : HybridCalculatorOriginal Unit ℚ ℚ :=
  { noiseless (fun _ : ℚ => 0) with GetHypoTest := fun _ _ => (none, ()) }

/-- A calculator over `ℚ` whose first request returns the null pointer and whose later requests
return the value `0`; the hidden state counts the requests. -/
def failingOnce : HybridCalculatorOriginal Nat ℚ ℚ :=
  { GetHypoTest := fun n _ => (if n = 0 then none else some 0, n + 1)
    Add := fun a _ => a
    CLs := fun a => a
    CLsError := fun _ => 0
    CLsplusb := fun a => a
    CLsplusbError := fun _ => 0
    CLb := fun a => a
    CLbError := fun _ => 0 }

/-- The object after `applyOptions` with every option at its default: rule `CLs`. -/
def hybrid : Hybrid α :=
  { (Hybrid.ctor : Hybrid α) with CLs_ := true }

/-- An environment before any request, with `r` at `0` in the range `[0, M]`. -/
def envOf {σ : Type} (s : σ) (M : α) : Env σ α :=
  { hc := s
    r := { getVal := 0, getMin := 0, getMax := M, isConstant := false }
    requests := [] }

/-- The curve `3 / (3 + 19 r)`: strictly decreasing on `r ≥ 0` from `1`, equal to `1/20` at
`r = 3`. -/
def hyperbola (r : ℚ) : ℚ := 3 / (3 + 19 * r)

/-- The line `1 - r / 1000`: strictly decreasing, equal to `1/20` at `r = 950`. -/
def slowLine (r : ℚ) : ℚ := 1 - r / 1000

/-- The step that is `1` below `r = 32` and `0` from there on. -/
def lateStep (r : ℚ) : ℚ := if r < 32 then 1 else 0

/-- The locals of `runLimit` at line 104, before the first bisection, for the bracket `[0, M]`
and the environment `env`. -/
def start {σ : Type} (env : Env σ α) (M : α) : Search σ α :=
  { env := env, rMin := 0, rMax := M, clsMin := (1, 0), clsMax := (0, 0) }

/-- The object with every option at its default and the option `rInterval` given. -/
def hybridInterval : Hybrid α :=
  { (hybrid : Hybrid α) with rInterval_ := true }

/-- The curve `3 / (3 + 19 r)` with its value at the single point `r = 47/16` changed to `1`. -/
def bumped (r : ℚ) : ℚ := if r = 47 / 16 then 1 else hyperbola r

/-- The object with every option at its default and the option `saveHybridResult` given. -/
def hybridSave : Hybrid α :=
  { (hybrid : Hybrid α) with saveHybridResult_ := true }

/-- The object with every option at its default and the option `readHybridResults` given. -/
def hybridRead : Hybrid α :=
  { (hybrid : Hybrid α) with readHybridResults_ := true }

/-- The object with every option at its default and the options `saveHybridResult` and
`readHybridResults` both given. -/
def hybridSaveRead : Hybrid α :=
  { (hybrid : Hybrid α) with saveHybridResult_ := true, readHybridResults_ := true }

/-- The object with the test statistic `Atlas` and every other option at its default. -/
def hybridAtlas : Hybrid α :=
  { (hybrid : Hybrid α) with testStat_ := "Atlas" }

/-- Results that are numbers: the significance of a result `x` is `x` itself when `x` is
positive and plus infinity otherwise, and appending adds. -/
def ops : HybridResultOps ℚ ℚ :=
  { Significance := fun x => if 0 < x then Double.finite x else Double.inf false
    Append := fun a b => a + b }

/-- The setters of a calculator without hidden state. -/
def setters : HybridCalculatorSetters Unit :=
  { UseNuisance := fun _ s => s
    SetNuisancePdf := fun s => s
    SetNuisanceParameters := fun s => s
    SetTestStatistic := fun _ s => s
    PatchSetExtended := fun _ s => s
    SetNumberOfToys := fun _ s => s }

/-- Globals with `cl = 19/20`, no systematics, no output directory and no input file; the mode is
the significance mode when `significance` is true and the limit mode otherwise. -/
def combine (significance : Bool) : Combine ℚ ℚ :=
  { cl := 19 / 20
    withSystematics := false
    doSignificance_ := significance
    hasNuisances := false
    hasNuisancePdf := false
    canBeExtended := false
    loadSnapshot := fun r => r
    writeToysHere := false
    readToysFromHere := none
    randomInteger := 0 }

end Example

end CombinedLimit

/-! ## Lemmas -/

namespace CombinedLimit

namespace Hybrid
variable {σ ρ α : Type} [LinearOrderedField α]

/-! ### The statistic evaluator -/

theorem evalWhile_of_resolved (self : Hybrid α) (hc : HybridCalculatorOriginal σ ρ α)
    (clsTarget : α) (fuel : Nat) (hcResult : ρ) (env : Env σ α)
    (h : ¬ self.unresolved clsTarget (self.readCLs hc hcResult)) :
    self.evalWhile hc clsTarget fuel hcResult env = .ok (hcResult, env) := by
  unfold evalWhile
  simp only [unresolved] at h
  cases fuel <;> simp [h]

theorem evalWhile_ok (self : Hybrid α) (hc : HybridCalculatorOriginal σ ρ α) (clsTarget : α) :
    ∀ (fuel : Nat) (hcResult : ρ) (env : Env σ α) (out : ρ) (env1 : Env σ α),
      self.evalWhile hc clsTarget fuel hcResult env = .ok (out, env1) →
      ¬ self.unresolved clsTarget (self.readCLs hc out) ∧ env1.r = env.r ∧
        ∃ n, env1.requests = env.requests ++ List.replicate n env.r := by
  intro fuel
  induction fuel with
  | zero =>
    intro hcResult env out env1 h
    unfold evalWhile at h
    by_cases hc1 : self.unresolved clsTarget (self.readCLs hc hcResult)
    · simp only [unresolved] at hc1
      simp [hc1] at h
    · have hc2 := hc1
      simp only [unresolved] at hc1
      simp [hc1] at h
      obtain ⟨rfl, rfl⟩ := h
      exact ⟨hc2, rfl, 0, by simp⟩
  | succ n ih =>
    intro hcResult env out env1 h
    unfold evalWhile at h
    by_cases hc1 : self.unresolved clsTarget (self.readCLs hc hcResult)
    · simp only [unresolved] at hc1
      simp only [hc1, and_self, if_true] at h
      rcases hg : hc.GetHypoTest env.hc env.r with ⟨_ | more, st⟩
      · simp [hg] at h
      · simp only [hg] at h
        obtain ⟨h1, h2, m, h3⟩ := ih _ _ _ _ h
        refine ⟨h1, h2, m + 1, ?_⟩
        simp only [h3, List.replicate_succ, List.append_assoc, List.singleton_append]
    · have hc2 := hc1
      simp only [unresolved] at hc1
      simp [hc1] at h
      obtain ⟨rfl, rfl⟩ := h
      exact ⟨hc2, rfl, 0, by simp⟩

theorem eval_nonadaptive (self : Hybrid α) (hc : HybridCalculatorOriginal σ ρ α) (fuel : Nat)
    (env : Env σ α) (rVal clsTarget : α) :
    self.eval hc fuel env rVal false clsTarget
      = .ok (self.firstSample hc env rVal, afterFirst hc env rVal) := by
  unfold eval firstSample afterFirst
  rcases hg : hc.GetHypoTest env.hc (env.r.setVal rVal) with ⟨_ | res, st⟩ <;> simp [hg]

theorem eval_of_resolved (self : Hybrid α) (hc : HybridCalculatorOriginal σ ρ α) (fuel : Nat)
    (env : Env σ α) (rVal clsTarget : α) (adaptive : Bool)
    (h : ¬ self.unresolved clsTarget (self.firstSample hc env rVal)) :
    self.eval hc fuel env rVal adaptive clsTarget
      = .ok (self.firstSample hc env rVal, afterFirst hc env rVal) := by
  cases adaptive
  · exact eval_nonadaptive self hc fuel env rVal clsTarget
  · unfold eval
    unfold firstSample at h
    unfold firstSample afterFirst
    rcases hg : hc.GetHypoTest env.hc (env.r.setVal rVal) with ⟨_ | res, st⟩
    · simp [hg]
    · simp only [hg] at h
      simp [hg, evalWhile_of_resolved self hc clsTarget fuel res _ h]

theorem eval_ok (self : Hybrid α) (hc : HybridCalculatorOriginal σ ρ α) (fuel : Nat)
    (env : Env σ α) (rVal clsTarget : α) (adaptive : Bool) (c : CLs_t α) (env1 : Env σ α)
    (h : self.eval hc fuel env rVal adaptive clsTarget = .ok (c, env1)) :
    env1.r = env.r.setVal rVal ∧
      ∃ n, env1.requests = env.requests ++ List.replicate (n + 1) (env.r.setVal rVal) := by
  cases adaptive
  · rw [eval_nonadaptive] at h
    simp only [Except.ok.injEq, Prod.mk.injEq] at h
    obtain ⟨-, rfl⟩ := h
    exact ⟨rfl, 0, rfl⟩
  · unfold eval at h
    rcases hg : hc.GetHypoTest env.hc (env.r.setVal rVal) with ⟨_ | res, st⟩
    · simp [hg] at h
      obtain ⟨-, rfl⟩ := h
      exact ⟨rfl, 0, rfl⟩
    · simp only [hg, if_true] at h
      split at h
      · simp at h
      · rename_i out env2 hw
        simp only [Except.ok.injEq, Prod.mk.injEq] at h
        obtain ⟨-, rfl⟩ := h
        obtain ⟨-, h2, m, h3⟩ := evalWhile_ok self hc clsTarget _ _ _ _ _ hw
        refine ⟨h2, m, ?_⟩
        simp only [h3, List.replicate_succ, List.append_assoc, List.singleton_append]

theorem eval_adaptive_resolved (self : Hybrid α) (hc : HybridCalculatorOriginal σ ρ α)
    (fuel : Nat) (env : Env σ α) (rVal clsTarget : α) (c : CLs_t α) (env1 : Env σ α)
    (h : self.eval hc fuel env rVal true clsTarget = .ok (c, env1)) :
    ¬ self.unresolved clsTarget c := by
  unfold eval at h
  rcases hg : hc.GetHypoTest env.hc (env.r.setVal rVal) with ⟨_ | res, st⟩
  · simp [hg] at h
    obtain ⟨rfl, -⟩ := h
    intro hu
    have h1 := hu.1
    have h2 := abs_nonneg ((-1 : α) - clsTarget)
    simp only [Prod.fst, Prod.snd] at h1
    linarith
  · simp only [hg, if_true] at h
    split at h
    · simp at h
    · rename_i out env2 hw
      simp only [Except.ok.injEq, Prod.mk.injEq] at h
      obtain ⟨rfl, -⟩ := h
      exact (evalWhile_ok self hc clsTarget _ _ _ _ _ hw).1

/-! ### The bracket expander -/

theorem stageEnv_zero (hc : HybridCalculatorOriginal σ ρ α) (env : Env σ α) :
    stageEnv hc env 0 env.r.getVal = env := by
  simp [stageEnv, probeState]

theorem expand_succ (self : Hybrid α) (hc : HybridCalculatorOriginal σ ρ α) (cl rMax : α)
    (fuel n : Nat) (env : Env σ α) :
    self.expand hc cl rMax fuel (n + 1) env =
      if stops cl (self.firstSample hc env env.r.getMax) then
        .ok (true, afterFirst hc env env.r.getMax)
      else if env.r.getMax / rMax ≥ 20 then
        .ok (false, { afterFirst hc env env.r.getMax with
                      r := (env.r.setVal env.r.getMax).setMax (env.r.getMax * 2) })
      else
        self.expand hc cl rMax fuel n
          { afterFirst hc env env.r.getMax with
            r := (env.r.setVal env.r.getMax).setMax (env.r.getMax * 2) } := by
  rw [expand, eval_nonadaptive]
  simp only [stops, afterFirst, RooRealVar.setVal, RooRealVar.setMax]

theorem firstSample_stageEnv (self : Hybrid α) (hc : HybridCalculatorOriginal σ ρ α)
    (env : Env σ α) (k : Nat) (v : α) :
    self.firstSample hc (stageEnv hc env k v) (env.r.getMax * 2 ^ k)
      = self.probeSample hc env.r env.hc k := rfl

theorem afterFirst_stageEnv (hc : HybridCalculatorOriginal σ ρ α) (env : Env σ α) (k : Nat)
    (v : α) :
    afterFirst hc (stageEnv hc env k v) (env.r.getMax * 2 ^ k) = acceptedEnv hc env k := by
  simp [afterFirst, stageEnv, acceptedEnv, probeState, probeVar, RooRealVar.setVal,
    List.range_succ]

theorem expand_stageEnv (self : Hybrid α) (hc : HybridCalculatorOriginal σ ρ α) (cl : α)
    (fuel n k : Nat) (env : Env σ α) (v : α) (hM : 0 < env.r.getMax) :
    self.expand hc cl env.r.getMax fuel (n + 1) (stageEnv hc env k v) =
      if stops cl (self.probeSample hc env.r env.hc k) then
        .ok (true, acceptedEnv hc env k)
      else if k < 5 then
        self.expand hc cl env.r.getMax fuel n (stageEnv hc env (k + 1) (env.r.getMax * 2 ^ k))
      else
        .ok (false, { acceptedEnv hc env k with
                      r := (probeVar env.r k).setMax (env.r.getMax * 2 ^ (k + 1)) }) := by
  have h1 : (stageEnv hc env k v).r.getMax = env.r.getMax * 2 ^ k := rfl
  have h2 : env.r.getMax * 2 ^ k / env.r.getMax = 2 ^ k := by
    field_simp
  have h3 : ((stageEnv hc env k v).r.setVal (env.r.getMax * 2 ^ k)).setMax
      (env.r.getMax * 2 ^ k * 2) = (probeVar env.r k).setMax (env.r.getMax * 2 ^ (k + 1)) := by
    simp [stageEnv, probeVar, RooRealVar.setVal, RooRealVar.setMax, pow_succ, mul_assoc]
  have h4 : ({ acceptedEnv hc env k with
      r := (probeVar env.r k).setMax (env.r.getMax * 2 ^ (k + 1)) } : Env σ α)
      = stageEnv hc env (k + 1) (env.r.getMax * 2 ^ k) := by
    simp [stageEnv, probeVar, acceptedEnv, RooRealVar.setMax]
  rw [expand_succ, h1, firstSample_stageEnv, afterFirst_stageEnv, h2, h3, h4]
  by_cases hs : stops cl (self.probeSample hc env.r env.hc k)
  · simp only [hs, if_true]
  · simp only [hs, if_false]
    by_cases hk : k < 5
    · have h5 : ¬ ((2 : α) ^ k ≥ 20) := by
        have : (2 : α) ^ k ≤ 2 ^ 4 := pow_le_pow_right₀ (by norm_num) (by omega)
        norm_num at this
        push_neg
        linarith
      simp only [h5, hk, if_false, if_true]
    · have h5 : (2 : α) ^ k ≥ 20 := by
        have : (2 : α) ^ 5 ≤ 2 ^ k := pow_le_pow_right₀ (by norm_num) (by omega)
        norm_num at this
        linarith
      simp only [h5, hk, if_false, if_true]

theorem cappedEnv_eq (hc : HybridCalculatorOriginal σ ρ α) (env : Env σ α) :
    ({ acceptedEnv hc env 5 with r := (probeVar env.r 5).setMax (env.r.getMax * 2 ^ (5 + 1)) }
      : Env σ α) = cappedEnv hc env := rfl

/-- The expansion from the head of the loop before probe `k`, with fuel for the probes left:
it accepts the first probe from `k` on that satisfies the stop condition, and gives up when
none up to probe 5 does. -/
theorem expand_stage (self : Hybrid α) (hc : HybridCalculatorOriginal σ ρ α) (cl : α)
    (fuel : Nat) (env : Env σ α) (hM : 0 < env.r.getMax) :
    ∀ d k : Nat, k + d = 5 → ∀ n : Nat, d + 1 ≤ n → ∀ v : α,
      (∀ j, k ≤ j → j ≤ 5 → stops cl (self.probeSample hc env.r env.hc j) →
          (∀ i, k ≤ i → i < j → ¬ stops cl (self.probeSample hc env.r env.hc i)) →
          self.expand hc cl env.r.getMax fuel n (stageEnv hc env k v)
            = .ok (true, acceptedEnv hc env j)) ∧
      ((∀ j, k ≤ j → j ≤ 5 → ¬ stops cl (self.probeSample hc env.r env.hc j)) →
          self.expand hc cl env.r.getMax fuel n (stageEnv hc env k v)
            = .ok (false, cappedEnv hc env)) := by
  intro d
  induction d with
  | zero =>
    intro k hk n hn v
    obtain rfl : k = 5 := by omega
    obtain ⟨m, rfl⟩ : ∃ m, n = m + 1 := ⟨n - 1, by omega⟩
    rw [expand_stageEnv self hc cl fuel m 5 env v hM]
    constructor
    · intro j hj1 hj2 hs _
      obtain rfl : j = 5 := by omega
      simp only [hs, if_true]
    · intro hall
      have hs := hall 5 (le_refl _) (le_refl _)
      simp only [hs, if_false, lt_irrefl, cappedEnv_eq]
  | succ d ih =>
    intro k hk n hn v
    obtain ⟨m, rfl⟩ : ∃ m, n = m + 1 := ⟨n - 1, by omega⟩
    have hk5 : k < 5 := by omega
    rw [expand_stageEnv self hc cl fuel m k env v hM]
    obtain ⟨ih1, ih2⟩ := ih (k + 1) (by omega) m (by omega) (env.r.getMax * 2 ^ k)
    constructor
    · intro j hj1 hj2 hs hfirst
      rcases Nat.eq_or_lt_of_le hj1 with rfl | hlt
      · simp only [hs, if_true]
      · have hk' := hfirst k (le_refl _) hlt
        simp only [hk', if_false, hk5, if_true]
        exact ih1 j hlt hj2 hs (fun i hi1 hi2 => hfirst i (by omega) hi2)
    · intro hall
      have hs := hall k (le_refl _) (by omega)
      simp only [hs, if_false, hk5, if_true]
      exact ih2 (fun j hj1 hj2 => hall j (by omega) hj2)

/-- The bracket expansion as `runLimit` starts it, with fuel for six probes: it accepts the first
of the probes `0 .. 5` that satisfies the stop condition, and gives up when none does. -/
theorem expand_cases (self : Hybrid α) (hc : HybridCalculatorOriginal σ ρ α) (cl : α)
    (fuel n : Nat) (env : Env σ α) (hM : 0 < env.r.getMax) (hn : 6 ≤ n) :
    (∃ k, k ≤ 5 ∧ stops cl (self.probeSample hc env.r env.hc k) ∧
        (∀ i, i < k → ¬ stops cl (self.probeSample hc env.r env.hc i)) ∧
        self.expand hc cl env.r.getMax fuel n env = .ok (true, acceptedEnv hc env k)) ∨
    ((∀ k, k ≤ 5 → ¬ stops cl (self.probeSample hc env.r env.hc k)) ∧
        self.expand hc cl env.r.getMax fuel n env = .ok (false, cappedEnv hc env)) := by
  obtain ⟨h1, h2⟩ := expand_stage self hc cl fuel env hM 5 0 (by omega) n (by omega) env.r.getVal
  rw [stageEnv_zero] at h1 h2
  by_cases hex : ∃ k, k ≤ 5 ∧ stops cl (self.probeSample hc env.r env.hc k)
  · left
    classical
    refine ⟨Nat.find hex, (Nat.find_spec hex).1, (Nat.find_spec hex).2, ?_, ?_⟩
    · intro i hi hs
      exact Nat.find_min hex hi ⟨by have := (Nat.find_spec hex).1; omega, hs⟩
    · refine h1 _ (Nat.zero_le _) (Nat.find_spec hex).1 (Nat.find_spec hex).2 ?_
      intro i _ hi hs
      exact Nat.find_min hex hi ⟨by have := (Nat.find_spec hex).1; omega, hs⟩
  · right
    push_neg at hex
    exact ⟨hex, h2 (fun j _ hj => hex j hj)⟩

/-! ### The bisection searcher -/

theorem eval_ok_last (self : Hybrid α) (hc : HybridCalculatorOriginal σ ρ α) (fuel : Nat)
    (env : Env σ α) (rVal clsTarget : α) (adaptive : Bool) (c : CLs_t α) (env1 : Env σ α)
    (h : self.eval hc fuel env rVal adaptive clsTarget = .ok (c, env1)) :
    ∃ l, env1.requests = l ++ [env1.r] := by
  obtain ⟨h1, m, h2⟩ := eval_ok self hc fuel env rVal clsTarget adaptive c env1 h
  refine ⟨env.requests ++ List.replicate m (env.r.setVal rVal), ?_⟩
  rw [h2, h1, List.replicate_succ', List.append_assoc]

theorem bisect_succ (self : Hybrid α) (hc : HybridCalculatorOriginal σ ρ α) (clsTarget : α)
    (fuel n : Nat) (s : Search σ α) (clsMid : CLs_t α) (env : Env σ α)
    (h : self.eval hc fuel s.env (1 / 2 * (s.rMin + s.rMax)) true clsTarget = .ok (clsMid, env)) :
    self.bisect hc clsTarget fuel (n + 1) s =
      if clsMid.2 = -1 then
        .ok (.hypotestFailed, { s with env := env })
      else if |clsMid.1 - clsTarget| ≤ self.clsAccuracy_ then
        .ok (.lucky, { s with env := env })
      else if (replace clsTarget s clsMid env).rMax - (replace clsTarget s clsMid env).rMin
          > max self.rAbsAccuracy_ (self.rRelAccuracy_ * env.r.getVal) then
        self.bisect hc clsTarget fuel n (replace clsTarget s clsMid env)
      else
        .ok (.widthReached, replace clsTarget s clsMid env) := by
  have henv : (replace clsTarget s clsMid env).env = env := by
    unfold replace; split <;> rfl
  rw [bisect, h]
  simp only [replace] at henv ⊢
  simp only [henv]

theorem replace_env (clsTarget : α) (s : Search σ α) (clsMid : CLs_t α) (env : Env σ α) :
    (replace clsTarget s clsMid env).env = env := by
  unfold replace; split <;> rfl

theorem replace_val (clsTarget : α) (s : Search σ α) (clsMid : CLs_t α) (env : Env σ α) :
    env.r.getVal = (replace clsTarget s clsMid env).rMax ∨
      env.r.getVal = (replace clsTarget s clsMid env).rMin := by
  unfold replace; split
  · exact Or.inl rfl
  · exact Or.inr rfl

theorem bisect_widthReached (self : Hybrid α) (hc : HybridCalculatorOriginal σ ρ α)
    (clsTarget : α) (fuel : Nat) :
    ∀ (n : Nat) (s s1 : Search σ α),
      self.bisect hc clsTarget fuel n s = .ok (.widthReached, s1) →
      s1.rMax - s1.rMin ≤ max self.rAbsAccuracy_ (self.rRelAccuracy_ * s1.env.r.getVal) ∧
      (s1.env.r.getVal = s1.rMax ∨ s1.env.r.getVal = s1.rMin) ∧
      ∃ l, s1.env.requests = l ++ [s1.env.r] := by
  intro n
  induction n with
  | zero =>
    intro s s1 h
    simp [bisect] at h
  | succ n ih =>
    intro s s1 h
    rcases he : self.eval hc fuel s.env (1 / 2 * (s.rMin + s.rMax)) true clsTarget
      with e | ⟨clsMid, env⟩
    · rw [bisect, he] at h
      simp at h
    · rw [bisect_succ self hc clsTarget fuel n s clsMid env he] at h
      split at h
      · simp at h
      · split at h
        · simp at h
        · split at h
          · exact ih _ _ h
          · rename_i hw
            simp only [Except.ok.injEq, Prod.mk.injEq, true_and] at h
            subst h
            rw [replace_env]
            exact ⟨not_lt.mp hw, replace_val clsTarget s clsMid env,
              eval_ok_last self hc fuel _ _ _ _ _ _ he⟩

theorem conclude_lucky (self : Hybrid α) (hc : HybridCalculatorOriginal σ ρ α) (clsTarget : α)
    (fuel : Nat) (s : Search σ α) (res : LimitRun σ α)
    (h : self.conclude hc clsTarget fuel true s = .ok res) :
    res.ret = true ∧ res.lucky = true ∧ res.limit = s.env.r.getVal := by
  unfold conclude at h
  simp only [if_true] at h
  split at h
  · split at h
    · simp at h
    · split at h
      · simp at h
      · simp only [Except.ok.injEq] at h
        subst h
        exact ⟨rfl, rfl, rfl⟩
  · simp only [Except.ok.injEq] at h
    subst h
    exact ⟨rfl, rfl, rfl⟩

/-! ### Calculators without noise -/

theorem firstSample_noiseless (self : Hybrid α) (hc : HybridCalculatorOriginal σ ρ α)
    (f : α → α) (hN : Noiseless self hc f) (env : Env σ α) (rVal : α) :
    self.firstSample hc env rVal = (f rVal, 0) := by
  obtain ⟨res, h1, h2⟩ := hN env.hc (env.r.setVal rVal)
  simp only [firstSample, h1, h2]
  rfl

theorem eval_noiseless (self : Hybrid α) (hc : HybridCalculatorOriginal σ ρ α)
    (f : α → α) (hN : Noiseless self hc f) (fuel : Nat) (env : Env σ α) (rVal clsTarget : α)
    (adaptive : Bool) :
    self.eval hc fuel env rVal adaptive clsTarget
      = .ok ((f rVal, 0), afterFirst hc env rVal) := by
  rw [← firstSample_noiseless self hc f hN env rVal]
  apply eval_of_resolved
  rw [firstSample_noiseless self hc f hN env rVal]
  intro hu
  have h1 := hu.1
  have h2 := abs_nonneg (f rVal - clsTarget)
  simp only [mul_zero] at h1
  exact absurd h1 (not_lt.mpr h2)

theorem noiseless_example (self : Hybrid α) (f : α → α) :
    Noiseless self (Example.noiseless f) f := by
  intro st r
  exact ⟨f r.getVal, rfl, by simp [readCLs, Example.noiseless]⟩

theorem bisect_noiseless (self : Hybrid α) (hc : HybridCalculatorOriginal σ ρ α)
    (f : α → α) (hN : Noiseless self hc f) (clsTarget : α) (fuel n : Nat) (s : Search σ α) :
    self.bisect hc clsTarget fuel (n + 1) s =
      if |f (1 / 2 * (s.rMin + s.rMax)) - clsTarget| ≤ self.clsAccuracy_ then
        .ok (.lucky, { s with env := afterFirst hc s.env (1 / 2 * (s.rMin + s.rMax)) })
      else if f (1 / 2 * (s.rMin + s.rMax)) > clsTarget ↔ s.clsMax.1 > clsTarget then
        if 1 / 2 * (s.rMin + s.rMax) - s.rMin
            > max self.rAbsAccuracy_ (self.rRelAccuracy_ * (1 / 2 * (s.rMin + s.rMax))) then
          self.bisect hc clsTarget fuel n
            { s with env := afterFirst hc s.env (1 / 2 * (s.rMin + s.rMax))
                     rMax := 1 / 2 * (s.rMin + s.rMax)
                     clsMax := (f (1 / 2 * (s.rMin + s.rMax)), 0) }
        else
          .ok (.widthReached,
            { s with env := afterFirst hc s.env (1 / 2 * (s.rMin + s.rMax))
                     rMax := 1 / 2 * (s.rMin + s.rMax)
                     clsMax := (f (1 / 2 * (s.rMin + s.rMax)), 0) })
      else
        if s.rMax - 1 / 2 * (s.rMin + s.rMax)
            > max self.rAbsAccuracy_ (self.rRelAccuracy_ * (1 / 2 * (s.rMin + s.rMax))) then
          self.bisect hc clsTarget fuel n
            { s with env := afterFirst hc s.env (1 / 2 * (s.rMin + s.rMax))
                     rMin := 1 / 2 * (s.rMin + s.rMax)
                     clsMin := (f (1 / 2 * (s.rMin + s.rMax)), 0) }
        else
          .ok (.widthReached,
            { s with env := afterFirst hc s.env (1 / 2 * (s.rMin + s.rMax))
                     rMin := 1 / 2 * (s.rMin + s.rMax)
                     clsMin := (f (1 / 2 * (s.rMin + s.rMax)), 0) }) := by
  rw [bisect_succ self hc clsTarget fuel n s _ _
    (eval_noiseless self hc f hN fuel s.env _ clsTarget true)]
  have h0 : ¬ ((0 : α) = -1) := by norm_num
  simp only [h0, if_false]
  by_cases hl : |f (1 / 2 * (s.rMin + s.rMax)) - clsTarget| ≤ self.clsAccuracy_
  · simp only [hl, if_true]
  · simp only [hl, if_false]
    by_cases hside : f (1 / 2 * (s.rMin + s.rMax)) > clsTarget ↔ s.clsMax.1 > clsTarget
    · have hd : decide (f (1 / 2 * (s.rMin + s.rMax)) > clsTarget)
          = decide (s.clsMax.1 > clsTarget) := by
        simp only [decide_eq_decide]; exact hside
      simp only [replace, hd, hside, if_true, afterFirst, RooRealVar.setVal]
    · have hd : ¬ (decide (f (1 / 2 * (s.rMin + s.rMax)) > clsTarget)
          = decide (s.clsMax.1 > clsTarget)) := by
        simp only [decide_eq_decide]; exact hside
      simp only [replace, hd, hside, if_false, afterFirst, RooRealVar.setVal]

/-! ### `runLimit` in terms of its loops -/

theorem runLimit_accepted (self : Hybrid α) (hc : HybridCalculatorOriginal σ ρ α) (cl : α)
    (fuel : Nat) (env : Env σ α) (limit : α) (hint : Option α) (env1 : Env σ α)
    (h : self.expand hc cl (prepare env hint).r.getMax fuel fuel (prepare env hint)
      = .ok (true, env1)) :
    self.runLimit hc cl fuel env limit hint
      = self.search hc (1 - cl) fuel fuel limit (bracket env1) := by
  unfold prepare at h
  unfold runLimit
  simp only [h]
  rfl

theorem runLimit_capped (self : Hybrid α) (hc : HybridCalculatorOriginal σ ρ α) (cl : α)
    (fuel : Nat) (env : Env σ α) (limit : α) (hint : Option α) (env1 : Env σ α)
    (h : self.expand hc cl (prepare env hint).r.getMax fuel fuel (prepare env hint)
      = .ok (false, env1)) :
    self.runLimit hc cl fuel env limit hint
      = .ok { ret := false, limit := limit, lucky := false,
              final := { bracket env1 with rMax := (prepare env hint).r.getMax } } := by
  unfold prepare at h
  unfold runLimit
  simp only [h]
  rfl

theorem applyOptions_ctor :
    (ctor : Hybrid α).applyOptions (fun _ => 0) = .ok Example.hybrid := by
  simp [applyOptions, ctor, Example.hybrid, bind, Except.bind, pure, Except.pure]

theorem hybrid_clsAccuracy : (Example.hybrid : Hybrid α).clsAccuracy_ = 1 / 200 := by
  norm_num [Example.hybrid, ctor]

theorem hybrid_rAbsAccuracy : (Example.hybrid : Hybrid α).rAbsAccuracy_ = 1 / 10 := by
  norm_num [Example.hybrid, ctor]

theorem hybrid_rRelAccuracy : (Example.hybrid : Hybrid α).rRelAccuracy_ = 1 / 20 := by
  norm_num [Example.hybrid, ctor]

theorem hybrid_rInterval : (Example.hybrid : Hybrid α).rInterval_ = false := rfl

theorem afterFirst_example (f : α → α) (env : Env Unit α) (rVal : α) :
    afterFirst (Example.noiseless f) env rVal
      = { hc := (), r := { env.r with getVal := rVal },
          requests := env.requests ++ [{ env.r with getVal := rVal }] } := rfl

theorem expand_hyperbola_one :
    Example.hybrid.expand (Example.noiseless Example.hyperbola) (19 / 20)
        (prepare (Example.envOf () 1) none).r.getMax 6 6 (prepare (Example.envOf () 1) none)
      = .ok (true, { hc := (), r := ⟨1, 0, 1, true⟩, requests := [⟨1, 0, 1, true⟩] }) := by
  have hN := noiseless_example Example.hybrid Example.hyperbola
  rw [expand_succ, firstSample_noiseless _ _ _ hN, if_pos]
  · simp [afterFirst_example, prepare, Example.envOf, RooRealVar.setConstant]
  · norm_num [stops, Example.hyperbola, prepare, Example.envOf, RooRealVar.setConstant]

/-- A run of the default object on the curve `3 / (3 + 19 r)` from the range `[0, 1]` with
`cl = 19/20`: the expansion stops at once at `r = 1`, where the curve is at `3/22`, and the
bisection then closes in on `1` from below. -/
theorem runLimit_hyperbola_one :
    Example.hybrid.runLimit (Example.noiseless Example.hyperbola) (19 / 20) 6
        (Example.envOf () 1) 0 none
      = .ok { ret := true, limit := 31 / 32, lucky := false,
              final := { env := { hc := ()
                                  r := ⟨15 / 16, 0, 1, true⟩
                                  requests := [⟨1, 0, 1, true⟩, ⟨1 / 2, 0, 1, true⟩,
                                    ⟨3 / 4, 0, 1, true⟩, ⟨7 / 8, 0, 1, true⟩,
                                    ⟨15 / 16, 0, 1, true⟩] }
                         rMin := 15 / 16, rMax := 1
                         clsMin := (16 / 111, 0), clsMax := (0, 0) } } := by
  have hN := noiseless_example Example.hybrid Example.hyperbola
  rw [runLimit_accepted _ _ _ _ _ _ _ _ expand_hyperbola_one, search]
  rw [bisect_noiseless _ _ _ hN]
  norm_num [bracket, Example.hyperbola, hybrid_clsAccuracy, hybrid_rAbsAccuracy,
    hybrid_rRelAccuracy, afterFirst_example, abs_le]
  rw [bisect_noiseless _ _ _ hN]
  norm_num [bracket, Example.hyperbola, hybrid_clsAccuracy, hybrid_rAbsAccuracy,
    hybrid_rRelAccuracy, afterFirst_example, abs_le]
  rw [bisect_noiseless _ _ _ hN]
  norm_num [bracket, Example.hyperbola, hybrid_clsAccuracy, hybrid_rAbsAccuracy,
    hybrid_rRelAccuracy, afterFirst_example, abs_le]
  rw [bisect_noiseless _ _ _ hN]
  norm_num [bracket, Example.hyperbola, hybrid_clsAccuracy, hybrid_rAbsAccuracy,
    hybrid_rRelAccuracy, afterFirst_example, abs_le]
  norm_num [conclude]

theorem probeSample_failing (r : RooRealVar ℚ) (k : Nat) :
    Example.hybrid.probeSample Example.failing r () k = (-1, -1) := rfl

theorem not_stops_sentinel : ¬ stops (19 / 20 : ℚ) (-1, -1) := by
  norm_num [stops]

theorem eval_failingOnce (fuel : Nat) (env : Env Nat ℚ) (rVal clsTarget : ℚ) (adaptive : Bool)
    (h : env.hc ≠ 0) :
    Example.hybrid.eval Example.failingOnce fuel env rVal adaptive clsTarget
      = .ok ((0, 0), { hc := env.hc + 1, r := { env.r with getVal := rVal },
                       requests := env.requests ++ [{ env.r with getVal := rVal }] }) := by
  have hs : Example.hybrid.firstSample Example.failingOnce env rVal = (0, 0) := by
    simp [firstSample, Example.failingOnce, h, readCLs]
  have := eval_of_resolved Example.hybrid Example.failingOnce fuel env rVal clsTarget adaptive
    (by rw [hs]; simp [unresolved])
  rw [this, hs]
  rfl

theorem expand_failingOnce :
    Example.hybrid.expand Example.failingOnce (19 / 20)
        (prepare (Example.envOf 0 (1 : ℚ)) none).r.getMax 6 6 (prepare (Example.envOf 0 1) none)
      = .ok (true, { hc := 2, r := ⟨2, 0, 2, true⟩,
                     requests := [⟨1, 0, 1, true⟩, ⟨2, 0, 2, true⟩] }) := by
  rw [expand_succ, if_neg, if_neg, expand_succ, if_pos]
  · simp [afterFirst, prepare, Example.envOf, RooRealVar.setConstant, RooRealVar.setVal,
      RooRealVar.setMax, Example.failingOnce]
  · simp [stops, firstSample, afterFirst, prepare, Example.envOf, RooRealVar.setConstant,
      RooRealVar.setVal, RooRealVar.setMax, Example.failingOnce, readCLs]
  · norm_num [prepare, Example.envOf, RooRealVar.setConstant]
  · norm_num [stops, firstSample, prepare, Example.envOf, RooRealVar.setConstant,
      RooRealVar.setVal, Example.failingOnce]

/-- A run of the default object on the calculator whose first request alone returns the null
pointer, from the range `[0, 1]` with `cl = 19/20`: the sentinel sample at `r = 1` does not stop
the expansion, the probe at `r = 2` is accepted, and the bisection runs to the end. -/
theorem runLimit_failingOnce :
    Example.hybrid.runLimit Example.failingOnce (19 / 20) 6 (Example.envOf 0 1) 0 none
      = .ok { ret := true, limit := 1 / 32, lucky := false,
              final := { env := { hc := 7
                                  r := ⟨1 / 16, 0, 2, true⟩
                                  requests := [⟨1, 0, 1, true⟩, ⟨2, 0, 2, true⟩,
                                    ⟨1, 0, 2, true⟩, ⟨1 / 2, 0, 2, true⟩, ⟨1 / 4, 0, 2, true⟩,
                                    ⟨1 / 8, 0, 2, true⟩, ⟨1 / 16, 0, 2, true⟩] }
                         rMin := 0, rMax := 1 / 16
                         clsMin := (1, 0), clsMax := (0, 0) } } := by
  rw [runLimit_accepted _ _ _ _ _ _ _ _ expand_failingOnce, search]
  rw [bisect_succ _ _ _ _ _ _ _ _ (eval_failingOnce _ _ _ _ _ (by simp [bracket]))]
  norm_num [bracket, replace, hybrid_clsAccuracy, hybrid_rAbsAccuracy, hybrid_rRelAccuracy,
    abs_le]
  rw [bisect_succ _ _ _ _ _ _ _ _ (eval_failingOnce _ _ _ _ _ (by simp [bracket]))]
  norm_num [bracket, replace, hybrid_clsAccuracy, hybrid_rAbsAccuracy, hybrid_rRelAccuracy,
    abs_le]
  rw [bisect_succ _ _ _ _ _ _ _ _ (eval_failingOnce _ _ _ _ _ (by simp [bracket]))]
  norm_num [bracket, replace, hybrid_clsAccuracy, hybrid_rAbsAccuracy, hybrid_rRelAccuracy,
    abs_le]
  rw [bisect_succ _ _ _ _ _ _ _ _ (eval_failingOnce _ _ _ _ _ (by simp [bracket]))]
  norm_num [bracket, replace, hybrid_clsAccuracy, hybrid_rAbsAccuracy, hybrid_rRelAccuracy,
    abs_le]
  rw [bisect_succ _ _ _ _ _ _ _ _ (eval_failingOnce _ _ _ _ _ (by simp [bracket]))]
  norm_num [bracket, replace, hybrid_clsAccuracy, hybrid_rAbsAccuracy, hybrid_rRelAccuracy,
    abs_le]
  norm_num [conclude]

/-! ### The search on a decreasing curve without noise -/

theorem evalReturns_noiseless (self : Hybrid α) (hc : HybridCalculatorOriginal σ ρ α)
    (f : α → α) (hN : Noiseless self hc f) (clsTarget : α) (fuel : Nat) :
    EvalReturns self hc clsTarget fuel :=
  fun env rVal => ⟨_, eval_noiseless self hc f hN fuel env rVal clsTarget true⟩

theorem exp_neg_one_le : Real.exp (-1) ≤ 1 / 2 := by
  have h1 := Real.add_one_le_exp 1
  have h2 : Real.exp (-1) * Real.exp 1 = 1 := by
    rw [← Real.exp_add]; simp
  have h3 := Real.exp_pos (-1)
  nlinarith

theorem exp_neg_one_gt : 1 / 3 < Real.exp (-1) := by
  have h1 := Real.exp_one_lt_d9
  have h2 : Real.exp (-1) * Real.exp 1 = 1 := by
    rw [← Real.exp_add]; simp
  have h3 := Real.exp_pos (-1)
  nlinarith

theorem exp_neg_far (x : ℝ) (hx : x ≤ 15 / 16) :
    ¬ |Real.exp (-x) - 1 / 20| ≤ 1 / 200 ∧ ¬ Real.exp (-x) ≤ 1 / 20 := by
  have := Real.add_one_le_exp (-x)
  constructor
  · rw [abs_le]
    intro h
    linarith [h.2]
  · intro h
    linarith

theorem expand_exp_one :
    (Example.hybrid : Hybrid ℝ).expand (Example.noiseless fun r : ℝ => Real.exp (-r)) (19 / 20)
      (prepare (Example.envOf () 1) none).r.getMax 6 6 (prepare (Example.envOf () 1) none)
      = .ok (true, { hc := (), r := ⟨1, 0, 1, true⟩, requests := [⟨1, 0, 1, true⟩] }) := by
  have hN := noiseless_example (Example.hybrid : Hybrid ℝ) (fun r : ℝ => Real.exp (-r))
  rw [expand_succ, firstSample_noiseless _ _ _ hN, if_pos]
  · simp [afterFirst_example, prepare, Example.envOf, RooRealVar.setConstant]
  · right
    have := exp_neg_one_le
    norm_num [prepare, Example.envOf, RooRealVar.setConstant]
    linarith

/-- A run of the default object on the curve `exp (-r)` from the range `[0, 1]` with
`cl = 19/20`: the expansion stops at once at `r = 1`, and the bisection closes in on `1` from
below. -/
theorem runLimit_exp_one :
    Example.hybrid.runLimit (Example.noiseless fun r : ℝ => Real.exp (-r)) (19 / 20) 6
        (Example.envOf () 1) 0 none
      = .ok { ret := true, limit := 31 / 32, lucky := false,
              final := { env := { hc := ()
                                  r := ⟨15 / 16, 0, 1, true⟩
                                  requests := [⟨1, 0, 1, true⟩, ⟨1 / 2, 0, 1, true⟩,
                                    ⟨3 / 4, 0, 1, true⟩, ⟨7 / 8, 0, 1, true⟩,
                                    ⟨15 / 16, 0, 1, true⟩] }
                         rMin := 15 / 16, rMax := 1
                         clsMin := (Real.exp (-(15 / 16)), 0), clsMax := (0, 0) } } := by
  have hN := noiseless_example (Example.hybrid : Hybrid ℝ) (fun r : ℝ => Real.exp (-r))
  have h1 := exp_neg_far (1 / 2) (by norm_num)
  have h2 := exp_neg_far (3 / 4) (by norm_num)
  have h3 := exp_neg_far (7 / 8) (by norm_num)
  have h4 := exp_neg_far (15 / 16) (by norm_num)
  rw [runLimit_accepted _ _ _ _ _ _ _ _ expand_exp_one, search]
  rw [bisect_noiseless _ _ _ hN]
  norm_num [bracket, hybrid_clsAccuracy, hybrid_rAbsAccuracy, hybrid_rRelAccuracy,
    afterFirst_example, h1.1, h1.2]
  rw [bisect_noiseless _ _ _ hN]
  norm_num [bracket, hybrid_clsAccuracy, hybrid_rAbsAccuracy, hybrid_rRelAccuracy,
    afterFirst_example, h2.1, h2.2]
  rw [bisect_noiseless _ _ _ hN]
  norm_num [bracket, hybrid_clsAccuracy, hybrid_rAbsAccuracy, hybrid_rRelAccuracy,
    afterFirst_example, h3.1, h3.2]
  rw [bisect_noiseless _ _ _ hN]
  norm_num [bracket, hybrid_clsAccuracy, hybrid_rAbsAccuracy, hybrid_rRelAccuracy,
    afterFirst_example, h4.1, h4.2]
  norm_num [conclude]

/-! ### The stored samples and the replacement rule -/

theorem straddles_bracket (cl : α) (hcl0 : 0 < cl) (hcl1 : cl ≤ 1) (env : Env σ α) :
    Straddles (1 - cl) (bracket env) := by
  constructor
  · show (0 : α) ≤ 1 - cl
    linarith
  · show 1 - cl < (1 : α)
    linarith

theorem replace_eq_direct (clsTarget : α) (s : Search σ α) (clsMid : CLs_t α) (env : Env σ α)
    (h : Straddles clsTarget s) :
    replace clsTarget s clsMid env = replaceDirect clsTarget s clsMid env := by
  have hB : ¬ s.clsMax.1 > clsTarget := not_lt.mpr h.1
  unfold replace replaceDirect
  by_cases hm : clsMid.1 ≤ clsTarget
  · have hA : ¬ clsMid.1 > clsTarget := not_lt.mpr hm
    simp only [hA, hB, hm, if_true]
  · have hA : clsMid.1 > clsTarget := lt_of_not_le hm
    simp only [hA, hB, hm, if_false, decide_True, decide_False, Bool.true_eq_false]

theorem straddles_replaceDirect (clsTarget : α) (s : Search σ α) (clsMid : CLs_t α)
    (env : Env σ α) (h : Straddles clsTarget s) :
    Straddles clsTarget (replaceDirect clsTarget s clsMid env) := by
  unfold replaceDirect
  by_cases hm : clsMid.1 ≤ clsTarget
  · rw [if_pos hm]
    exact ⟨hm, h.2⟩
  · rw [if_neg hm]
    exact ⟨h.1, lt_of_not_le hm⟩

theorem bisect_eq_direct (self : Hybrid α) (hc : HybridCalculatorOriginal σ ρ α)
    (clsTarget : α) (fuel : Nat) :
    ∀ (n : Nat) (s : Search σ α), Straddles clsTarget s →
      self.bisect hc clsTarget fuel n s = self.bisectDirect hc clsTarget fuel n s := by
  intro n
  induction n with
  | zero => intro s _; rfl
  | succ n ih =>
    intro s hs
    rcases he : self.eval hc fuel s.env (1 / 2 * (s.rMin + s.rMax)) true clsTarget
      with e | ⟨clsMid, env⟩
    · rw [bisect, bisectDirect, he]
    · rw [bisect_succ self hc clsTarget fuel n s clsMid env he, bisectDirect, he]
      simp only [replace_eq_direct clsTarget s clsMid env hs]
      rw [ih _ (straddles_replaceDirect clsTarget s clsMid env hs)]

theorem bisect_straddles (self : Hybrid α) (hc : HybridCalculatorOriginal σ ρ α)
    (clsTarget : α) (fuel : Nat) :
    ∀ (n : Nat) (s : Search σ α) (ex : Exit) (s1 : Search σ α), Straddles clsTarget s →
      self.bisect hc clsTarget fuel n s = .ok (ex, s1) → Straddles clsTarget s1 := by
  intro n
  induction n with
  | zero =>
    intro s ex s1 _ h
    simp [bisect] at h
  | succ n ih =>
    intro s ex s1 hs h
    rcases he : self.eval hc fuel s.env (1 / 2 * (s.rMin + s.rMax)) true clsTarget
      with e | ⟨clsMid, env⟩
    · rw [bisect, he] at h
      simp at h
    · have hr : Straddles clsTarget (replace clsTarget s clsMid env) := by
        rw [replace_eq_direct clsTarget s clsMid env hs]
        exact straddles_replaceDirect clsTarget s clsMid env hs
      rw [bisect_succ self hc clsTarget fuel n s clsMid env he] at h
      split at h
      · simp only [Except.ok.injEq, Prod.mk.injEq] at h
        rw [← h.2]
        exact hs
      · split at h
        · simp only [Except.ok.injEq, Prod.mk.injEq] at h
          rw [← h.2]
          exact hs
        · split at h
          · exact ih _ _ _ hr h
          · simp only [Except.ok.injEq, Prod.mk.injEq] at h
            rw [← h.2]
            exact hr

/-! ### The order of the bracket -/

theorem expand_getMax (self : Hybrid α) (hc : HybridCalculatorOriginal σ ρ α) (cl rMax : α)
    (fuel : Nat) :
    ∀ (n : Nat) (env : Env σ α) (b : Bool) (env1 : Env σ α),
      self.expand hc cl rMax fuel n env = .ok (b, env1) →
      ∃ j : Nat, env1.r.getMax = env.r.getMax * 2 ^ j := by
  intro n
  induction n with
  | zero =>
    intro env b env1 h
    simp [expand] at h
  | succ n ih =>
    intro env b env1 h
    rw [expand_succ] at h
    split at h
    · simp only [Except.ok.injEq, Prod.mk.injEq] at h
      refine ⟨0, ?_⟩
      rw [← h.2]
      simp [afterFirst, RooRealVar.setVal]
    · split at h
      · simp only [Except.ok.injEq, Prod.mk.injEq] at h
        refine ⟨1, ?_⟩
        rw [← h.2]
        simp [RooRealVar.setVal, RooRealVar.setMax]
      · obtain ⟨j, hj⟩ := ih _ _ _ h
        refine ⟨j + 1, ?_⟩
        rw [hj]
        simp only [RooRealVar.setVal, RooRealVar.setMax, pow_succ]
        ring

theorem replace_ordered (clsTarget : α) (s : Search σ α) (clsMid : CLs_t α) (env : Env σ α)
    (h : s.rMin ≤ s.rMax) (hv : env.r.getVal = 1 / 2 * (s.rMin + s.rMax)) :
    (replace clsTarget s clsMid env).rMin ≤ (replace clsTarget s clsMid env).rMax := by
  unfold replace
  split
  · show s.rMin ≤ env.r.getVal
    rw [hv]; linarith
  · show env.r.getVal ≤ s.rMax
    rw [hv]; linarith

theorem bisect_ordered (self : Hybrid α) (hc : HybridCalculatorOriginal σ ρ α)
    (clsTarget : α) (fuel : Nat) :
    ∀ (n : Nat) (s : Search σ α) (ex : Exit) (s1 : Search σ α), s.rMin ≤ s.rMax →
      self.bisect hc clsTarget fuel n s = .ok (ex, s1) →
      s1.rMin ≤ s1.rMax ∧
        (ex = .lucky → s1.rMin ≤ s1.env.r.getVal ∧ s1.env.r.getVal ≤ s1.rMax) := by
  intro n
  induction n with
  | zero =>
    intro s ex s1 _ h
    simp [bisect] at h
  | succ n ih =>
    intro s ex s1 hs h
    rcases he : self.eval hc fuel s.env (1 / 2 * (s.rMin + s.rMax)) true clsTarget
      with e | ⟨clsMid, env⟩
    · rw [bisect, he] at h
      simp at h
    · have hv : env.r.getVal = 1 / 2 * (s.rMin + s.rMax) := by
        rw [(eval_ok self hc fuel _ _ _ _ _ _ he).1]
        rfl
      rw [bisect_succ self hc clsTarget fuel n s clsMid env he] at h
      split at h
      · simp only [Except.ok.injEq, Prod.mk.injEq] at h
        obtain ⟨h1, h2⟩ := h
        subst h1 h2
        exact ⟨hs, fun hx => by simp at hx⟩
      · split at h
        · simp only [Except.ok.injEq, Prod.mk.injEq] at h
          obtain ⟨h1, h2⟩ := h
          subst h1 h2
          refine ⟨hs, fun _ => ?_⟩
          show s.rMin ≤ env.r.getVal ∧ env.r.getVal ≤ s.rMax
          rw [hv]
          constructor <;> linarith
        · split at h
          · exact ih _ _ _ (replace_ordered clsTarget s clsMid env hs hv) h
          · simp only [Except.ok.injEq, Prod.mk.injEq] at h
            obtain ⟨h1, h2⟩ := h
            subst h1 h2
            exact ⟨replace_ordered clsTarget s clsMid env hs hv, fun hx => by simp at hx⟩

theorem lowerEdge_ordered (self : Hybrid α) (hc : HybridCalculatorOriginal σ ρ α)
    (clsTarget limit rBoundLow : α) (fuel : Nat) (hb : rBoundLow ≤ limit) :
    ∀ (n : Nat) (s s1 : Search σ α), s.rMin ≤ limit →
      self.lowerEdge hc clsTarget limit rBoundLow fuel n s = .ok s1 →
      s1.rMin ≤ limit ∧ s1.rMax = s.rMax := by
  intro n
  induction n with
  | zero =>
    intro s s1 hs h
    unfold lowerEdge at h
    split at h
    · simp at h
    · simp only [Except.ok.injEq] at h
      subst h
      exact ⟨hs, rfl⟩
  | succ n ih =>
    intro s s1 hs h
    unfold lowerEdge at h
    split at h
    · rename_i hcond
      simp only at h
      split at h
      · simp at h
      · rename_i cls env he
        have hv : env.r.getVal = 1 / 2 * (s.env.r.getVal + limit) := by
          rw [(eval_ok self hc fuel _ _ _ _ _ _ he).1]
          rfl
        have h' := ih _ _ (by show env.r.getVal ≤ limit; rw [hv]; linarith [hcond.1]) h
        exact h'
    · simp only [Except.ok.injEq] at h
      subst h
      exact ⟨hs, rfl⟩

theorem upperEdge_ordered (self : Hybrid α) (hc : HybridCalculatorOriginal σ ρ α)
    (clsTarget limit rBoundHigh : α) (fuel : Nat) (hb : limit ≤ rBoundHigh) :
    ∀ (n : Nat) (s s1 : Search σ α), limit ≤ s.rMax →
      self.upperEdge hc clsTarget limit rBoundHigh fuel n s = .ok s1 →
      limit ≤ s1.rMax ∧ s1.rMin = s.rMin := by
  intro n
  induction n with
  | zero =>
    intro s s1 hs h
    unfold upperEdge at h
    split at h
    · simp at h
    · simp only [Except.ok.injEq] at h
      subst h
      exact ⟨hs, rfl⟩
  | succ n ih =>
    intro s s1 hs h
    unfold upperEdge at h
    split at h
    · rename_i hcond
      simp only at h
      split at h
      · simp at h
      · rename_i cls env he
        have hv : env.r.getVal = 1 / 2 * (s.env.r.getVal + limit) := by
          rw [(eval_ok self hc fuel _ _ _ _ _ _ he).1]
          rfl
        have h' := ih _ _ (by show limit ≤ env.r.getVal; rw [hv]; linarith [hcond.1]) h
        exact h'
    · simp only [Except.ok.injEq] at h
      subst h
      exact ⟨hs, rfl⟩

theorem conclude_ordered (self : Hybrid α) (hc : HybridCalculatorOriginal σ ρ α)
    (clsTarget : α) (fuel : Nat) (hacc : 0 ≤ self.rAbsAccuracy_) (s : Search σ α)
    (res : LimitRun σ α) (h1 : s.rMin ≤ s.env.r.getVal) (h2 : s.env.r.getVal ≤ s.rMax)
    (h : self.conclude hc clsTarget fuel true s = .ok res) :
    res.final.rMin ≤ res.limit ∧ res.limit ≤ res.final.rMax := by
  have hmax : 0 ≤ max self.rAbsAccuracy_ (self.rRelAccuracy_ * s.env.r.getVal) :=
    le_trans hacc (le_max_left _ _)
  unfold conclude at h
  simp only [if_true] at h
  split at h
  · split at h
    · simp at h
    · rename_i sl hl
      obtain ⟨l1, l2⟩ := lowerEdge_ordered self hc clsTarget _ _ fuel (by linarith) _ _ _
        (by exact h1) hl
      split at h
      · simp at h
      · rename_i su hu
        obtain ⟨u1, u2⟩ := upperEdge_ordered self hc clsTarget _ _ fuel (by linarith) _ _ _
          (by show s.env.r.getVal ≤ sl.rMax; rw [l2]; exact h2) hu
        simp only [Except.ok.injEq] at h
        subst h
        exact ⟨by show su.rMin ≤ _; rw [u2]; exact l1, u1⟩
  · simp only [Except.ok.injEq] at h
    subst h
    exact ⟨h1, h2⟩

theorem runLimit_ordered (self : Hybrid α) (hc : HybridCalculatorOriginal σ ρ α) (cl : α)
    (fuel : Nat) (env : Env σ α) (limit : α) (hint : Option α)
    (hM : 0 < (prepare env hint).r.getMax) (hacc : 0 ≤ self.rAbsAccuracy_)
    (res : LimitRun σ α) (h : self.runLimit hc cl fuel env limit hint = .ok res) :
    res.final.rMin ≤ res.final.rMax ∧
      (res.lucky = true → res.final.rMin ≤ res.limit ∧ res.limit ≤ res.final.rMax) := by
  rcases hE : self.expand hc cl (prepare env hint).r.getMax fuel fuel (prepare env hint)
    with e | ⟨b, env1⟩
  · unfold prepare at hE
    unfold runLimit at h
    simp [hE] at h
  · obtain ⟨j, hj⟩ := expand_getMax self hc cl _ fuel _ _ _ _ hE
    have hpos : (0 : α) ≤ env1.r.getMax := by
      rw [hj]
      positivity
    cases b
    · rw [runLimit_capped self hc cl fuel env limit hint env1 hE] at h
      simp only [Except.ok.injEq] at h
      subst h
      exact ⟨hM.le, fun hx => by simp at hx⟩
    · rw [runLimit_accepted self hc cl fuel env limit hint env1 hE] at h
      unfold search at h
      split at h
      · simp at h
      · rename_i s1 hb
        simp only [Except.ok.injEq] at h
        subst h
        exact ⟨(bisect_ordered self hc _ fuel _ _ _ _ hpos hb).1, fun hx => by simp at hx⟩
      · rename_i s1 hb
        obtain ⟨-, o2⟩ := bisect_ordered self hc _ fuel _ _ _ _ hpos hb
        obtain ⟨o3, o4⟩ := o2 rfl
        have hc1 := conclude_ordered self hc _ fuel hacc s1 res o3 o4 h
        exact ⟨le_trans hc1.1 hc1.2, fun _ => hc1⟩
      · rename_i s1 hb
        have o1 := (bisect_ordered self hc _ fuel _ _ _ _ hpos hb).1
        simp only [conclude, Bool.false_eq_true, if_false, Except.ok.injEq] at h
        subst h
        exact ⟨o1, fun hx => by simp at hx⟩

/-! ### The width of the bracket -/

theorem replace_width (clsTarget : α) (s : Search σ α) (clsMid : CLs_t α) (env : Env σ α)
    (hv : env.r.getVal = 1 / 2 * (s.rMin + s.rMax)) :
    (replace clsTarget s clsMid env).rMax - (replace clsTarget s clsMid env).rMin
      = (s.rMax - s.rMin) / 2 := by
  unfold replace
  split
  · show env.r.getVal - s.rMin = _
    rw [hv]; ring
  · show s.rMax - env.r.getVal = _
    rw [hv]; ring

theorem bisect_width (self : Hybrid α) (hc : HybridCalculatorOriginal σ ρ α)
    (clsTarget : α) (fuel : Nat) :
    ∀ (n : Nat) (s : Search σ α) (ex : Exit) (s1 : Search σ α),
      self.bisect hc clsTarget fuel n s = .ok (ex, s1) →
      ∃ k : Nat, k ≤ n ∧ s1.rMax - s1.rMin = (s.rMax - s.rMin) / 2 ^ k ∧
        (ex = .widthReached → 1 ≤ k) ∧ (ex ≠ .widthReached → k < n) := by
  intro n
  induction n with
  | zero =>
    intro s ex s1 h
    simp [bisect] at h
  | succ n ih =>
    intro s ex s1 h
    rcases he : self.eval hc fuel s.env (1 / 2 * (s.rMin + s.rMax)) true clsTarget
      with e | ⟨clsMid, env⟩
    · rw [bisect, he] at h
      simp at h
    · have hv : env.r.getVal = 1 / 2 * (s.rMin + s.rMax) := by
        rw [(eval_ok self hc fuel _ _ _ _ _ _ he).1]
        rfl
      have hw := replace_width clsTarget s clsMid env hv
      rw [bisect_succ self hc clsTarget fuel n s clsMid env he] at h
      split at h
      · simp only [Except.ok.injEq, Prod.mk.injEq] at h
        obtain ⟨h1, h2⟩ := h
        subst h1 h2
        exact ⟨0, Nat.zero_le _, by simp, fun hx => by simp at hx, fun _ => Nat.succ_pos _⟩
      · split at h
        · simp only [Except.ok.injEq, Prod.mk.injEq] at h
          obtain ⟨h1, h2⟩ := h
          subst h1 h2
          exact ⟨0, Nat.zero_le _, by simp, fun hx => by simp at hx, fun _ => Nat.succ_pos _⟩
        · split at h
          · obtain ⟨k, hk, hwk, h3, h4⟩ := ih _ _ _ h
            refine ⟨k + 1, by omega, ?_, fun _ => by omega, fun hx => by have := h4 hx; omega⟩
            rw [hwk, hw, pow_succ, div_div]
            congr 1
            ring
          · simp only [Except.ok.injEq, Prod.mk.injEq] at h
            obtain ⟨h1, h2⟩ := h
            subst h1 h2
            refine ⟨1, by omega, ?_, fun _ => le_refl _, fun hx => by simp at hx⟩
            rw [hw, pow_one]

/-- The bisection with evaluations that return, from a bracket whose width is at most
`rAbsAccuracy_ * 2 ^ (j + 1)`: `j + 1` iterations of fuel are enough, and more fuel gives the same
result. -/
theorem bisect_within (self : Hybrid α) (hc : HybridCalculatorOriginal σ ρ α)
    (clsTarget : α) (fuel : Nat) (hev : EvalReturns self hc clsTarget fuel) :
    ∀ (j : Nat) (s : Search σ α), s.rMax - s.rMin ≤ self.rAbsAccuracy_ * 2 ^ (j + 1) →
      ∃ out, self.bisect hc clsTarget fuel (j + 1) s = .ok out ∧
        ∀ n, j + 1 ≤ n → self.bisect hc clsTarget fuel n s = .ok out := by
  intro j
  induction j with
  | zero =>
    intro s hw
    obtain ⟨⟨clsMid, env⟩, he⟩ := hev s.env (1 / 2 * (s.rMin + s.rMax))
    have hv : env.r.getVal = 1 / 2 * (s.rMin + s.rMax) := by
      rw [(eval_ok self hc fuel _ _ _ _ _ _ he).1]
      rfl
    have hstop : ¬ ((replace clsTarget s clsMid env).rMax - (replace clsTarget s clsMid env).rMin
        > max self.rAbsAccuracy_ (self.rRelAccuracy_ * env.r.getVal)) := by
      rw [replace_width clsTarget s clsMid env hv, gt_iff_lt, not_lt]
      have := le_max_left self.rAbsAccuracy_ (self.rRelAccuracy_ * env.r.getVal)
      simp only [zero_add, pow_one] at hw
      linarith
    have hform : ∀ m, self.bisect hc clsTarget fuel (m + 1) s
        = self.bisect hc clsTarget fuel (0 + 1) s := by
      intro m
      rw [bisect_succ self hc clsTarget fuel m s clsMid env he,
        bisect_succ self hc clsTarget fuel 0 s clsMid env he]
      simp only [hstop, if_false]
    have hex : ∃ out, self.bisect hc clsTarget fuel (0 + 1) s = .ok out := by
      rw [bisect_succ self hc clsTarget fuel 0 s clsMid env he]
      simp only [hstop, if_false]
      split
      · exact ⟨_, rfl⟩
      · split <;> exact ⟨_, rfl⟩
    obtain ⟨out, ho⟩ := hex
    refine ⟨out, ho, fun n hn => ?_⟩
    obtain ⟨m, rfl⟩ : ∃ m, n = m + 1 := ⟨n - 1, by omega⟩
    rw [hform m]
    exact ho
  | succ j ih =>
    intro s hw
    obtain ⟨⟨clsMid, env⟩, he⟩ := hev s.env (1 / 2 * (s.rMin + s.rMax))
    have hv : env.r.getVal = 1 / 2 * (s.rMin + s.rMax) := by
      rw [(eval_ok self hc fuel _ _ _ _ _ _ he).1]
      rfl
    have hw2 : (replace clsTarget s clsMid env).rMax - (replace clsTarget s clsMid env).rMin
        ≤ self.rAbsAccuracy_ * 2 ^ (j + 1) := by
      rw [replace_width clsTarget s clsMid env hv]
      rw [pow_succ] at hw
      linarith
    obtain ⟨out, ho1, ho2⟩ := ih (replace clsTarget s clsMid env) hw2
    by_cases h1 : clsMid.2 = -1
    · refine ⟨(Exit.hypotestFailed, { s with env := env }), ?_, ?_⟩
      · rw [bisect_succ self hc clsTarget fuel _ s clsMid env he, if_pos h1]
      · intro n hn
        obtain ⟨m, rfl⟩ : ∃ m, n = m + 1 := ⟨n - 1, by omega⟩
        rw [bisect_succ self hc clsTarget fuel _ s clsMid env he, if_pos h1]
    · by_cases h2 : |clsMid.1 - clsTarget| ≤ self.clsAccuracy_
      · refine ⟨(Exit.lucky, { s with env := env }), ?_, ?_⟩
        · rw [bisect_succ self hc clsTarget fuel _ s clsMid env he, if_neg h1, if_pos h2]
        · intro n hn
          obtain ⟨m, rfl⟩ : ∃ m, n = m + 1 := ⟨n - 1, by omega⟩
          rw [bisect_succ self hc clsTarget fuel _ s clsMid env he, if_neg h1, if_pos h2]
      · by_cases h3 : (replace clsTarget s clsMid env).rMax
            - (replace clsTarget s clsMid env).rMin
            > max self.rAbsAccuracy_ (self.rRelAccuracy_ * env.r.getVal)
        · refine ⟨out, ?_, ?_⟩
          · rw [bisect_succ self hc clsTarget fuel _ s clsMid env he, if_neg h1, if_neg h2,
              if_pos h3]
            exact ho1
          · intro n hn
            obtain ⟨m, rfl⟩ : ∃ m, n = m + 1 := ⟨n - 1, by omega⟩
            rw [bisect_succ self hc clsTarget fuel _ s clsMid env he, if_neg h1, if_neg h2,
              if_pos h3]
            exact ho2 m (by omega)
        · refine ⟨(Exit.widthReached, replace clsTarget s clsMid env), ?_, ?_⟩
          · rw [bisect_succ self hc clsTarget fuel _ s clsMid env he, if_neg h1, if_neg h2,
              if_neg h3]
          · intro n hn
            obtain ⟨m, rfl⟩ : ∃ m, n = m + 1 := ⟨n - 1, by omega⟩
            rw [bisect_succ self hc clsTarget fuel _ s clsMid env he, if_neg h1, if_neg h2,
              if_neg h3]

theorem le_mul_pow_iterationBound [FloorRing α] (W a : α) (ha : 0 < a) :
    W ≤ a * 2 ^ iterationBound W a := by
  have h1 : W / a ≤ (⌈W / a⌉₊ : α) := Nat.le_ceil _
  have h2 : ⌈W / a⌉₊ ≤ 2 ^ Nat.clog 2 ⌈W / a⌉₊ := Nat.le_pow_clog (by norm_num) _
  have h3 : (2 : ℕ) ^ Nat.clog 2 ⌈W / a⌉₊ ≤ 2 ^ iterationBound W a :=
    Nat.pow_le_pow_right (by norm_num) (le_max_right _ _)
  have h4 : ((⌈W / a⌉₊ : ℕ) : α) ≤ ((2 ^ iterationBound W a : ℕ) : α) := by
    exact_mod_cast le_trans h2 h3
  have h5 : W / a ≤ 2 ^ iterationBound W a := by
    refine le_trans h1 (le_trans h4 ?_)
    push_cast
    exact le_refl _
  have := (div_le_iff₀ ha).mp h5
  linarith

theorem iterationBound_le_iff [FloorRing α] (W a : α) (k : Nat) :
    iterationBound W a ≤ k ↔ 1 ≤ k ∧ W / a ≤ 2 ^ k := by
  unfold iterationBound
  rw [max_le_iff, ← Nat.le_pow_iff_clog_le (by norm_num : 1 < 2), Nat.ceil_le]
  push_cast
  rfl

/-! ### The interval refinement on the concrete inputs -/

theorem lowerEdge_noiseless (self : Hybrid α) (hc : HybridCalculatorOriginal σ ρ α)
    (f : α → α) (hN : Noiseless self hc f) (clsTarget limit rBoundLow : α) (fuel n : Nat)
    (s : Search σ α) :
    self.lowerEdge hc clsTarget limit rBoundLow fuel (n + 1) s =
      if s.env.r.getVal < rBoundLow ∧ |s.clsMin.1 - clsTarget| ≥ self.clsAccuracy_ then
        self.lowerEdge hc clsTarget limit rBoundLow fuel n
          { s with env := afterFirst hc s.env (1 / 2 * (s.env.r.getVal + limit))
                   clsMax := (f (1 / 2 * (s.env.r.getVal + limit)), 0)
                   rMin := 1 / 2 * (s.env.r.getVal + limit) }
      else .ok s := by
  rw [lowerEdge]
  simp only [eval_noiseless self hc f hN]
  rfl

theorem upperEdge_noiseless (self : Hybrid α) (hc : HybridCalculatorOriginal σ ρ α)
    (f : α → α) (hN : Noiseless self hc f) (clsTarget limit rBoundHigh : α) (fuel n : Nat)
    (s : Search σ α) :
    self.upperEdge hc clsTarget limit rBoundHigh fuel (n + 1) s =
      if s.env.r.getVal > rBoundHigh ∧ |s.clsMax.1 - clsTarget| ≥ self.clsAccuracy_ then
        self.upperEdge hc clsTarget limit rBoundHigh fuel n
          { s with env := afterFirst hc s.env (1 / 2 * (s.env.r.getVal + limit))
                   clsMax := (f (1 / 2 * (s.env.r.getVal + limit)), 0)
                   rMax := 1 / 2 * (s.env.r.getVal + limit) }
      else .ok s := by
  rw [upperEdge]
  simp only [eval_noiseless self hc f hN]
  rfl

theorem hybridInterval_clsAccuracy :
    (Example.hybridInterval : Hybrid α).clsAccuracy_ = 1 / 200 := by
  norm_num [Example.hybridInterval, Example.hybrid, ctor]

theorem hybridInterval_rAbsAccuracy :
    (Example.hybridInterval : Hybrid α).rAbsAccuracy_ = 1 / 10 := by
  norm_num [Example.hybridInterval, Example.hybrid, ctor]

theorem hybridInterval_rRelAccuracy :
    (Example.hybridInterval : Hybrid α).rRelAccuracy_ = 1 / 20 := by
  norm_num [Example.hybridInterval, Example.hybrid, ctor]

theorem hybridInterval_rInterval : (Example.hybridInterval : Hybrid α).rInterval_ = true := rfl

theorem expand_interval_hyperbola :
    Example.hybridInterval.expand (Example.noiseless Example.hyperbola) (19 / 20)
        (prepare (Example.envOf () 4) none).r.getMax 6 6 (prepare (Example.envOf () 4) none)
      = .ok (true, { hc := (), r := ⟨4, 0, 4, true⟩, requests := [⟨4, 0, 4, true⟩] }) := by
  have hN := noiseless_example (Example.hybridInterval : Hybrid ℚ) Example.hyperbola
  rw [expand_succ, firstSample_noiseless _ _ _ hN, if_pos]
  · simp [afterFirst_example, prepare, Example.envOf, RooRealVar.setConstant]
  · norm_num [stops, Example.hyperbola, prepare, Example.envOf, RooRealVar.setConstant]

set_option maxHeartbeats 1000000 in
theorem runLimit_interval_hyperbola :
    Example.hybridInterval.runLimit (Example.noiseless Example.hyperbola) (19 / 20) 6
        (Example.envOf () 4) 0 none
      = .ok { ret := true, limit := 3, lucky := true,
              final := { env := { hc := ()
                                  r := ⟨4, 0, 4, true⟩
                                  requests := [⟨4, 0, 4, true⟩, ⟨2, 0, 4, true⟩, ⟨3, 0, 4, true⟩, ⟨5 / 2, 0, 4, true⟩, ⟨11 / 4, 0, 4, true⟩, ⟨23 / 8, 0, 4, true⟩, ⟨47 / 16, 0, 4, true⟩] }
                         rMin := 47 / 16, rMax := 4
                         clsMin := (3 / 41, 0), clsMax := (48 / 941, 0) } } := by
  have hN := noiseless_example (Example.hybridInterval : Hybrid ℚ) Example.hyperbola
  rw [runLimit_accepted _ _ _ _ _ _ _ _ expand_interval_hyperbola, search]
  rw [bisect_noiseless _ _ _ hN]
  norm_num [bracket, Example.hyperbola, hybridInterval_clsAccuracy, hybridInterval_rAbsAccuracy,
    hybridInterval_rRelAccuracy, afterFirst_example, abs_le]
  rw [bisect_noiseless _ _ _ hN]
  norm_num [bracket, Example.hyperbola, hybridInterval_clsAccuracy, hybridInterval_rAbsAccuracy,
    hybridInterval_rRelAccuracy, afterFirst_example, abs_le]
  simp only [conclude, hybridInterval_rInterval, if_true]
  norm_num [hybridInterval_rAbsAccuracy, hybridInterval_rRelAccuracy, RooRealVar.setVal]
  rw [lowerEdge_noiseless _ _ _ hN]
  norm_num [Example.hyperbola, hybridInterval_clsAccuracy, afterFirst_example, abs_le, le_abs]
  rw [lowerEdge_noiseless _ _ _ hN]
  norm_num [Example.hyperbola, hybridInterval_clsAccuracy, afterFirst_example, abs_le, le_abs]
  rw [lowerEdge_noiseless _ _ _ hN]
  norm_num [Example.hyperbola, hybridInterval_clsAccuracy, afterFirst_example, abs_le, le_abs]
  rw [lowerEdge_noiseless _ _ _ hN]
  norm_num [Example.hyperbola, hybridInterval_clsAccuracy, afterFirst_example, abs_le, le_abs]
  rw [lowerEdge_noiseless _ _ _ hN]
  norm_num [Example.hyperbola, hybridInterval_clsAccuracy, afterFirst_example, abs_le, le_abs]
  rw [upperEdge_noiseless _ _ _ hN]
  norm_num [Example.hyperbola, hybridInterval_clsAccuracy, afterFirst_example, abs_le, le_abs]

theorem expand_interval_bumped :
    Example.hybridInterval.expand (Example.noiseless Example.bumped) (19 / 20)
        (prepare (Example.envOf () 4) none).r.getMax 6 6 (prepare (Example.envOf () 4) none)
      = .ok (true, { hc := (), r := ⟨4, 0, 4, true⟩, requests := [⟨4, 0, 4, true⟩] }) := by
  have hN := noiseless_example (Example.hybridInterval : Hybrid ℚ) Example.bumped
  rw [expand_succ, firstSample_noiseless _ _ _ hN, if_pos]
  · simp [afterFirst_example, prepare, Example.envOf, RooRealVar.setConstant]
  · norm_num [stops, Example.bumped, Example.hyperbola, prepare, Example.envOf, RooRealVar.setConstant]

set_option maxHeartbeats 1000000 in
theorem runLimit_interval_bumped :
    Example.hybridInterval.runLimit (Example.noiseless Example.bumped) (19 / 20) 6
        (Example.envOf () 4) 0 none
      = .ok { ret := true, limit := 3, lucky := true,
              final := { env := { hc := ()
                                  r := ⟨13 / 4, 0, 4, true⟩
                                  requests := [⟨4, 0, 4, true⟩, ⟨2, 0, 4, true⟩, ⟨3, 0, 4, true⟩, ⟨5 / 2, 0, 4, true⟩, ⟨11 / 4, 0, 4, true⟩, ⟨23 / 8, 0, 4, true⟩, ⟨47 / 16, 0, 4, true⟩, ⟨7 / 2, 0, 4, true⟩, ⟨13 / 4, 0, 4, true⟩] }
                         rMin := 47 / 16, rMax := 13 / 4
                         clsMin := (3 / 41, 0), clsMax := (12 / 259, 0) } } := by
  have hN := noiseless_example (Example.hybridInterval : Hybrid ℚ) Example.bumped
  rw [runLimit_accepted _ _ _ _ _ _ _ _ expand_interval_bumped, search]
  rw [bisect_noiseless _ _ _ hN]
  norm_num [bracket, Example.bumped, Example.hyperbola, hybridInterval_clsAccuracy, hybridInterval_rAbsAccuracy,
    hybridInterval_rRelAccuracy, afterFirst_example, abs_le]
  rw [bisect_noiseless _ _ _ hN]
  norm_num [bracket, Example.bumped, Example.hyperbola, hybridInterval_clsAccuracy, hybridInterval_rAbsAccuracy,
    hybridInterval_rRelAccuracy, afterFirst_example, abs_le]
  simp only [conclude, hybridInterval_rInterval, if_true]
  norm_num [hybridInterval_rAbsAccuracy, hybridInterval_rRelAccuracy, RooRealVar.setVal]
  rw [lowerEdge_noiseless _ _ _ hN]
  norm_num [Example.bumped, Example.hyperbola, hybridInterval_clsAccuracy, afterFirst_example, abs_le, le_abs]
  rw [lowerEdge_noiseless _ _ _ hN]
  norm_num [Example.bumped, Example.hyperbola, hybridInterval_clsAccuracy, afterFirst_example, abs_le, le_abs]
  rw [lowerEdge_noiseless _ _ _ hN]
  norm_num [Example.bumped, Example.hyperbola, hybridInterval_clsAccuracy, afterFirst_example, abs_le, le_abs]
  rw [lowerEdge_noiseless _ _ _ hN]
  norm_num [Example.bumped, Example.hyperbola, hybridInterval_clsAccuracy, afterFirst_example, abs_le, le_abs]
  rw [lowerEdge_noiseless _ _ _ hN]
  norm_num [Example.bumped, Example.hyperbola, hybridInterval_clsAccuracy, afterFirst_example, abs_le, le_abs]
  rw [upperEdge_noiseless _ _ _ hN]
  norm_num [Example.bumped, Example.hyperbola, hybridInterval_clsAccuracy, afterFirst_example, abs_le, le_abs]
  rw [upperEdge_noiseless _ _ _ hN]
  norm_num [Example.bumped, Example.hyperbola, hybridInterval_clsAccuracy, afterFirst_example, abs_le, le_abs]
  rw [upperEdge_noiseless _ _ _ hN]
  norm_num [Example.bumped, Example.hyperbola, hybridInterval_clsAccuracy, afterFirst_example, abs_le, le_abs]

theorem bisect_interval_hyperbola :
    Example.hybridInterval.bisect (Example.noiseless Example.hyperbola) (1 - 19 / 20) 6 6
        (bracket { hc := (), r := ⟨4, 0, 4, true⟩, requests := [⟨4, 0, 4, true⟩] })
      = .ok (Exit.lucky,
          { env := { hc := ()
                     r := ⟨3, 0, 4, true⟩
                     requests := [⟨4, 0, 4, true⟩, ⟨2, 0, 4, true⟩, ⟨3, 0, 4, true⟩] }
            rMin := 2, rMax := 4, clsMin := (3 / 41, 0), clsMax := (0, 0) }) := by
  have hN := noiseless_example (Example.hybridInterval : Hybrid ℚ) Example.hyperbola
  rw [bisect_noiseless _ _ _ hN]
  norm_num [bracket, Example.hyperbola, hybridInterval_clsAccuracy, hybridInterval_rAbsAccuracy,
    hybridInterval_rRelAccuracy, afterFirst_example, abs_le]
  rw [bisect_noiseless _ _ _ hN]
  norm_num [bracket, Example.hyperbola, hybridInterval_clsAccuracy, hybridInterval_rAbsAccuracy,
    hybridInterval_rRelAccuracy, afterFirst_example, abs_le]

theorem lowerEdge_interval_hyperbola :
    Example.hybridInterval.lowerEdge (Example.noiseless Example.hyperbola) (1 - 19 / 20) 3
        (3 - 1 / 2 * max (1 / 10) (1 / 20 * 3)) 6 6
        { env := { hc := ()
                   r := ⟨2, 0, 4, true⟩
                   requests := [⟨4, 0, 4, true⟩, ⟨2, 0, 4, true⟩, ⟨3, 0, 4, true⟩] }
          rMin := 2, rMax := 4, clsMin := (3 / 41, 0), clsMax := (0, 0) }
      = .ok { env := { hc := ()
                       r := ⟨47 / 16, 0, 4, true⟩
                       requests := [⟨4, 0, 4, true⟩, ⟨2, 0, 4, true⟩, ⟨3, 0, 4, true⟩,
                         ⟨5 / 2, 0, 4, true⟩, ⟨11 / 4, 0, 4, true⟩, ⟨23 / 8, 0, 4, true⟩,
                         ⟨47 / 16, 0, 4, true⟩] }
              rMin := 47 / 16, rMax := 4, clsMin := (3 / 41, 0), clsMax := (48 / 941, 0) } := by
  have hN := noiseless_example (Example.hybridInterval : Hybrid ℚ) Example.hyperbola
  rw [lowerEdge_noiseless _ _ _ hN]
  norm_num [Example.hyperbola, hybridInterval_clsAccuracy, afterFirst_example, abs_le, le_abs]
  rw [lowerEdge_noiseless _ _ _ hN]
  norm_num [Example.hyperbola, hybridInterval_clsAccuracy, afterFirst_example, abs_le, le_abs]
  rw [lowerEdge_noiseless _ _ _ hN]
  norm_num [Example.hyperbola, hybridInterval_clsAccuracy, afterFirst_example, abs_le, le_abs]
  rw [lowerEdge_noiseless _ _ _ hN]
  norm_num [Example.hyperbola, hybridInterval_clsAccuracy, afterFirst_example, abs_le, le_abs]
  rw [lowerEdge_noiseless _ _ _ hN]
  norm_num [Example.hyperbola, hybridInterval_clsAccuracy, afterFirst_example, abs_le, le_abs]

/-! ### Runs of other objects with the default accuracies -/

theorem expand_hyperbola_one_of (self : Hybrid ℚ) (c : Bool) :
    self.expand (Example.noiseless Example.hyperbola) (19 / 20) 1 6 6
        { hc := (), r := ⟨0, 0, 1, c⟩, requests := [] }
      = .ok (true, { hc := (), r := ⟨1, 0, 1, c⟩, requests := [⟨1, 0, 1, c⟩] }) := by
  have hN := noiseless_example self Example.hyperbola
  rw [expand_succ, firstSample_noiseless _ _ _ hN, if_pos]
  · simp [afterFirst_example]
  · norm_num [stops, Example.hyperbola]

theorem search_hyperbola_one_of (self : Hybrid ℚ) (h1 : self.clsAccuracy_ = 1 / 200)
    (h2 : self.rAbsAccuracy_ = 1 / 10) (h3 : self.rRelAccuracy_ = 1 / 20)
    (limit : ℚ) :
    self.search (Example.noiseless Example.hyperbola) (1 - 19 / 20) 6 6 limit
        (bracket { hc := (), r := ⟨1, 0, 1, true⟩, requests := [⟨1, 0, 1, true⟩] })
      = .ok { ret := true, limit := 31 / 32, lucky := false,
              final := { env := { hc := ()
                                  r := ⟨15 / 16, 0, 1, true⟩
                                  requests := [⟨1, 0, 1, true⟩, ⟨1 / 2, 0, 1, true⟩,
                                    ⟨3 / 4, 0, 1, true⟩, ⟨7 / 8, 0, 1, true⟩,
                                    ⟨15 / 16, 0, 1, true⟩] }
                         rMin := 15 / 16, rMax := 1
                         clsMin := (16 / 111, 0), clsMax := (0, 0) } } := by
  have hN := noiseless_example self Example.hyperbola
  rw [search]
  rw [bisect_noiseless _ _ _ hN]
  norm_num [bracket, Example.hyperbola, h1, h2, h3, afterFirst_example, abs_le]
  rw [bisect_noiseless _ _ _ hN]
  norm_num [bracket, Example.hyperbola, h1, h2, h3, afterFirst_example, abs_le]
  rw [bisect_noiseless _ _ _ hN]
  norm_num [bracket, Example.hyperbola, h1, h2, h3, afterFirst_example, abs_le]
  rw [bisect_noiseless _ _ _ hN]
  norm_num [bracket, Example.hyperbola, h1, h2, h3, afterFirst_example, abs_le]
  norm_num [conclude]

theorem runLimit_hyperbola_one_of (self : Hybrid ℚ) (h1 : self.clsAccuracy_ = 1 / 200)
    (h2 : self.rAbsAccuracy_ = 1 / 10) (h3 : self.rRelAccuracy_ = 1 / 20) (c : Bool) :
    self.runLimit (Example.noiseless Example.hyperbola) (19 / 20) 6
        { hc := (), r := ⟨0, 0, 1, c⟩, requests := [] } 0 none
      = .ok { ret := true, limit := 31 / 32, lucky := false,
              final := { env := { hc := ()
                                  r := ⟨15 / 16, 0, 1, true⟩
                                  requests := [⟨1, 0, 1, true⟩, ⟨1 / 2, 0, 1, true⟩,
                                    ⟨3 / 4, 0, 1, true⟩, ⟨7 / 8, 0, 1, true⟩,
                                    ⟨15 / 16, 0, 1, true⟩] }
                         rMin := 15 / 16, rMax := 1
                         clsMin := (16 / 111, 0), clsMax := (0, 0) } } := by
  have hE : self.expand (Example.noiseless Example.hyperbola) (19 / 20)
      (prepare ({ hc := (), r := ⟨0, 0, 1, c⟩, requests := [] } : Env Unit ℚ) none).r.getMax 6 6
      (prepare ({ hc := (), r := ⟨0, 0, 1, c⟩, requests := [] } : Env Unit ℚ) none)
      = .ok (true, { hc := (), r := ⟨1, 0, 1, true⟩, requests := [⟨1, 0, 1, true⟩] }) :=
    expand_hyperbola_one_of self true
  rw [runLimit_accepted _ _ _ _ _ _ _ _ hE]
  exact search_hyperbola_one_of self h1 h2 h3 0

/-! ### Whether `r` is constant at the requests -/

theorem eval_heldConstant (self : Hybrid α) (hc : HybridCalculatorOriginal σ ρ α) (fuel : Nat)
    (env : Env σ α) (rVal clsTarget : α) (adaptive : Bool) (c : CLs_t α) (env1 : Env σ α)
    (h : self.eval hc fuel env rVal adaptive clsTarget = .ok (c, env1))
    (h0 : HeldConstant env) : HeldConstant env1 := by
  obtain ⟨h1, n, h2⟩ := eval_ok self hc fuel env rVal clsTarget adaptive c env1 h
  refine ⟨by rw [h1]; exact h0.1, ?_⟩
  intro x hx
  rw [h2, List.mem_append] at hx
  rcases hx with hx | hx
  · exact h0.2 x hx
  · rw [List.eq_of_mem_replicate hx]
    exact h0.1

theorem expand_heldConstant (self : Hybrid α) (hc : HybridCalculatorOriginal σ ρ α)
    (cl rMax : α) (fuel : Nat) :
    ∀ (n : Nat) (env : Env σ α) (b : Bool) (env1 : Env σ α), HeldConstant env →
      self.expand hc cl rMax fuel n env = .ok (b, env1) → HeldConstant env1 := by
  intro n
  induction n with
  | zero =>
    intro env b env1 _ h
    simp [expand] at h
  | succ n ih =>
    intro env b env1 h0 h
    unfold expand at h
    split at h
    · simp at h
    · rename_i c env2 he
      have h2 := eval_heldConstant self hc fuel _ _ _ _ _ _ he h0
      split at h
      · simp only [Except.ok.injEq, Prod.mk.injEq] at h
        rw [← h.2]
        exact h2
      · simp only at h
        split at h
        · simp only [Except.ok.injEq, Prod.mk.injEq] at h
          rw [← h.2]
          exact h2
        · exact ih { env2 with r := env2.r.setMax (env2.r.getMax * 2) } _ _ ⟨h2.1, h2.2⟩ h

theorem bisect_heldConstant (self : Hybrid α) (hc : HybridCalculatorOriginal σ ρ α)
    (clsTarget : α) (fuel : Nat) :
    ∀ (n : Nat) (s : Search σ α) (ex : Exit) (s1 : Search σ α), HeldConstant s.env →
      self.bisect hc clsTarget fuel n s = .ok (ex, s1) → HeldConstant s1.env := by
  intro n
  induction n with
  | zero =>
    intro s ex s1 _ h
    simp [bisect] at h
  | succ n ih =>
    intro s ex s1 h0 h
    rcases he : self.eval hc fuel s.env (1 / 2 * (s.rMin + s.rMax)) true clsTarget
      with e | ⟨clsMid, env⟩
    · rw [bisect, he] at h
      simp at h
    · have h2 := eval_heldConstant self hc fuel _ _ _ _ _ _ he h0
      rw [bisect_succ self hc clsTarget fuel n s clsMid env he] at h
      split at h
      · simp only [Except.ok.injEq, Prod.mk.injEq] at h
        rw [← h.2]
        exact h2
      · split at h
        · simp only [Except.ok.injEq, Prod.mk.injEq] at h
          rw [← h.2]
          exact h2
        · split at h
          · exact ih _ _ _ (by rw [replace_env]; exact h2) h
          · simp only [Except.ok.injEq, Prod.mk.injEq] at h
            rw [← h.2, replace_env]
            exact h2

theorem lowerEdge_heldConstant (self : Hybrid α) (hc : HybridCalculatorOriginal σ ρ α)
    (clsTarget limit rBoundLow : α) (fuel : Nat) :
    ∀ (n : Nat) (s s1 : Search σ α), HeldConstant s.env →
      self.lowerEdge hc clsTarget limit rBoundLow fuel n s = .ok s1 → HeldConstant s1.env := by
  intro n
  induction n with
  | zero =>
    intro s s1 h0 h
    unfold lowerEdge at h
    split at h
    · simp at h
    · simp only [Except.ok.injEq] at h
      subst h
      exact h0
  | succ n ih =>
    intro s s1 h0 h
    unfold lowerEdge at h
    split at h
    · simp only at h
      split at h
      · simp at h
      · rename_i cls env he
        have h' := ih _ _ (eval_heldConstant self hc fuel _ _ _ _ _ _ he h0) h
        exact h'
    · simp only [Except.ok.injEq] at h
      subst h
      exact h0

theorem upperEdge_heldConstant (self : Hybrid α) (hc : HybridCalculatorOriginal σ ρ α)
    (clsTarget limit rBoundHigh : α) (fuel : Nat) :
    ∀ (n : Nat) (s s1 : Search σ α), HeldConstant s.env →
      self.upperEdge hc clsTarget limit rBoundHigh fuel n s = .ok s1 → HeldConstant s1.env := by
  intro n
  induction n with
  | zero =>
    intro s s1 h0 h
    unfold upperEdge at h
    split at h
    · simp at h
    · simp only [Except.ok.injEq] at h
      subst h
      exact h0
  | succ n ih =>
    intro s s1 h0 h
    unfold upperEdge at h
    split at h
    · simp only at h
      split at h
      · simp at h
      · rename_i cls env he
        have h' := ih _ _ (eval_heldConstant self hc fuel _ _ _ _ _ _ he h0) h
        exact h'
    · simp only [Except.ok.injEq] at h
      subst h
      exact h0

theorem conclude_heldConstant (self : Hybrid α) (hc : HybridCalculatorOriginal σ ρ α)
    (clsTarget : α) (fuel : Nat) (lucky : Bool) (s : Search σ α) (res : LimitRun σ α)
    (h0 : HeldConstant s.env) (h : self.conclude hc clsTarget fuel lucky s = .ok res) :
    HeldConstant res.final.env ∧ res.ret = true := by
  cases lucky
  · simp only [conclude, Bool.false_eq_true, if_false, Except.ok.injEq] at h
    subst h
    exact ⟨h0, rfl⟩
  · unfold conclude at h
    simp only [if_true] at h
    split at h
    · split at h
      · simp at h
      · rename_i sl hl
        have h1 := lowerEdge_heldConstant self hc clsTarget _ _ fuel _ _ _ (by exact h0) hl
        split at h
        · simp at h
        · rename_i su hu
          have h2 := upperEdge_heldConstant self hc clsTarget _ _ fuel _ _ _ (by exact h1) hu
          simp only [Except.ok.injEq] at h
          subst h
          exact ⟨h2, rfl⟩
    · simp only [Except.ok.injEq] at h
      subst h
      exact ⟨h0, rfl⟩

/-- Whatever the flag of `r` on entry, `runLimit` makes every request with `r` constant; and when
it returns `false`, the caller's `limit` is as it was. -/
theorem runLimit_heldConstant (self : Hybrid α) (hc : HybridCalculatorOriginal σ ρ α) (cl : α)
    (fuel : Nat) (env : Env σ α) (limit : α) (hint : Option α)
    (h0 : ∀ x ∈ env.requests, x.isConstant = true)
    (res : LimitRun σ α) (h : self.runLimit hc cl fuel env limit hint = .ok res) :
    HeldConstant res.final.env ∧ (res.ret = false → res.limit = limit) := by
  have hp : HeldConstant (prepare env hint) := by
    refine ⟨?_, h0⟩
    unfold prepare
    cases hint with
    | none => rfl
    | some v =>
      simp only
      split <;> rfl
  rcases hE : self.expand hc cl (prepare env hint).r.getMax fuel fuel (prepare env hint)
    with e | ⟨b, env1⟩
  · unfold prepare at hE
    unfold runLimit at h
    simp [hE] at h
  · have h1 := expand_heldConstant self hc cl _ fuel _ _ _ _ hp hE
    cases b
    · rw [runLimit_capped self hc cl fuel env limit hint env1 hE] at h
      simp only [Except.ok.injEq] at h
      subst h
      exact ⟨h1, fun _ => rfl⟩
    · rw [runLimit_accepted self hc cl fuel env limit hint env1 hE] at h
      unfold search at h
      split at h
      · simp at h
      · rename_i s1 hb
        simp only [Except.ok.injEq] at h
        subst h
        exact ⟨bisect_heldConstant self hc _ fuel _ _ _ _ (by exact h1) hb, fun _ => rfl⟩
      · rename_i s1 hb
        have h2 := bisect_heldConstant self hc _ fuel _ _ _ _ (by exact h1) hb
        have h3 := conclude_heldConstant self hc _ fuel _ _ _ h2 h
        exact ⟨h3.1, fun hx => by rw [h3.2] at hx; simp at hx⟩
      · rename_i s1 hb
        have h2 := bisect_heldConstant self hc _ fuel _ _ _ _ (by exact h1) hb
        have h3 := conclude_heldConstant self hc _ fuel _ _ _ h2 h
        exact ⟨h3.1, fun hx => by rw [h3.2] at hx; simp at hx⟩

/-! ### The significance mode and `run` -/

theorem runSignificance_of_read_error (self : Hybrid α) (hc : HybridCalculatorOriginal σ ρ α)
    (ops : HybridResultOps ρ α) (g : Combine ρ α) (env : Env σ α) (limit : Double α)
    (hr : self.readHybridResults_ = true) (e : logic_error)
    (h : readToysFromFile ops g.readToysFromHere = .error e) :
    self.runSignificance hc ops g env limit
      = { outcome := .error e, limit := limit, env := { env with r := significanceVar env.r }
          written := none } := by
  simp only [runSignificance, hr, if_true, h]
  rfl

theorem runSignificance_of_read_null (self : Hybrid α) (hc : HybridCalculatorOriginal σ ρ α)
    (ops : HybridResultOps ρ α) (g : Combine ρ α) (env : Env σ α) (limit : Double α)
    (hr : self.readHybridResults_ = true)
    (h : readToysFromFile ops g.readToysFromHere = .ok none) :
    self.runSignificance hc ops g env limit
      = { outcome := .ok false, limit := limit, env := { env with r := significanceVar env.r }
          written := none } := by
  simp only [runSignificance, hr, if_true, h]
  rfl

theorem runSignificance_of_read (self : Hybrid α) (hc : HybridCalculatorOriginal σ ρ α)
    (ops : HybridResultOps ρ α) (g : Combine ρ α) (env : Env σ α) (limit : Double α)
    (hr : self.readHybridResults_ = true) (hcResult : ρ)
    (h : readToysFromFile ops g.readToysFromHere = .ok (some hcResult)) :
    self.runSignificance hc ops g env limit
      = self.reportSignificance ops g { env with r := significanceVar env.r } limit hcResult := by
  simp only [runSignificance, hr, if_true, h]
  rfl

theorem runSignificance_of_null (self : Hybrid α) (hc : HybridCalculatorOriginal σ ρ α)
    (ops : HybridResultOps ρ α) (g : Combine ρ α) (env : Env σ α) (limit : Double α)
    (hr : self.readHybridResults_ = false)
    (h : (hc.GetHypoTest env.hc (significanceVar env.r)).1 = none) :
    self.runSignificance hc ops g env limit
      = { outcome := .ok false, limit := limit
          env := { hc := (hc.GetHypoTest env.hc (significanceVar env.r)).2
                   r := significanceVar env.r
                   requests := env.requests ++ [significanceVar env.r] }
          written := none } := by
  rcases hg : hc.GetHypoTest env.hc (significanceVar env.r) with ⟨res, st⟩
  rw [hg] at h
  simp only at h
  subst h
  unfold significanceVar at hg
  simp [runSignificance, hr, hg]
  rfl

theorem runSignificance_of_result (self : Hybrid α) (hc : HybridCalculatorOriginal σ ρ α)
    (ops : HybridResultOps ρ α) (g : Combine ρ α) (env : Env σ α) (limit : Double α)
    (hr : self.readHybridResults_ = false) (hcResult : ρ)
    (h : (hc.GetHypoTest env.hc (significanceVar env.r)).1 = some hcResult) :
    self.runSignificance hc ops g env limit
      = self.reportSignificance ops g
          { hc := (hc.GetHypoTest env.hc (significanceVar env.r)).2
            r := significanceVar env.r
            requests := env.requests ++ [significanceVar env.r] } limit hcResult := by
  rcases hg : hc.GetHypoTest env.hc (significanceVar env.r) with ⟨res, st⟩
  rw [hg] at h
  simp only at h
  subst h
  unfold significanceVar at hg
  simp [runSignificance, hr, hg]
  rfl

omit [LinearOrderedField α] in
theorem readToysFromFile_noToys (ops : HybridResultOps ρ α) (g : Combine ρ α)
    (h : NoToysToRead g) :
    readToysFromFile ops g.readToysFromHere
      = .error ⟨"Cannot use readHybridResult: option toysFile not specified, or input file empty"⟩ := by
  rcases h with h | ⟨file, h, ht⟩
  · rw [h]; rfl
  · rw [h]
    simp only [readToysFromFile, ht]

omit [LinearOrderedField α] in
theorem reportSignificance_throw (self : Hybrid α) (ops : HybridResultOps ρ α)
    (g : Combine ρ α) (env : Env σ α) (limit : Double α) (hcResult : ρ)
    (hs : self.saveHybridResult_ = true ∧ g.writeToysHere = false) :
    self.reportSignificance ops g env limit hcResult
      = { outcome := .error ⟨"Option saveToys must be enabled to turn on saveHybridResult"⟩
          limit := limit, env := env, written := none } := by
  unfold reportSignificance
  rw [if_pos]
  simpa using hs

omit [LinearOrderedField α] in
theorem reportSignificance_ok (self : Hybrid α) (ops : HybridResultOps ρ α)
    (g : Combine ρ α) (env : Env σ α) (limit : Double α) (hcResult : ρ)
    (hs : ¬ (self.saveHybridResult_ = true ∧ g.writeToysHere = false)) :
    self.reportSignificance ops g env limit hcResult
      = { outcome := .ok (ops.Significance hcResult).isfinite
          limit := ops.Significance hcResult
          env := env
          written :=
            if self.saveHybridResult_ then
              some ("HybridResult_" ++ toString g.randomInteger, hcResult)
            else none } := by
  unfold reportSignificance
  rw [if_neg]
  simpa using hs

theorem conclude_ret (self : Hybrid α) (hc : HybridCalculatorOriginal σ ρ α)
    (clsTarget : α) (fuel : Nat) (lucky : Bool) (s : Search σ α) (res : LimitRun σ α)
    (h : self.conclude hc clsTarget fuel lucky s = .ok res) : res.ret = true := by
  cases lucky
  · simp only [conclude, Bool.false_eq_true, if_false, Except.ok.injEq] at h
    subst h
    rfl
  · unfold conclude at h
    simp only [if_true] at h
    split at h
    · split at h
      · simp at h
      · split at h
        · simp at h
        · simp only [Except.ok.injEq] at h
          subst h
          rfl
    · simp only [Except.ok.injEq] at h
      subst h
      rfl

/-- A run of `runLimit` that returns `false` leaves the caller's `limit` as it was. -/
theorem runLimit_false_limit (self : Hybrid α) (hc : HybridCalculatorOriginal σ ρ α) (cl : α)
    (fuel : Nat) (env : Env σ α) (limit : α) (hint : Option α) (res : LimitRun σ α)
    (h : self.runLimit hc cl fuel env limit hint = .ok res) (hret : res.ret = false) :
    res.limit = limit := by
  rcases hE : self.expand hc cl (prepare env hint).r.getMax fuel fuel (prepare env hint)
    with e | ⟨b, env1⟩
  · unfold prepare at hE
    unfold runLimit at h
    simp [hE] at h
  · cases b
    · rw [runLimit_capped self hc cl fuel env limit hint env1 hE] at h
      simp only [Except.ok.injEq] at h
      subst h
      rfl
    · rw [runLimit_accepted self hc cl fuel env limit hint env1 hE] at h
      unfold search at h
      split at h
      · simp at h
      · simp only [Except.ok.injEq] at h
        subst h
        rfl
      · rw [conclude_ret self hc _ fuel _ _ _ h] at hret
        simp at hret
      · rw [conclude_ret self hc _ fuel _ _ _ h] at hret
        simp at hret

theorem run_of_nuisancesMissing (self : Hybrid α) (hc : HybridCalculatorOriginal σ ρ α)
    (set : HybridCalculatorSetters σ) (ops : HybridResultOps ρ α) (g : Combine ρ α)
    (fuel : Nat) (env : Env σ α) (limit : α) (hint : Option α) (h : NuisancesMissing g) :
    self.run hc set ops g fuel env limit hint
      = .ok { outcome := .error ⟨"Hybrid: running with systematics enabled, but nuisances or nuisancePdf not defined."⟩
              limit := .finite limit
              env := { env with r := g.loadSnapshot (env.r.setConstant true) }
              written := none } := by
  unfold run
  rw [if_pos]
  simpa [NuisancesMissing] using h

theorem run_eq (self : Hybrid α) (hc : HybridCalculatorOriginal σ ρ α)
    (set : HybridCalculatorSetters σ) (ops : HybridResultOps ρ α) (g : Combine ρ α)
    (fuel : Nat) (env : Env σ α) (limit : α) (hint : Option α) (h : ¬ NuisancesMissing g) :
    self.run hc set ops g fuel env limit hint
      = if g.doSignificance_ then
          .ok (self.runSignificance hc ops g (configured self set g env) (.finite limit))
        else
          match self.runLimit hc g.cl fuel (configured self set g env) limit hint with
          | .error e => .error e
          | .ok res =>
            .ok { outcome := .ok res.ret, limit := .finite res.limit, env := res.final.env
                  written := none } := by
  unfold run
  rw [if_neg (by simpa [NuisancesMissing] using h)]
  unfold configured
  by_cases h1 : self.testStat_ = "LEP"
  · simp [h1]
  · by_cases h2 : self.testStat_ = "TEV"
    · simp [h1, h2]
    · by_cases h3 : self.testStat_ = "Atlas"
      · simp [h1, h2, h3]
      · simp [h1, h2, h3]

theorem runSignificance_requests (self : Hybrid α) (hc : HybridCalculatorOriginal σ ρ α)
    (ops : HybridResultOps ρ α) (g : Combine ρ α) (env : Env σ α) (limit : Double α) :
    (self.runSignificance hc ops g env limit).env.requests
      = if self.readHybridResults_ then env.requests
        else env.requests ++ [significanceVar env.r] := by
  have hrep : ∀ (e : Env σ α) (x : ρ), (self.reportSignificance ops g e limit x).env = e := by
    intro e x
    unfold reportSignificance
    split <;> rfl
  cases hr : self.readHybridResults_
  · rcases hg : (hc.GetHypoTest env.hc (significanceVar env.r)).1 with _ | hcResult
    · rw [runSignificance_of_null _ _ _ _ _ _ hr hg]
      simp
    · rw [runSignificance_of_result _ _ _ _ _ _ hr hcResult hg, hrep]
      simp
  · rcases hg : readToysFromFile ops g.readToysFromHere with e | _ | hcResult
    · rw [runSignificance_of_read_error _ _ _ _ _ _ hr e hg]
      simp
    · rw [runSignificance_of_read_null _ _ _ _ _ _ hr hg]
      simp
    · rw [runSignificance_of_read _ _ _ _ _ _ hr hcResult hg, hrep]
      simp

omit [LinearOrderedField α] in
theorem configured_requests (self : Hybrid α) (set : HybridCalculatorSetters σ)
    (g : Combine ρ α) (env : Env σ α) :
    (configured self set g env).requests = env.requests := rfl

theorem run_heldConstant (self : Hybrid α) (hc : HybridCalculatorOriginal σ ρ α)
    (set : HybridCalculatorSetters σ) (ops : HybridResultOps ρ α) (g : Combine ρ α)
    (fuel : Nat) (env : Env σ α) (limit : α) (hint : Option α) (res : Run σ ρ α)
    (h0 : ∀ x ∈ env.requests, x.isConstant = true)
    (h : self.run hc set ops g fuel env limit hint = .ok res) :
    ∀ x ∈ res.env.requests, x.isConstant = true := by
  by_cases hn : NuisancesMissing g
  · rw [run_of_nuisancesMissing _ _ _ _ _ _ _ _ _ hn] at h
    simp only [Except.ok.injEq] at h
    subst h
    exact h0
  · rw [run_eq _ _ _ _ _ _ _ _ _ hn] at h
    split at h
    · simp only [Except.ok.injEq] at h
      subst h
      rw [runSignificance_requests]
      intro x hx
      split at hx
      · exact h0 x hx
      · rw [configured_requests, List.mem_append, List.mem_singleton] at hx
        rcases hx with hx | hx
        · exact h0 x hx
        · rw [hx]
          rfl
    · split at h
      · simp at h
      · rename_i lr hl
        simp only [Except.ok.injEq] at h
        subst h
        exact (runLimit_heldConstant self hc g.cl fuel (configured self set g env) limit hint h0
          lr hl).1.2

theorem not_nuisancesMissing_example (b : Bool) : ¬ NuisancesMissing (Example.combine b) := by
  simp [NuisancesMissing, Example.combine]

theorem configured_example (self : Hybrid ℚ) (b : Bool) :
    ∃ c, configured self Example.setters (Example.combine b) (Example.envOf () 1)
        = { hc := (), r := ⟨0, 0, 1, c⟩, requests := [] } ∧
      (self.testStat_ = "Atlas" → c = false) := by
  unfold configured
  by_cases h1 : self.testStat_ = "LEP"
  · exact ⟨true, by simp [h1, Example.combine, Example.envOf, RooRealVar.setConstant],
      fun h => by rw [h] at h1; simp at h1⟩
  · by_cases h2 : self.testStat_ = "TEV"
    · exact ⟨true, by simp [h2, Example.combine, Example.envOf, RooRealVar.setConstant],
        fun h => by rw [h] at h2; simp at h2⟩
    · by_cases h3 : self.testStat_ = "Atlas"
      · exact ⟨false, by simp [h3, Example.combine, Example.envOf, RooRealVar.setConstant],
          fun _ => rfl⟩
      · exact ⟨true, by simp [h1, h2, h3, Example.combine, Example.envOf,
          RooRealVar.setConstant], fun h => absurd h h3⟩

/-- A run in limit mode of an object with the default accuracies on the curve `3 / (3 + 19 r)`
from the range `[0, 1]`, without output directory and without input file. -/
theorem run_limit_hyperbola_one (self : Hybrid ℚ) (h1 : self.clsAccuracy_ = 1 / 200)
    (h2 : self.rAbsAccuracy_ = 1 / 10) (h3 : self.rRelAccuracy_ = 1 / 20) :
    self.run (Example.noiseless Example.hyperbola) Example.setters Example.ops
        (Example.combine false) 6 (Example.envOf () 1) 0 none
      = .ok { outcome := .ok true, limit := .finite (31 / 32)
              env := { hc := ()
                       r := ⟨15 / 16, 0, 1, true⟩
                       requests := [⟨1, 0, 1, true⟩, ⟨1 / 2, 0, 1, true⟩, ⟨3 / 4, 0, 1, true⟩,
                         ⟨7 / 8, 0, 1, true⟩, ⟨15 / 16, 0, 1, true⟩] }
              written := none } := by
  obtain ⟨c, hc, -⟩ := configured_example self false
  rw [run_eq _ _ _ _ _ _ _ _ _ (not_nuisancesMissing_example false), hc]
  have hcl : (Example.combine false).cl = 19 / 20 := rfl
  have hm : (Example.combine false).doSignificance_ = false := rfl
  rw [hcl, hm, runLimit_hyperbola_one_of self h1 h2 h3 c]
  rfl

/-- A run in significance mode on the curve `3 / (3 + 19 r)` from the range `[0, 1]`, without
output directory and without input file, of an object that neither saves nor reads results. -/
theorem run_significance_hyperbola_one (self : Hybrid ℚ) (hs : self.saveHybridResult_ = false)
    (hr : self.readHybridResults_ = false) :
    self.run (Example.noiseless Example.hyperbola) Example.setters Example.ops
        (Example.combine true) 6 (Example.envOf () 1) 0 none
      = .ok { outcome := .ok true, limit := .finite (3 / 22)
              env := { hc := (), r := ⟨1, 0, 1, true⟩, requests := [⟨1, 0, 1, true⟩] }
              written := none } := by
  obtain ⟨c, hc, -⟩ := configured_example self true
  rw [run_eq _ _ _ _ _ _ _ _ _ (not_nuisancesMissing_example true), hc]
  have hm : (Example.combine true).doSignificance_ = true := rfl
  rw [hm, if_pos rfl]
  have hg : ((Example.noiseless Example.hyperbola).GetHypoTest ()
      (significanceVar (⟨0, 0, 1, c⟩ : RooRealVar ℚ))).1 = some (3 / 22) := by
    norm_num [Example.noiseless, Example.hyperbola, significanceVar, RooRealVar.setVal,
      RooRealVar.setConstant]
  rw [runSignificance_of_result _ _ _ _ _ _ hr (3 / 22) hg,
    reportSignificance_ok _ _ _ _ _ _ (by simp [hs])]
  norm_num [Example.ops, Double.isfinite, hs, significanceVar, RooRealVar.setVal,
    RooRealVar.setConstant, Example.noiseless]

/-- A run in significance mode of the object with `saveHybridResult` on, on the curve
`3 / (3 + 19 r)`, without output directory: the exception is thrown after one request. -/
theorem runSignificance_save_example :
    Example.hybridSave.runSignificance (Example.noiseless Example.hyperbola) Example.ops
        (Example.combine true) (Example.envOf () 1) (.finite 0)
      = { outcome := .error ⟨"Option saveToys must be enabled to turn on saveHybridResult"⟩
          limit := .finite 0
          env := { hc := (), r := ⟨1, 0, 1, true⟩, requests := [⟨1, 0, 1, true⟩] }
          written := none } := by
  have hg : ((Example.noiseless Example.hyperbola).GetHypoTest (Example.envOf () (1 : ℚ)).hc
      (significanceVar (Example.envOf () (1 : ℚ)).r)).1 = some (3 / 22) := by
    norm_num [Example.noiseless, Example.hyperbola, significanceVar, Example.envOf,
      RooRealVar.setVal, RooRealVar.setConstant]
  rw [runSignificance_of_result _ _ _ _ _ _ rfl (3 / 22) hg,
    reportSignificance_throw _ _ _ _ _ _ ⟨rfl, rfl⟩]
  simp [significanceVar, Example.envOf, RooRealVar.setVal, RooRealVar.setConstant,
    Example.noiseless]

theorem runLimit_failing (limit : ℚ) :
    Example.hybrid.runLimit Example.failing (19 / 20) 6 (Example.envOf () 1) limit none
      = .ok { ret := false, limit := limit, lucky := false,
              final := { bracket (cappedEnv Example.failing (prepare (Example.envOf () 1) none))
                         with rMax := (prepare (Example.envOf () (1 : ℚ)) none).r.getMax } } := by
  have hM : (0 : ℚ) < (prepare (Example.envOf () 1) none).r.getMax := by
    norm_num [prepare, Example.envOf, RooRealVar.setConstant]
  have hE := (expand_stage Example.hybrid Example.failing (19 / 20) 6
    (prepare (Example.envOf () 1) none) hM 5 0 rfl 6 (le_refl _)
    (prepare (Example.envOf () 1) none).r.getVal).2
    (fun j _ _ => by rw [probeSample_failing]; exact not_stops_sentinel)
  rw [stageEnv_zero] at hE
  exact runLimit_capped _ _ _ _ _ _ _ _ hE

end Hybrid

/-! ### Rounding -/

theorem roundHalfEven_of_lt (q : ℚ) (z : ℤ) (h1 : (z : ℚ) - 1 / 2 < q) (h2 : q < z + 1 / 2) :
    roundHalfEven q = z := by
  unfold roundHalfEven
  by_cases hq : (z : ℚ) ≤ q
  · have hf : ⌊q⌋ = z := Int.floor_eq_iff.mpr ⟨hq, by linarith⟩
    rw [hf, if_pos (by linarith)]
  · have hf : ⌊q⌋ = z - 1 := Int.floor_eq_iff.mpr ⟨by push_cast; linarith, by push_cast; linarith⟩
    rw [hf]
    push_cast
    rw [if_neg (by linarith), if_pos (by linarith)]
    ring

theorem log_two_eq (x : ℚ) (L : ℤ) (h1 : (2 : ℚ) ^ L ≤ x) (h2 : x < 2 * 2 ^ L) :
    Int.log 2 x = L := by
  have hx : 0 < x := lt_of_lt_of_le (zpow_pos (by norm_num) L) h1
  have a : L ≤ Int.log 2 x :=
    (Int.zpow_le_iff_le_log (b := 2) (by norm_num) hx).mp (by simpa using h1)
  have b : Int.log 2 x < L + 1 :=
    (Int.lt_zpow_iff_log_lt (b := 2) (by norm_num) hx).mp
      (by rw [zpow_add_one₀ (by norm_num)]; simpa [mul_comm] using h2)
  omega

theorem roundDouble_of_binade (x : ℚ) (L : ℤ) (h1 : (2 : ℚ) ^ L ≤ x) (h2 : x < 2 * 2 ^ L) :
    roundDouble x = roundHalfEven (x * 2 ^ 52 / 2 ^ L) * (2 ^ L / 2 ^ 52) := by
  have hx : 0 < x := lt_of_lt_of_le (zpow_pos (by norm_num) L) h1
  have hP : (0 : ℚ) < 2 ^ L := zpow_pos (by norm_num) L
  have he : (2 : ℚ) ^ (L - 52) = 2 ^ L / 2 ^ 52 := by
    rw [zpow_sub₀ (by norm_num)]
    norm_num
  unfold roundDouble
  rw [abs_of_pos hx, log_two_eq x L h1 h2, he]
  congr 2
  field_simp

theorem roundDouble_eval (x : ℚ) (L z : ℤ) (h1 : (2 : ℚ) ^ L ≤ x) (h2 : x < 2 * 2 ^ L)
    (h3 : (z : ℚ) - 1 / 2 < x * 2 ^ 52 / 2 ^ L) (h4 : x * 2 ^ 52 / 2 ^ L < z + 1 / 2) :
    roundDouble x = z * (2 ^ L / 2 ^ 52) := by
  rw [roundDouble_of_binade x L h1 h2, roundHalfEven_of_lt _ z h3 h4]

theorem roundDouble_four_fifths : roundDouble (4 / 5) = 3602879701896397 / 4503599627370496 := by
  rw [roundDouble_eval (4 / 5) (-1) 7205759403792794 (by norm_num) (by norm_num) (by norm_num)
    (by norm_num)]
  norm_num

namespace Hybrid
variable {σ ρ α : Type} [LinearOrderedField α]

/-! ### The bisection with rounded arithmetic -/

theorem evalWhileRounded_id (self : Hybrid α) (hc : HybridCalculatorOriginal σ ρ α)
    (clsTarget : α) :
    ∀ (fuel : Nat) (hcResult : ρ) (env : Env σ α),
      self.evalWhileRounded id hc clsTarget fuel hcResult env
        = self.evalWhile hc clsTarget fuel hcResult env := by
  intro fuel
  induction fuel with
  | zero =>
    intro hcResult env
    unfold evalWhileRounded evalWhile
    rfl
  | succ n ih =>
    intro hcResult env
    unfold evalWhileRounded evalWhile
    simp only [id, ih]

/-- Without rounding, the evaluation with rounded arithmetic is `eval`. -/
theorem evalRounded_id (self : Hybrid α) (hc : HybridCalculatorOriginal σ ρ α) (fuel : Nat)
    (env : Env σ α) (rVal : α) (adaptive : Bool) (clsTarget : α) :
    self.evalRounded id hc fuel env rVal adaptive clsTarget
      = self.eval hc fuel env rVal adaptive clsTarget := by
  unfold evalRounded eval
  simp only [evalWhileRounded_id]

/-- Without rounding, the bisection with rounded arithmetic is `bisect`. -/
theorem bisectRounded_id (self : Hybrid α) (hc : HybridCalculatorOriginal σ ρ α)
    (clsTarget : α) (fuel : Nat) :
    ∀ (n : Nat) (s : Search σ α),
      self.bisectRounded id hc clsTarget fuel n s = self.bisect hc clsTarget fuel n s := by
  intro n
  induction n with
  | zero =>
    intro s
    rfl
  | succ n ih =>
    intro s
    unfold bisectRounded bisect
    simp only [id, evalRounded_id, ih]

end Hybrid

namespace Hybrid
variable {σ ρ α : Type} [LinearOrderedField α]

end Hybrid

/-! ### A run of the bisection in double arithmetic -/

namespace Hybrid
variable {σ ρ α : Type} [LinearOrderedField α]

/-- In exact arithmetic: for every calculator whose adaptive evaluations return, with
`rAbsAccuracy_ > 0`, from any locals `s` of bracket width `W = rMax - rMin` (at the start of the loop `rMin = 0` and `W` is
the expanded upper bound): an iteration that is neither failed nor lucky leaves a bracket of
exactly half the width; when the loop is left after `k` such iterations the width is `W / 2 ^ k`;
and the loop is left within `iterationBound W rAbsAccuracy_` iterations, the least `k ≥ 1` with
`W / rAbsAccuracy_ ≤ 2 ^ k`, that is `max(1, ceil(log2(W / rAbsAccuracy_)))`: that many iterations
of fuel give a result, and more fuel gives the same result. -/
theorem bisect_halves_and_terminates [FloorRing α] (self : Hybrid α)
    (hc : HybridCalculatorOriginal σ ρ α) (clsTarget : α) (fuel : Nat)
    (hev : EvalReturns self hc clsTarget fuel) (hacc : 0 < self.rAbsAccuracy_)
    (s : Search σ α) :
    (∀ (clsMid : CLs_t α) (env1 : Env σ α),
        self.eval hc fuel s.env (1 / 2 * (s.rMin + s.rMax)) true clsTarget = .ok (clsMid, env1) →
        (replace clsTarget s clsMid env1).rMax - (replace clsTarget s clsMid env1).rMin
          = (s.rMax - s.rMin) / 2) ∧
    (∀ (n : Nat) (ex : Exit) (s1 : Search σ α),
        self.bisect hc clsTarget fuel n s = .ok (ex, s1) →
        ∃ k : Nat, k ≤ n ∧ s1.rMax - s1.rMin = (s.rMax - s.rMin) / 2 ^ k ∧
          (ex = .widthReached → 1 ≤ k) ∧ (ex ≠ .widthReached → k < n)) ∧
    (∃ out, self.bisect hc clsTarget fuel
          (iterationBound (s.rMax - s.rMin) self.rAbsAccuracy_) s = .ok out ∧
        ∀ n, iterationBound (s.rMax - s.rMin) self.rAbsAccuracy_ ≤ n →
          self.bisect hc clsTarget fuel n s = .ok out) ∧
    (∀ k : Nat, iterationBound (s.rMax - s.rMin) self.rAbsAccuracy_ ≤ k ↔
        1 ≤ k ∧ (s.rMax - s.rMin) / self.rAbsAccuracy_ ≤ 2 ^ k) := by
  refine ⟨?_, fun n => bisect_width self hc clsTarget fuel n s, ?_,
    iterationBound_le_iff _ _⟩
  · intro clsMid env1 he
    refine replace_width clsTarget s clsMid env1 ?_
    rw [(eval_ok self hc fuel _ _ _ _ _ _ he).1]
    rfl
  · have h1 : 1 ≤ iterationBound (s.rMax - s.rMin) self.rAbsAccuracy_ := le_max_left _ _
    obtain ⟨j, hj⟩ : ∃ j, iterationBound (s.rMax - s.rMin) self.rAbsAccuracy_ = j + 1 :=
      ⟨_, (Nat.sub_add_cancel h1).symm⟩
    have hw := le_mul_pow_iterationBound (s.rMax - s.rMin) self.rAbsAccuracy_ hacc
    rw [hj] at hw ⊢
    exact bisect_within self hc clsTarget fuel hev j s hw

/-- An instance of `bisect_halves_and_terminates`: the default object and the noiseless calculator on the curve
`3 / (3 + 19 r)`, from the bracket `[0, 1]`: the bound is `max 1 (clog 2 10) = 4` iterations. -/
theorem bisect_halves_and_terminates_witness :
    EvalReturns Example.hybrid (Example.noiseless Example.hyperbola) (1 / 20) 6 ∧
    (0 : ℚ) < Example.hybrid.rAbsAccuracy_ ∧
    ∃ out, Example.hybrid.bisect (Example.noiseless Example.hyperbola) (1 / 20) 6
        (iterationBound
          ((bracket (Example.envOf () (1 : ℚ))).rMax - (bracket (Example.envOf () (1 : ℚ))).rMin)
          (Example.hybrid : Hybrid ℚ).rAbsAccuracy_) (bracket (Example.envOf () 1)) = .ok out :=
  ⟨evalReturns_noiseless _ _ _ (noiseless_example _ _) _ _,
    by norm_num [hybrid_rAbsAccuracy],
    ((bisect_halves_and_terminates Example.hybrid (Example.noiseless Example.hyperbola) (1 / 20) 6
      (evalReturns_noiseless _ _ _ (noiseless_example _ _) _ _)
      (by norm_num [hybrid_rAbsAccuracy]) (bracket (Example.envOf () 1))).2.2.1).imp
      fun _ h => h.1⟩

end Hybrid

end CombinedLimit

/-! ## The claims -/

namespace CombinedLimit

namespace Hybrid
variable {σ ρ α : Type} [LinearOrderedField α]

/-- C2, the code at a failing input, the scenario of the specification: the noiseless
calculator on the curve `exp (-r)`, which decreases from `1` at `r = 0`, with the default
accuracies, `cl = 19/20` (`clsTarget = 1/20`) and the range `[0, 1]`.  The expansion accepts the
bound `1` at once, as the curve is below `cl` there, and the first bisection starts from the
bracket `[0, 1]` with the curve above `clsTarget` at both ends; the run ends with the bracket
`[15/16, 1]`, the curve still above `clsTarget` at both ends, and the limit `31/32`. -/
theorem bisection_starts_unbracketed :
    ∃ env1, (Example.hybrid : Hybrid ℝ).expand (Example.noiseless fun r : ℝ => Real.exp (-r))
        (19 / 20) (prepare (Example.envOf () 1) none).r.getMax 6 6
        (prepare (Example.envOf () 1) none) = .ok (true, env1) ∧
      Example.hybrid.runLimit (Example.noiseless fun r : ℝ => Real.exp (-r)) (19 / 20) 6
        (Example.envOf () 1) 0 none
        = Example.hybrid.search (Example.noiseless fun r : ℝ => Real.exp (-r)) (1 - 19 / 20) 6 6 0
            (bracket env1) ∧
      (bracket env1).rMin = 0 ∧ (bracket env1).rMax = 1 ∧
      Real.exp (-(bracket env1).rMin) > 1 - 19 / 20 ∧
      Real.exp (-(bracket env1).rMax) > 1 - 19 / 20 ∧
      ∃ res, Example.hybrid.runLimit (Example.noiseless fun r : ℝ => Real.exp (-r)) (19 / 20) 6
          (Example.envOf () 1) 0 none = .ok res ∧
        res.ret = true ∧ res.lucky = false ∧ res.limit = 31 / 32 ∧
        res.final.rMin = 15 / 16 ∧ res.final.rMax = 1 ∧
        Real.exp (-res.final.rMin) > 1 - 19 / 20 ∧ Real.exp (-res.final.rMax) > 1 - 19 / 20 := by
  have h1 := exp_neg_one_gt
  have h2 := (exp_neg_far (15 / 16) (by norm_num)).2
  refine ⟨_, expand_exp_one, runLimit_accepted _ _ _ _ _ _ _ _ expand_exp_one,
    rfl, rfl, ?_, ?_, _, runLimit_exp_one, rfl, rfl, rfl, rfl, rfl, ?_, ?_⟩
  · norm_num [bracket]
  · show Real.exp (-1) > 1 - 19 / 20
    linarith
  · show Real.exp (-(15 / 16)) > 1 - 19 / 20
    linarith
  · show Real.exp (-1) > 1 - 19 / 20
    linarith

/-- C3.  For every calculator and every initial upper bound `M = env.r.getMax > 0`, the bracket
expansion of `runLimit` (with fuel for six probes) requests the statistic once each, without
adaptive resampling, at `M, 2M, 4M, ...` in turn.  It succeeds at the first probe `k` whose sample
satisfies the stop condition `value = 0 ∨ value + 3 * |error| < cl`, with the upper end of the range
of `r` (the later `rMax`) at `M * 2 ^ k` and `k ≤ 5`; it fails exactly when none of the probes
`0 .. 5`, the ones it evaluates, satisfies the stop condition. -/
theorem expand_first_stop (self : Hybrid α) (hc : HybridCalculatorOriginal σ ρ α) (cl : α)
    (fuel n : Nat) (env : Env σ α) (hM : 0 < env.r.getMax) (hn : 6 ≤ n) :
    (∀ k, k ≤ 5 → stops cl (self.probeSample hc env.r env.hc k) →
        (∀ i, i < k → ¬ stops cl (self.probeSample hc env.r env.hc i)) →
        self.expand hc cl env.r.getMax fuel n env = .ok (true, acceptedEnv hc env k) ∧
        (acceptedEnv hc env k).r.getMax = env.r.getMax * 2 ^ k ∧
        (acceptedEnv hc env k).requests
          = env.requests ++ (List.range (k + 1)).map (probeVar env.r)) ∧
    (∀ env1, self.expand hc cl env.r.getMax fuel n env = .ok (true, env1) →
        ∃ k, k ≤ 5 ∧ stops cl (self.probeSample hc env.r env.hc k) ∧
          (∀ i, i < k → ¬ stops cl (self.probeSample hc env.r env.hc i)) ∧
          env1 = acceptedEnv hc env k) ∧
    ((∃ env1, self.expand hc cl env.r.getMax fuel n env = .ok (false, env1)) ↔
        ∀ k, k ≤ 5 → ¬ stops cl (self.probeSample hc env.r env.hc k)) ∧
    (∀ env1, self.expand hc cl env.r.getMax fuel n env = .ok (false, env1) →
        env1.requests = env.requests ++ (List.range 6).map (probeVar env.r)) := by
  have hcases := expand_cases self hc cl fuel n env hM hn
  refine ⟨?_, ?_, ?_, ?_⟩
  · intro k hk hs hfirst
    refine ⟨?_, rfl, rfl⟩
    rcases hcases with ⟨j, hj, hsj, hfj, he⟩ | ⟨hall, -⟩
    · rcases Nat.lt_trichotomy j k with h | h | h
      · exact absurd hsj (hfirst j h)
      · rw [← h]; exact he
      · exact absurd hs (hfj k h)
    · exact absurd hs (hall k hk)
  · intro env1 he1
    rcases hcases with ⟨j, hj, hsj, hfj, he⟩ | ⟨-, he⟩
    · rw [he] at he1
      simp only [Except.ok.injEq, Prod.mk.injEq, true_and] at he1
      exact ⟨j, hj, hsj, hfj, he1.symm⟩
    · rw [he] at he1
      simp at he1
  · constructor
    · rintro ⟨env1, he1⟩
      rcases hcases with ⟨j, hj, hsj, hfj, he⟩ | ⟨hall, -⟩
      · rw [he] at he1
        simp at he1
      · exact hall
    · intro hall
      rcases hcases with ⟨j, hj, hsj, hfj, he⟩ | ⟨-, he⟩
      · exact absurd hsj (hall j hj)
      · exact ⟨_, he⟩
  · intro env1 he1
    rcases hcases with ⟨j, hj, hsj, hfj, he⟩ | ⟨-, he⟩
    · rw [he] at he1
      simp at he1
    · rw [he] at he1
      simp only [Except.ok.injEq, Prod.mk.injEq, true_and] at he1
      rw [← he1]
      rfl

/-- Witness for C3: the noiseless calculator on the line `1 - r / 1000` from `M = 1` with
`cl = 19/20`; no probe stops and the expansion fails after the six requests at
`1, 2, 4, 8, 16, 32`. -/
theorem expand_first_stop_witness :
    (0 : ℚ) < (Example.envOf () 1).r.getMax ∧ 6 ≤ 6 ∧
    ((∃ env1, Example.hybrid.expand (Example.noiseless Example.slowLine) (19 / 20)
        (Example.envOf () 1).r.getMax 6 6 (Example.envOf () 1) = .ok (false, env1)) ↔
      ∀ k, k ≤ 5 → ¬ stops (19 / 20 : ℚ) (Example.hybrid.probeSample
        (Example.noiseless Example.slowLine) (Example.envOf () 1).r () k)) :=
  ⟨by norm_num [Example.envOf], le_refl _,
    (expand_first_stop Example.hybrid (Example.noiseless Example.slowLine) (19 / 20) 6 6
      (Example.envOf () 1) (by norm_num [Example.envOf]) (le_refl _)).2.2.1⟩

/-- C4, the claim as stated fails.  The noiseless calculator on the step that is `1` below
`r = 32` and `0` from there on, from `M = 1` with `cl = 19/20`: the expansion succeeds, and the
upper bound it settles on is `32`, which is not smaller than `20 * M = 20`. -/
theorem expand_accepts_above_twenty :
    ∃ env1, Example.hybrid.expand (Example.noiseless Example.lateStep) (19 / 20)
        (Example.envOf () 1).r.getMax 6 6 (Example.envOf () 1) = .ok (true, env1) ∧
      env1.r.getMax = 32 ∧ ¬ (env1.r.getMax < 20 * (Example.envOf () 1).r.getMax) := by
  refine ⟨acceptedEnv (Example.noiseless Example.lateStep) (Example.envOf () 1) 5, ?_, ?_, ?_⟩
  · simp [expand, eval, Example.hybrid, Example.noiseless, Example.lateStep, Example.envOf,
      ctor, readCLs, acceptedEnv, probeVar, probeState, RooRealVar.setVal, RooRealVar.setMax,
      List.range_succ]
    norm_num
  · norm_num [acceptedEnv, probeVar, Example.envOf]
  · norm_num [acceptedEnv, probeVar, Example.envOf]

/-- C4, amended.  For every calculator and every initial upper bound `M = env.r.getMax > 0`, the
bracket expansion (with fuel for six probes) returns, and every bound it evaluates is one of
`M * 2 ^ k` with `k ≤ 5`: whenever it succeeds, the upper bound it settles on is `M * 2 ^ k` for
some `k ≤ 5`, hence at most `32 * M`; the bound `32 * M` itself is accepted when the stop
condition holds there for the first time; no request is made at a bound above `32 * M`; and the
expansion fails once the stop condition has failed at all of `M, 2M, ..., 32 * M`. -/
theorem expand_bound_le_thirtytwo (self : Hybrid α) (hc : HybridCalculatorOriginal σ ρ α)
    (cl : α) (fuel n : Nat) (env : Env σ α) (hM : 0 < env.r.getMax) (hn : 6 ≤ n) :
    (∃ b env1, self.expand hc cl env.r.getMax fuel n env = .ok (b, env1)) ∧
    (∀ env1, self.expand hc cl env.r.getMax fuel n env = .ok (true, env1) →
        (∃ k, k ≤ 5 ∧ env1.r.getMax = env.r.getMax * 2 ^ k) ∧
        env1.r.getMax ≤ 32 * env.r.getMax) ∧
    (stops cl (self.probeSample hc env.r env.hc 5) →
        (∀ i, i < 5 → ¬ stops cl (self.probeSample hc env.r env.hc i)) →
        ∃ env1, self.expand hc cl env.r.getMax fuel n env = .ok (true, env1) ∧
          env1.r.getMax = 32 * env.r.getMax) ∧
    (∀ b env1, self.expand hc cl env.r.getMax fuel n env = .ok (b, env1) →
        ∃ l, env1.requests = env.requests ++ l ∧ ∀ x ∈ l, x.getVal ≤ 32 * env.r.getMax) ∧
    ((∀ k, k ≤ 5 → ¬ stops cl (self.probeSample hc env.r env.hc k)) →
        ∃ env1, self.expand hc cl env.r.getMax fuel n env = .ok (false, env1)) := by
  have hcases := expand_cases self hc cl fuel n env hM hn
  have hpow : ∀ k, k ≤ 5 → env.r.getMax * 2 ^ k ≤ 32 * env.r.getMax := by
    intro k hk
    have h1 : (2 : α) ^ k ≤ 2 ^ 5 := pow_le_pow_right₀ (by norm_num) hk
    norm_num at h1
    nlinarith
  have hreq : ∀ m, m ≤ 6 → ∀ x ∈ (List.range m).map (probeVar env.r),
      x.getVal ≤ 32 * env.r.getMax := by
    intro m hm x hx
    simp only [List.mem_map, List.mem_range] at hx
    obtain ⟨i, hi, rfl⟩ := hx
    exact hpow i (by omega)
  refine ⟨?_, ?_, ?_, ?_, ?_⟩
  · rcases hcases with ⟨j, -, -, -, he⟩ | ⟨-, he⟩
    · exact ⟨_, _, he⟩
    · exact ⟨_, _, he⟩
  · intro env1 he1
    rcases hcases with ⟨j, hj, -, -, he⟩ | ⟨-, he⟩
    · rw [he] at he1
      simp only [Except.ok.injEq, Prod.mk.injEq, true_and] at he1
      subst he1
      exact ⟨⟨j, hj, rfl⟩, hpow j hj⟩
    · rw [he] at he1
      simp at he1
  · intro hs hfirst
    rcases hcases with ⟨j, hj, hsj, hfj, he⟩ | ⟨hall, -⟩
    · obtain rfl : j = 5 := by
        rcases Nat.lt_or_ge j 5 with h | h
        · exact absurd hsj (hfirst j h)
        · omega
      refine ⟨_, he, ?_⟩
      show env.r.getMax * 2 ^ 5 = 32 * env.r.getMax
      ring
    · exact absurd hs (hall 5 (le_refl _))
  · intro b env1 he1
    rcases hcases with ⟨j, hj, -, -, he⟩ | ⟨-, he⟩
    · rw [he] at he1
      simp only [Except.ok.injEq, Prod.mk.injEq] at he1
      obtain ⟨-, rfl⟩ := he1
      exact ⟨_, rfl, hreq (j + 1) (by omega)⟩
    · rw [he] at he1
      simp only [Except.ok.injEq, Prod.mk.injEq] at he1
      obtain ⟨-, rfl⟩ := he1
      exact ⟨_, rfl, hreq 6 (le_refl _)⟩
  · intro hall
    rcases hcases with ⟨j, hj, hsj, -, -⟩ | ⟨-, he⟩
    · exact absurd hsj (hall j hj)
    · exact ⟨_, he⟩

/-- Witness for C4 (amended): the noiseless calculator on the late step, from `M = 1`. -/
theorem expand_bound_le_thirtytwo_witness :
    (0 : ℚ) < (Example.envOf () 1).r.getMax ∧ 6 ≤ 6 ∧
    ∃ b env1, Example.hybrid.expand (Example.noiseless Example.lateStep) (19 / 20)
        (Example.envOf () 1).r.getMax 6 6 (Example.envOf () 1) = .ok (b, env1) :=
  ⟨by simp [Example.envOf], le_refl _,
    (expand_bound_le_thirtytwo Example.hybrid (Example.noiseless Example.lateStep) (19 / 20) 6 6
      (Example.envOf () 1) (by simp [Example.envOf]) (le_refl _)).1⟩

/-- C5.  In the bisection loop of `runLimit`, from any locals `s` at the head of an iteration:
if the evaluation at the midpoint returns a sample `clsMid` with error `-1` (the sentinel) and
leaves the environment `env1`, then the loop is left by `return false` in that iteration, and
`runLimit` returns `false` with the caller's `limit`, `rMin`, `rMax` and the stored samples as
they were and with the environment `env1` of that evaluation: no further request is made. -/
theorem search_sentinel (self : Hybrid α) (hc : HybridCalculatorOriginal σ ρ α)
    (clsTarget : α) (fuel n : Nat) (limit : α) (s : Search σ α) (clsMid : CLs_t α)
    (env1 : Env σ α)
    (h : self.eval hc fuel s.env (1 / 2 * (s.rMin + s.rMax)) true clsTarget = .ok (clsMid, env1))
    (hs : clsMid.2 = -1) :
    self.bisect hc clsTarget fuel (n + 1) s = .ok (.hypotestFailed, { s with env := env1 }) ∧
    self.search hc clsTarget fuel (n + 1) limit s
      = .ok { ret := false, limit := limit, lucky := false, final := { s with env := env1 } } := by
  have hb : self.bisect hc clsTarget fuel (n + 1) s
      = .ok (.hypotestFailed, { s with env := env1 }) := by
    rw [bisect_succ self hc clsTarget fuel n s clsMid env1 h, if_pos hs]
  exact ⟨hb, by rw [search, hb]⟩

/-- Witness for C5: the calculator that always returns the null pointer, at the first
bisection of the bracket `[0, 1]`: one request at `r = 1/2`, then `return false`. -/
theorem search_sentinel_witness :
    Example.hybrid.search Example.failing (1 / 20) 1 1 7 (Example.start (Example.envOf () 1) 1)
      = .ok { ret := false, limit := 7, lucky := false,
              final := { Example.start (Example.envOf () 1) 1 with
                         env := { hc := ()
                                  r := (Example.envOf () 1).r.setVal (1 / 2)
                                  requests := [(Example.envOf () 1).r.setVal (1 / 2)] } } } :=
  (search_sentinel Example.hybrid Example.failing (1 / 20) 1 0 7
    (Example.start (Example.envOf () 1) 1) (-1, -1)
    { hc := (), r := (Example.envOf () 1).r.setVal (1 / 2),
      requests := [(Example.envOf () 1).r.setVal (1 / 2)] }
    (by simp [eval, Example.failing, Example.start, Example.envOf, RooRealVar.setVal])
    rfl).2

/-- C6, the code at two failing inputs, range `[0, 1]` and `cl = 19/20`.  With the calculator
that returns the null pointer at every request, the sentinel sample does not satisfy the stop
condition, the bound is doubled, and `runLimit` returns `false` only after six requests, at
`r = 1, 2, 4, 8, 16, 32`, with the upper end of the range of `r` at `64`.  With the calculator
whose first request alone returns the null pointer, `runLimit` goes on after that request,
accepts the bound `2` and returns `true`, after seven requests. -/
theorem runLimit_goes_on_after_null :
    (∃ res, Example.hybrid.runLimit Example.failing (19 / 20) 6 (Example.envOf () 1) 0 none
        = .ok res ∧
      res.ret = false ∧
      res.final.env.requests.map RooRealVar.getVal = [1, 2, 4, 8, 16, 32] ∧
      res.final.env.r.getMax = 64) ∧
    (Example.failingOnce.GetHypoTest 0 ((prepare (Example.envOf 0 1) none).r.setVal 1)).1
      = none ∧
    (∃ res, Example.hybrid.runLimit Example.failingOnce (19 / 20) 6 (Example.envOf 0 1) 0 none
        = .ok res ∧
      res.ret = true ∧
      res.final.env.requests.map RooRealVar.getVal = [1, 2, 1, 1 / 2, 1 / 4, 1 / 8, 1 / 16]) := by
  have hM : (0 : ℚ) < (prepare (Example.envOf () 1) none).r.getMax := by
    norm_num [prepare, Example.envOf, RooRealVar.setConstant]
  have hE := (expand_stage Example.hybrid Example.failing (19 / 20) 6
    (prepare (Example.envOf () 1) none) hM 5 0 rfl 6 (le_refl _)
    (prepare (Example.envOf () 1) none).r.getVal).2
    (fun j _ _ => by rw [probeSample_failing]; exact not_stops_sentinel)
  rw [stageEnv_zero] at hE
  refine ⟨⟨_, runLimit_capped _ _ _ _ _ _ _ _ hE, rfl, ?_, ?_⟩, rfl,
    ⟨_, runLimit_failingOnce, rfl, ?_⟩⟩
  · norm_num [bracket, cappedEnv, prepare, Example.envOf, probeVar, RooRealVar.setConstant,
      List.range_succ]
  · norm_num [bracket, cappedEnv, prepare, Example.envOf, probeVar, RooRealVar.setConstant,
      RooRealVar.setMax]
  · simp

/-- C8.  Whenever `runLimit` returns `true` without a lucky exit, the final bracket satisfies
`rMax - rMin ≤ max rAbsAccuracy_ (rRelAccuracy_ * rMid)`, where `rMid` is the value of `r`, the
point of the last request (the last evaluated midpoint, which has become one end of the bracket),
and the returned `limit` is `1/2 * (rMax + rMin)` of that final bracket. -/
theorem runLimit_converged (self : Hybrid α) (hc : HybridCalculatorOriginal σ ρ α) (cl : α)
    (fuel : Nat) (env : Env σ α) (limit : α) (hint : Option α) (res : LimitRun σ α)
    (h : self.runLimit hc cl fuel env limit hint = .ok res) (hret : res.ret = true)
    (hlucky : res.lucky = false) :
    res.final.rMax - res.final.rMin
        ≤ max self.rAbsAccuracy_ (self.rRelAccuracy_ * res.final.env.r.getVal) ∧
    res.limit = 1 / 2 * (res.final.rMax + res.final.rMin) ∧
    (res.final.env.r.getVal = res.final.rMax ∨ res.final.env.r.getVal = res.final.rMin) ∧
    ∃ l, res.final.env.requests = l ++ [res.final.env.r] := by
  unfold runLimit at h
  simp only at h
  split at h
  · simp at h
  · simp only [Except.ok.injEq] at h
    subst h
    simp at hret
  · unfold search at h
    split at h
    · simp at h
    · simp only [Except.ok.injEq] at h
      subst h
      simp at hret
    · have := (conclude_lucky self hc _ fuel _ res h).2.1
      rw [this] at hlucky
      simp at hlucky
    · rename_i s1 hb
      obtain ⟨h1, h2, h3⟩ := bisect_widthReached self hc _ fuel _ _ _ hb
      simp only [conclude, Bool.false_eq_true, if_false, Except.ok.injEq] at h
      subst h
      exact ⟨h1, rfl, h2, h3⟩

/-- Witness for C8: the run of the default object on the curve `3 / (3 + 19 r)` from the range
`[0, 1]`, which returns `true` without a lucky exit, with the bracket `[15/16, 1]` and the limit
`31/32`. -/
theorem runLimit_converged_witness :
    ∃ res, Example.hybrid.runLimit (Example.noiseless Example.hyperbola) (19 / 20) 6
        (Example.envOf () 1) 0 none = .ok res ∧
      res.ret = true ∧ res.lucky = false ∧
      res.final.rMax - res.final.rMin
        ≤ max Example.hybrid.rAbsAccuracy_
            (Example.hybrid.rRelAccuracy_ * res.final.env.r.getVal) ∧
      res.limit = 1 / 2 * (res.final.rMax + res.final.rMin) :=
  ⟨_, runLimit_hyperbola_one, rfl, rfl,
    (runLimit_converged Example.hybrid (Example.noiseless Example.hyperbola) (19 / 20) 6
      (Example.envOf () 1) 0 none _ runLimit_hyperbola_one rfl rfl).1,
    (runLimit_converged Example.hybrid (Example.noiseless Example.hyperbola) (19 / 20) 6
      (Example.envOf () 1) 0 none _ runLimit_hyperbola_one rfl rfl).2.1⟩

/-- C9.  For every calculator that never returns the null pointer: an adaptive call of `eval`
that returns yields a sample `(value, err)` with `|value - clsTarget| ≥ 3 * err` or
`err < clsAccuracy_`; when the first sample already satisfies this, the adaptive call returns it
after that one request; and a call that is not adaptive always returns the first sample, read off
the result of exactly one request, made at `rVal`. -/
theorem eval_adaptive_post (self : Hybrid α) (hc : HybridCalculatorOriginal σ ρ α)
    (hnf : ∀ (st : σ) (r : RooRealVar α), (hc.GetHypoTest st r).1 ≠ none)
    (fuel : Nat) (env : Env σ α) (rVal clsTarget : α) :
    (∀ value err env1,
        self.eval hc fuel env rVal true clsTarget = .ok ((value, err), env1) →
        |value - clsTarget| ≥ 3 * err ∨ err < self.clsAccuracy_) ∧
    ((|(self.firstSample hc env rVal).1 - clsTarget| ≥ 3 * (self.firstSample hc env rVal).2 ∨
        (self.firstSample hc env rVal).2 < self.clsAccuracy_) →
      self.eval hc fuel env rVal true clsTarget
        = .ok (self.firstSample hc env rVal, afterFirst hc env rVal)) ∧
    self.eval hc fuel env rVal false clsTarget
      = .ok (self.firstSample hc env rVal, afterFirst hc env rVal) ∧
    (∃ hcResult, (hc.GetHypoTest env.hc (env.r.setVal rVal)).1 = some hcResult ∧
        self.firstSample hc env rVal = self.readCLs hc hcResult) ∧
    (afterFirst hc env rVal).requests = env.requests ++ [env.r.setVal rVal] := by
  refine ⟨?_, ?_, eval_nonadaptive self hc fuel env rVal clsTarget, ?_, rfl⟩
  · intro value err env1 h
    have hu := eval_adaptive_resolved self hc fuel env rVal clsTarget _ _ h
    simp only [unresolved, not_and_or, not_lt, not_le] at hu
    rcases hu with hu | hu
    · exact Or.inl hu
    · exact Or.inr hu
  · intro h
    apply eval_of_resolved
    simp only [unresolved, not_and_or, not_lt, not_le]
    rcases h with h | h
    · exact Or.inl h
    · exact Or.inr h
  · rcases hg : (hc.GetHypoTest env.hc (env.r.setVal rVal)).1 with _ | res
    · exact absurd hg (hnf _ _)
    · exact ⟨res, rfl, by simp only [firstSample, hg]⟩

/-- Witness for C9: the noiseless calculator on the curve `3 / (3 + 19 r)` at `r = 1`: without
adaptive resampling the call returns the sample `(3/22, 0)` after one request. -/
theorem eval_adaptive_post_witness :
    (∀ (st : Unit) (r : RooRealVar ℚ),
        ((Example.noiseless Example.hyperbola).GetHypoTest st r).1 ≠ none) ∧
    Example.hybrid.eval (Example.noiseless Example.hyperbola) 0 (Example.envOf () 1) 1 false
        (1 / 20)
      = .ok (Example.hybrid.firstSample (Example.noiseless Example.hyperbola)
              (Example.envOf () 1) 1,
            afterFirst (Example.noiseless Example.hyperbola) (Example.envOf () 1) 1) :=
  ⟨fun _ _ => by simp [Example.noiseless],
    (eval_adaptive_post Example.hybrid (Example.noiseless Example.hyperbola)
      (fun _ _ => by simp [Example.noiseless]) 0 (Example.envOf () 1) 1 (1 / 20)).2.2.1⟩

/-- C10.  `applyOptions` throws `invalid_argument` if and only if the rule is neither `"CLs"` nor
`"CLsplusb"` or the test statistic is none of `"LEP"`, `"TEV"`, `"Atlas"`; when it does not
throw, `CLs_` is true exactly when the rule is `"CLs"`; and the object with the default options
(rule `CLs`, test statistic `LEP`) is accepted with `CLs_` true. -/
theorem applyOptions_throws_iff (self : Hybrid α) (vm : String → Nat) :
    ((∃ e, self.applyOptions vm = .error e) ↔
      (¬ (self.rule_ = "CLs" ∨ self.rule_ = "CLsplusb") ∨
        ¬ (self.testStat_ = "LEP" ∨ self.testStat_ = "TEV" ∨ self.testStat_ = "Atlas"))) ∧
    (∀ out, self.applyOptions vm = .ok out → (out.CLs_ = true ↔ self.rule_ = "CLs")) ∧
    (∃ out, (ctor : Hybrid α).applyOptions vm = .ok out ∧ out.CLs_ = true) := by
  have hne : ("CLsplusb" : String) ≠ "CLs" := by decide
  refine ⟨?_, ?_, ?_⟩
  · by_cases h1 : self.rule_ = "CLs"
    · by_cases h2 : self.testStat_ = "LEP" ∨ self.testStat_ = "TEV" ∨ self.testStat_ = "Atlas"
      · have h2' : ¬ (¬ self.testStat_ = "LEP" ∧ ¬ self.testStat_ = "TEV" ∧
            ¬ self.testStat_ = "Atlas") := by tauto
        simp [applyOptions, h1, h2, h2', bind, Except.bind, pure, Except.pure]
      · have h2' : ¬ self.testStat_ = "LEP" ∧ ¬ self.testStat_ = "TEV" ∧
            ¬ self.testStat_ = "Atlas" := by tauto
        simp [applyOptions, h1, h2, h2', bind, Except.bind, pure, Except.pure, throw,
          throwThe, MonadExceptOf.throw]
    · by_cases h3 : self.rule_ = "CLsplusb"
      · by_cases h2 : self.testStat_ = "LEP" ∨ self.testStat_ = "TEV" ∨
            self.testStat_ = "Atlas"
        · have h2' : ¬ (¬ self.testStat_ = "LEP" ∧ ¬ self.testStat_ = "TEV" ∧
              ¬ self.testStat_ = "Atlas") := by tauto
          simp [applyOptions, h3, hne, h2, h2', bind, Except.bind, pure, Except.pure]
        · have h2' : ¬ self.testStat_ = "LEP" ∧ ¬ self.testStat_ = "TEV" ∧
              ¬ self.testStat_ = "Atlas" := by tauto
          simp [applyOptions, h3, hne, h2, h2', bind, Except.bind, pure, Except.pure, throw,
            throwThe, MonadExceptOf.throw]
      · simp [applyOptions, h1, h3, bind, Except.bind, throw, throwThe, MonadExceptOf.throw]
  · intro out h
    by_cases h1 : self.rule_ = "CLs"
    · simp only [applyOptions, h1, if_true, bind, Except.bind, pure, Except.pure] at h
      split at h
      · simp [throw, throwThe, MonadExceptOf.throw] at h
      · simp only [Except.ok.injEq] at h
        subst h
        simp [h1]
    · by_cases h3 : self.rule_ = "CLsplusb"
      · simp only [applyOptions, h3, hne, if_false, if_true, bind, Except.bind, pure,
          Except.pure] at h
        split at h
        · simp [throw, throwThe, MonadExceptOf.throw] at h
        · simp only [Except.ok.injEq] at h
          subst h
          simp [h3, hne]
      · simp [applyOptions, h1, h3, bind, Except.bind, throw, throwThe,
          MonadExceptOf.throw] at h
  · simp [applyOptions, ctor, bind, Except.bind, pure, Except.pure]

/-- C11.  For every calculator, every initial upper bound `M > 0` and `rAbsAccuracy_ ≥ 0`
(whatever the other accuracies), `rMin ≤ rMax` holds in every state `runLimit` reaches: in the
locals with which the bisection loop begins after the bracket expansion; in the locals after any
bisection iteration that started with `rMin ≤ rMax`; after any step of the lower-edge and of the
upper-edge refinement that started with `rMin ≤ limit ≤ rMax`, where `rMin ≤ limit ≤ rMax` holds
again; and in the locals with which `runLimit` returns, where moreover `rMin ≤ limit ≤ rMax` after
a lucky exit. -/
theorem runLimit_bracket_ordered (self : Hybrid α) (hc : HybridCalculatorOriginal σ ρ α)
    (cl : α) (fuel : Nat) (env : Env σ α) (limit : α) (hint : Option α)
    (hM : 0 < (prepare env hint).r.getMax) (hacc : 0 ≤ self.rAbsAccuracy_) :
    (∀ env1, self.expand hc cl (prepare env hint).r.getMax fuel fuel (prepare env hint)
        = .ok (true, env1) → (bracket env1).rMin ≤ (bracket env1).rMax) ∧
    (∀ (s : Search σ α) (clsMid : CLs_t α) (env1 : Env σ α), s.rMin ≤ s.rMax →
        self.eval hc fuel s.env (1 / 2 * (s.rMin + s.rMax)) true (1 - cl) = .ok (clsMid, env1) →
        (replace (1 - cl) s clsMid env1).rMin ≤ (replace (1 - cl) s clsMid env1).rMax) ∧
    (∀ (s : Search σ α) (lim : α) (cls : CLs_t α) (env1 : Env σ α),
        s.rMin ≤ lim → lim ≤ s.rMax →
        s.env.r.getVal < lim - 1 / 2 * max self.rAbsAccuracy_ (self.rRelAccuracy_ * lim) →
        self.eval hc fuel s.env (1 / 2 * (s.env.r.getVal + lim)) true (1 - cl)
          = .ok (cls, env1) →
        ({ s with env := env1, clsMax := cls, rMin := env1.r.getVal } : Search σ α).rMin ≤ lim ∧
        lim ≤ ({ s with env := env1, clsMax := cls, rMin := env1.r.getVal } : Search σ α).rMax) ∧
    (∀ (s : Search σ α) (lim : α) (cls : CLs_t α) (env1 : Env σ α),
        s.rMin ≤ lim → lim ≤ s.rMax →
        s.env.r.getVal > lim + 1 / 2 * max self.rAbsAccuracy_ (self.rRelAccuracy_ * lim) →
        self.eval hc fuel s.env (1 / 2 * (s.env.r.getVal + lim)) true (1 - cl)
          = .ok (cls, env1) →
        ({ s with env := env1, clsMax := cls, rMax := env1.r.getVal } : Search σ α).rMin ≤ lim ∧
        lim ≤ ({ s with env := env1, clsMax := cls, rMax := env1.r.getVal } : Search σ α).rMax) ∧
    (∀ res, self.runLimit hc cl fuel env limit hint = .ok res →
        res.final.rMin ≤ res.final.rMax ∧
        (res.lucky = true → res.final.rMin ≤ res.limit ∧ res.limit ≤ res.final.rMax)) := by
  refine ⟨?_, ?_, ?_, ?_, runLimit_ordered self hc cl fuel env limit hint hM hacc⟩
  · intro env1 hE
    obtain ⟨j, hj⟩ := expand_getMax self hc cl _ fuel _ _ _ _ hE
    show (0 : α) ≤ env1.r.getMax
    rw [hj]
    positivity
  · intro s clsMid env1 hs he
    refine replace_ordered _ s clsMid env1 hs ?_
    rw [(eval_ok self hc fuel _ _ _ _ _ _ he).1]
    rfl
  · intro s lim cls env1 h1 h2 hcond he
    have hmax : 0 ≤ max self.rAbsAccuracy_ (self.rRelAccuracy_ * lim) :=
      le_trans hacc (le_max_left _ _)
    have hv : env1.r.getVal = 1 / 2 * (s.env.r.getVal + lim) := by
      rw [(eval_ok self hc fuel _ _ _ _ _ _ he).1]
      rfl
    refine ⟨?_, h2⟩
    show env1.r.getVal ≤ lim
    rw [hv]
    linarith
  · intro s lim cls env1 h1 h2 hcond he
    have hmax : 0 ≤ max self.rAbsAccuracy_ (self.rRelAccuracy_ * lim) :=
      le_trans hacc (le_max_left _ _)
    have hv : env1.r.getVal = 1 / 2 * (s.env.r.getVal + lim) := by
      rw [(eval_ok self hc fuel _ _ _ _ _ _ he).1]
      rfl
    refine ⟨h1, ?_⟩
    show lim ≤ env1.r.getVal
    rw [hv]
    linarith

/-- Witness for C11: the run of the default object on the curve `3 / (3 + 19 r)` from the range
`[0, 1]`, which ends with the bracket `[15/16, 1]`. -/
theorem runLimit_bracket_ordered_witness :
    (0 : ℚ) < (prepare (Example.envOf () 1) none).r.getMax ∧
    (0 : ℚ) ≤ Example.hybrid.rAbsAccuracy_ ∧
    ∃ res, Example.hybrid.runLimit (Example.noiseless Example.hyperbola) (19 / 20) 6
        (Example.envOf () 1) 0 none = .ok res ∧ res.final.rMin ≤ res.final.rMax :=
  ⟨by norm_num [prepare, Example.envOf, RooRealVar.setConstant],
    by norm_num [hybrid_rAbsAccuracy],
    _, runLimit_hyperbola_one,
    ((runLimit_bracket_ordered Example.hybrid (Example.noiseless Example.hyperbola) (19 / 20) 6
      (Example.envOf () 1) 0 none
      (by norm_num [prepare, Example.envOf, RooRealVar.setConstant])
      (by norm_num [hybrid_rAbsAccuracy])).2.2.2.2 _ runLimit_hyperbola_one).1⟩

/-- C12, the code at a failing input: the default object and the noiseless calculator on the
curve `3 / (3 + 19 r)`, range `[0, 1]`, `cl = 19/20`.  The bracket expansion evaluates the sample
`(3/22, 0)` at the bound `1` and accepts it; the bisection loop begins with `rMax = 1` and
`clsMax = (0, 0)`, not that sample; and when `runLimit` returns, after four iterations that all
replaced `rMin`, `rMax` is still `1` and `clsMax` is still `(0, 0)`. -/
theorem clsMax_is_not_the_expander_sample :
    ∃ env1, Example.hybrid.eval (Example.noiseless Example.hyperbola) 6
        (prepare (Example.envOf () 1) none) (prepare (Example.envOf () 1) none).r.getMax
        adaptiveDefault clsTargetDefault = .ok ((3 / 22, 0), env1) ∧
      Example.hybrid.expand (Example.noiseless Example.hyperbola) (19 / 20)
        (prepare (Example.envOf () 1) none).r.getMax 6 6 (prepare (Example.envOf () 1) none)
        = .ok (true, env1) ∧
      Example.hybrid.runLimit (Example.noiseless Example.hyperbola) (19 / 20) 6
        (Example.envOf () 1) 0 none
        = Example.hybrid.search (Example.noiseless Example.hyperbola) (1 - 19 / 20) 6 6 0
            (bracket env1) ∧
      (bracket env1).rMax = 1 ∧ (bracket env1).clsMax = (0, 0) ∧
      (bracket env1).clsMax ≠ (3 / 22, 0) ∧
      ∃ res, Example.hybrid.runLimit (Example.noiseless Example.hyperbola) (19 / 20) 6
          (Example.envOf () 1) 0 none = .ok res ∧
        res.final.rMax = 1 ∧ res.final.clsMax = (0, 0) ∧ res.final.clsMax ≠ (3 / 22, 0) := by
  refine ⟨{ hc := (), r := ⟨1, 0, 1, true⟩, requests := [⟨1, 0, 1, true⟩] }, ?_,
    expand_hyperbola_one, runLimit_accepted _ _ _ _ _ _ _ _ expand_hyperbola_one, rfl, rfl, ?_,
    _, runLimit_hyperbola_one, rfl, rfl, ?_⟩
  · rw [eval_noiseless _ _ _ (noiseless_example _ _)]
    norm_num [afterFirst_example, prepare, Example.envOf, RooRealVar.setConstant,
      Example.hyperbola]
  · intro h
    have := congrArg Prod.fst h
    norm_num [bracket] at this
  · intro h
    have := congrArg Prod.fst h
    norm_num at this

/-- C14, a counterexample: the object with `saveHybridResult` on, no output directory, the
noiseless calculator on the curve `3 / (3 + 19 r)`.  The one request at `r = 1` returns the
result `3/22`, whose significance `3/22` is finite, and `runSignificance` does not return `true`:
it throws `std::logic_error`. -/
theorem runSignificance_throws_on_a_finite_sample :
    significanceSample Example.hybridSave (Example.noiseless Example.hyperbola) Example.ops
        (Example.combine true) (Example.envOf () 1) = .ok (some (3 / 22)) ∧
      (Example.ops.Significance (3 / 22)).isfinite = true ∧
      (Example.hybridSave.runSignificance (Example.noiseless Example.hyperbola) Example.ops
        (Example.combine true) (Example.envOf () 1) (.finite 0)).outcome
        = .error ⟨"Option saveToys must be enabled to turn on saveHybridResult"⟩ ∧
      (Example.hybridSave.runSignificance (Example.noiseless Example.hyperbola) Example.ops
        (Example.combine true) (Example.envOf () 1) (.finite 0)).outcome ≠ .ok true := by
  have hs : (Example.noiseless Example.hyperbola).GetHypoTest (Example.envOf () (1 : ℚ)).hc
      (significanceVar (Example.envOf () (1 : ℚ)).r) = (some (3 / 22), ()) := by
    norm_num [Example.noiseless, Example.hyperbola, significanceVar, Example.envOf,
      RooRealVar.setVal, RooRealVar.setConstant]
  refine ⟨?_, ?_, ?_, ?_⟩
  · simp only [significanceSample, hs]
    rfl
  · norm_num [Example.ops, Double.isfinite]
  · rw [runSignificance_of_result _ _ _ _ _ _ rfl (3 / 22) (by rw [hs])]
    rw [reportSignificance_throw _ _ _ _ _ _ ⟨rfl, rfl⟩]
  · rw [runSignificance_of_result _ _ _ _ _ _ rfl (3 / 22) (by rw [hs])]
    rw [reportSignificance_throw _ _ _ _ _ _ ⟨rfl, rfl⟩]
    simp

/-- C14 amended.  `runSignificance` returns `false` when the sample is the null pointer.  When
`readToysFromFile` throws, so does `runSignificance`; when there is a sample and
`saveHybridResult` is on without an output directory, `runSignificance` throws
`std::logic_error`; in every other case with a sample it returns whether the significance of
the sample is finite. -/
theorem runSignificance_outcome (self : Hybrid α) (hc : HybridCalculatorOriginal σ ρ α)
    (ops : HybridResultOps ρ α) (g : Combine ρ α) (env : Env σ α) (limit : Double α) :
    (∀ e, significanceSample self hc ops g env = .error e →
        (self.runSignificance hc ops g env limit).outcome = .error e) ∧
      (significanceSample self hc ops g env = .ok none →
        (self.runSignificance hc ops g env limit).outcome = .ok false) ∧
      (∀ hcResult, significanceSample self hc ops g env = .ok (some hcResult) →
        (self.saveHybridResult_ = true ∧ g.writeToysHere = false →
          (self.runSignificance hc ops g env limit).outcome
            = .error ⟨"Option saveToys must be enabled to turn on saveHybridResult"⟩) ∧
        (¬ (self.saveHybridResult_ = true ∧ g.writeToysHere = false) →
          (self.runSignificance hc ops g env limit).outcome
            = .ok (ops.Significance hcResult).isfinite ∧
          ((self.runSignificance hc ops g env limit).outcome = .ok true ↔
            (ops.Significance hcResult).isfinite = true))) := by
  cases hr : self.readHybridResults_
  · simp only [significanceSample, hr, Bool.false_eq_true, if_false]
    refine ⟨fun e h => by simp at h, fun h => ?_, fun hcResult h => ?_⟩
    · simp only [Except.ok.injEq] at h
      rw [runSignificance_of_null _ _ _ _ _ _ hr h]
    · simp only [Except.ok.injEq] at h
      rw [runSignificance_of_result _ _ _ _ _ _ hr hcResult h]
      constructor
      · intro hs
        rw [reportSignificance_throw _ _ _ _ _ _ hs]
      · intro hs
        rw [reportSignificance_ok _ _ _ _ _ _ hs]
        simp
  · simp only [significanceSample, hr, if_true]
    refine ⟨fun e h => ?_, fun h => ?_, fun hcResult h => ?_⟩
    · rw [runSignificance_of_read_error _ _ _ _ _ _ hr e h]
    · rw [runSignificance_of_read_null _ _ _ _ _ _ hr h]
    · rw [runSignificance_of_read _ _ _ _ _ _ hr hcResult h]
      constructor
      · intro hs
        rw [reportSignificance_throw _ _ _ _ _ _ hs]
      · intro hs
        rw [reportSignificance_ok _ _ _ _ _ _ hs]
        simp

/-- Witness for C14 amended: the default object in significance mode, the noiseless calculator
on the curve `3 / (3 + 19 r)`: the sample is the result `3/22`, nothing is saved, and
`runSignificance` returns `true`, the significance `3/22` being finite. -/
theorem runSignificance_outcome_witness :
    significanceSample Example.hybrid (Example.noiseless Example.hyperbola) Example.ops
        (Example.combine true) (Example.envOf () 1) = .ok (some (3 / 22)) ∧
      ¬ ((Example.hybrid : Hybrid ℚ).saveHybridResult_ = true ∧
        (Example.combine true).writeToysHere = false) ∧
      (Example.hybrid.runSignificance (Example.noiseless Example.hyperbola) Example.ops
        (Example.combine true) (Example.envOf () 1) (.finite 0)).outcome
        = .ok (Example.ops.Significance (3 / 22)).isfinite ∧
      (Example.ops.Significance (3 / 22)).isfinite = true :=
  have hs : significanceSample Example.hybrid (Example.noiseless Example.hyperbola) Example.ops
      (Example.combine true) (Example.envOf () 1) = .ok (some (3 / 22)) := by
    norm_num [significanceSample, Example.hybrid, ctor, Example.noiseless, Example.hyperbola,
      significanceVar, Example.envOf, RooRealVar.setVal, RooRealVar.setConstant]
  have hn : ¬ ((Example.hybrid : Hybrid ℚ).saveHybridResult_ = true ∧
      (Example.combine true).writeToysHere = false) := by
    simp [Example.hybrid, ctor]
  ⟨hs, hn,
    (((runSignificance_outcome Example.hybrid (Example.noiseless Example.hyperbola) Example.ops
      (Example.combine true) (Example.envOf () 1) (.finite 0)).2.2 (3 / 22) hs).2 hn).1,
    by norm_num [Example.ops, Double.isfinite]⟩

/-- C15, a counterexample: the default object and the noiseless calculator on the curve that is
`0` everywhere, the caller's `limit` being `0`.  The one request returns the result `0`, whose
significance is plus infinity; `runSignificance` returns `false`, and the caller's `limit` is
then plus infinity, not the `0` it was before the call. -/
theorem runSignificance_false_overwrites_limit :
    (Example.hybrid.runSignificance (Example.noiseless (fun _ : ℚ => 0)) Example.ops
        (Example.combine true) (Example.envOf () 1) (.finite 0)).outcome = .ok false ∧
      (Example.hybrid.runSignificance (Example.noiseless (fun _ : ℚ => 0)) Example.ops
        (Example.combine true) (Example.envOf () 1) (.finite 0)).limit = .inf false ∧
      (Example.hybrid.runSignificance (Example.noiseless (fun _ : ℚ => 0)) Example.ops
        (Example.combine true) (Example.envOf () 1) (.finite 0)).limit ≠ .finite 0 := by
  have hs : (Example.noiseless (fun _ : ℚ => 0)).GetHypoTest (Example.envOf () (1 : ℚ)).hc
      (significanceVar (Example.envOf () (1 : ℚ)).r) = (some 0, ()) := rfl
  have hr : (Example.hybrid.runSignificance (Example.noiseless (fun _ : ℚ => 0)) Example.ops
        (Example.combine true) (Example.envOf () 1) (.finite 0))
      = { outcome := .ok false, limit := .inf false
          env := { hc := (), r := ⟨1, 0, 1, true⟩, requests := [⟨1, 0, 1, true⟩] }
          written := none } := by
    rw [runSignificance_of_result _ _ _ _ _ _ rfl 0 (by rw [hs])]
    rw [reportSignificance_ok _ _ _ _ _ _ (by simp [Example.hybrid, ctor])]
    simp [Example.ops, Double.isfinite, Example.hybrid, ctor, significanceVar, Example.envOf,
      RooRealVar.setVal, RooRealVar.setConstant, Example.noiseless]
  rw [hr]
  exact ⟨rfl, rfl, by simp⟩

/-- C15 amended.  A run of `runLimit` that returns `false` leaves the caller's `limit` as it was.
A run of `runSignificance` that throws leaves it as it was; one that returns `false` leaves it
as it was when the sample is the null pointer, and otherwise there is a sample whose
significance is not finite, and `limit` then holds that value. -/
theorem limit_after_failure (self : Hybrid α) (hc : HybridCalculatorOriginal σ ρ α)
    (env : Env σ α) :
    (∀ (cl : α) (fuel : Nat) (limit : α) (hint : Option α) (res : LimitRun σ α),
        self.runLimit hc cl fuel env limit hint = .ok res → res.ret = false →
        res.limit = limit) ∧
      (∀ (ops : HybridResultOps ρ α) (g : Combine ρ α) (limit : Double α) (e : logic_error),
        (self.runSignificance hc ops g env limit).outcome = .error e →
        (self.runSignificance hc ops g env limit).limit = limit) ∧
      (∀ (ops : HybridResultOps ρ α) (g : Combine ρ α) (limit : Double α),
        (self.runSignificance hc ops g env limit).outcome = .ok false →
        (significanceSample self hc ops g env = .ok none ∧
          (self.runSignificance hc ops g env limit).limit = limit) ∨
        ∃ hcResult, significanceSample self hc ops g env = .ok (some hcResult) ∧
          (ops.Significance hcResult).isfinite = false ∧
          (self.runSignificance hc ops g env limit).limit = ops.Significance hcResult) := by
  have key : ∀ (ops : HybridResultOps ρ α) (g : Combine ρ α) (limit : Double α),
      (∃ e, significanceSample self hc ops g env = .error e ∧
        self.runSignificance hc ops g env limit
          = { outcome := .error e, limit := limit
              env := (self.runSignificance hc ops g env limit).env, written := none }) ∨
      (significanceSample self hc ops g env = .ok none ∧
        self.runSignificance hc ops g env limit
          = { outcome := .ok false, limit := limit
              env := (self.runSignificance hc ops g env limit).env, written := none }) ∨
      ∃ hcResult, significanceSample self hc ops g env = .ok (some hcResult) ∧
        self.runSignificance hc ops g env limit
          = self.reportSignificance ops g (self.runSignificance hc ops g env limit).env limit
              hcResult := by
    intro ops g limit
    cases hr : self.readHybridResults_
    · simp only [significanceSample, hr, Bool.false_eq_true, if_false]
      rcases hg : (hc.GetHypoTest env.hc (significanceVar env.r)).1 with _ | hcResult
      · refine Or.inr (Or.inl ⟨rfl, ?_⟩)
        rw [runSignificance_of_null _ _ _ _ _ _ hr hg]
      · refine Or.inr (Or.inr ⟨hcResult, rfl, ?_⟩)
        rw [runSignificance_of_result _ _ _ _ _ _ hr hcResult hg]
        unfold reportSignificance
        split <;> rfl
    · simp only [significanceSample, hr, if_true]
      rcases hg : readToysFromFile ops g.readToysFromHere with e | _ | hcResult
      · refine Or.inl ⟨e, rfl, ?_⟩
        rw [runSignificance_of_read_error _ _ _ _ _ _ hr e hg]
      · refine Or.inr (Or.inl ⟨rfl, ?_⟩)
        rw [runSignificance_of_read_null _ _ _ _ _ _ hr hg]
      · refine Or.inr (Or.inr ⟨hcResult, rfl, ?_⟩)
        rw [runSignificance_of_read _ _ _ _ _ _ hr hcResult hg]
        unfold reportSignificance
        split <;> rfl
  refine ⟨?_, ?_, ?_⟩
  · intro cl fuel limit hint res h hret
    exact runLimit_false_limit self hc cl fuel env limit hint res h hret
  · intro ops g limit e h
    rcases key ops g limit with ⟨e1, -, hk⟩ | ⟨-, hk⟩ | ⟨hcResult, -, hk⟩
    · rw [hk]
    · rw [hk]
    · rw [hk] at h ⊢
      by_cases hs : self.saveHybridResult_ = true ∧ g.writeToysHere = false
      · rw [reportSignificance_throw _ _ _ _ _ _ hs]
      · rw [reportSignificance_ok _ _ _ _ _ _ hs] at h
        simp at h
  · intro ops g limit h
    rcases key ops g limit with ⟨e1, -, hk⟩ | ⟨hn, hk⟩ | ⟨hcResult, hsome, hk⟩
    · rw [hk] at h
      simp at h
    · exact Or.inl ⟨hn, by rw [hk]⟩
    · refine Or.inr ⟨hcResult, hsome, ?_⟩
      rw [hk] at h ⊢
      by_cases hs : self.saveHybridResult_ = true ∧ g.writeToysHere = false
      · rw [reportSignificance_throw _ _ _ _ _ _ hs] at h
        simp at h
      · rw [reportSignificance_ok _ _ _ _ _ _ hs] at h ⊢
        simp only [Except.ok.injEq] at h
        exact ⟨h, rfl⟩

/-- Witness for C15 amended: the default object and the calculator whose every request returns
the null pointer, range `[0, 1]`, the caller's `limit` being `7`: `runLimit` returns `false` and
`limit` is still `7`. -/
theorem limit_after_failure_witness :
    ∃ res, Example.hybrid.runLimit Example.failing (19 / 20) 6 (Example.envOf () 1) 7 none
        = .ok res ∧ res.ret = false ∧ res.limit = 7 :=
  ⟨_, runLimit_failing 7, rfl,
    (limit_after_failure Example.hybrid Example.failing (Example.envOf () 1)).1 (19 / 20) 6 7
      none _ (runLimit_failing 7) rfl⟩

/-- C16, the code at a failing input: the object with `rInterval` on and the other options at
their defaults, range `[0, 4]`, `cl = 19/20`, and two noiseless calculators whose curves agree at
every point but `47/16`.  Both runs accept the bound `4`, bisect at `2` and `3`, meet the target at
`3` and probe the lower edge at `5/2`, `11/4`, `23/8` and `47/16`, the one point where the two
calculators differ.  The lower-edge loop stores each probe sample in `clsMax`, which the upper-edge
loop then reads: with the first calculator the upper edge is not probed and `rMax` stays `4`, with
the second it is probed at `7/2` and `13/4` (where both calculators agree) and `rMax` ends at
`13/4`. -/
theorem upper_edge_depends_on_lower_probe :
    Noiseless (Example.hybridInterval : Hybrid ℚ) (Example.noiseless Example.hyperbola)
        Example.hyperbola ∧
      Noiseless (Example.hybridInterval : Hybrid ℚ) (Example.noiseless Example.bumped)
        Example.bumped ∧
      (∀ r : ℚ, r ≠ 47 / 16 → Example.bumped r = Example.hyperbola r) ∧
      ∃ res1 res2,
        Example.hybridInterval.runLimit (Example.noiseless Example.hyperbola) (19 / 20) 6
          (Example.envOf () 4) 0 none = .ok res1 ∧
        Example.hybridInterval.runLimit (Example.noiseless Example.bumped) (19 / 20) 6
          (Example.envOf () 4) 0 none = .ok res2 ∧
        res1.ret = true ∧ res2.ret = true ∧ res1.limit = 3 ∧ res2.limit = 3 ∧
        res1.final.env.requests.map RooRealVar.getVal
          = [4, 2, 3, 5 / 2, 11 / 4, 23 / 8, 47 / 16] ∧
        res2.final.env.requests.map RooRealVar.getVal
          = [4, 2, 3, 5 / 2, 11 / 4, 23 / 8, 47 / 16, 7 / 2, 13 / 4] ∧
        (47 / 16 : ℚ) < 3 ∧
        res1.final.rMin = res2.final.rMin ∧
        res1.final.rMax = 4 ∧ res2.final.rMax = 13 / 4 ∧
        res1.final.rMax ≠ res2.final.rMax := by
  refine ⟨noiseless_example _ _, noiseless_example _ _, ?_, _, _, runLimit_interval_hyperbola,
    runLimit_interval_bumped, rfl, rfl, rfl, rfl, ?_, ?_, by norm_num, rfl, rfl, rfl, ?_⟩
  · intro r hr
    simp [Example.bumped, hr]
  · simp
  · simp
  · norm_num

/-- C17, the code at a failing input: the object with `rInterval` on and the other options at
their defaults, the noiseless calculator on the curve `3 / (3 + 19 r)`, range `[0, 4]`,
`cl = 19/20`.  The bisection meets the target at `limit = 3` after the requests at `4`, `2`
and `3`, and leaves `rMin = 2`.  The lower-edge loop, entered with `r = rMin`, probes `5/2`,
`11/4`, `23/8` and `47/16`.  The sample of the probe at `11/4` is `12/221`, within `clsAccuracy`
of the target `1/20`, and the probes at `23/8` and `47/16` are made all the same: the loop tests
`clsMin`, which it never updates. -/
theorem lowerEdge_probes_after_accurate_sample :
    ∃ sB sL,
      Example.hybridInterval.bisect (Example.noiseless Example.hyperbola) (1 - 19 / 20) 6 6
          (bracket { hc := (), r := ⟨4, 0, 4, true⟩, requests := [⟨4, 0, 4, true⟩] })
        = .ok (Exit.lucky, sB) ∧
      sB.env.r.getVal = 3 ∧ sB.rMin = 2 ∧
      sB.env.requests.map RooRealVar.getVal = [4, 2, 3] ∧
      Example.hybridInterval.lowerEdge (Example.noiseless Example.hyperbola) (1 - 19 / 20)
          sB.env.r.getVal
          (sB.env.r.getVal - 1 / 2 * max Example.hybridInterval.rAbsAccuracy_
            (Example.hybridInterval.rRelAccuracy_ * sB.env.r.getVal)) 6 6
          { sB with env := { sB.env with r := sB.env.r.setVal sB.rMin } }
        = .ok sL ∧
      sL.env.requests.map RooRealVar.getVal = [4, 2, 3, 5 / 2, 11 / 4, 23 / 8, 47 / 16] ∧
      (∀ env : Env Unit ℚ, ∃ env1,
        Example.hybridInterval.eval (Example.noiseless Example.hyperbola) 6 env (11 / 4)
          adaptiveDefault (1 - 19 / 20) = .ok ((12 / 221, 0), env1)) ∧
      |(12 / 221 : ℚ) - (1 - 19 / 20)| < Example.hybridInterval.clsAccuracy_ ∧
      ∃ res, Example.hybridInterval.runLimit (Example.noiseless Example.hyperbola) (19 / 20) 6
          (Example.envOf () 4) 0 none = .ok res ∧
        res.limit = 3 ∧
        res.final.env.requests.map RooRealVar.getVal
          = [4, 2, 3, 5 / 2, 11 / 4, 23 / 8, 47 / 16] := by
  refine ⟨_,
    { env := { hc := ()
               r := ⟨47 / 16, 0, 4, true⟩
               requests := [⟨4, 0, 4, true⟩, ⟨2, 0, 4, true⟩, ⟨3, 0, 4, true⟩,
                 ⟨5 / 2, 0, 4, true⟩, ⟨11 / 4, 0, 4, true⟩, ⟨23 / 8, 0, 4, true⟩,
                 ⟨47 / 16, 0, 4, true⟩] }
      rMin := 47 / 16, rMax := 4, clsMin := (3 / 41, 0), clsMax := (48 / 941, 0) },
    bisect_interval_hyperbola, rfl, rfl, ?_, ?_, ?_, ?_, ?_, _,
    runLimit_interval_hyperbola, rfl, ?_⟩
  · simp
  · rw [← lowerEdge_interval_hyperbola]
    norm_num [hybridInterval_rAbsAccuracy, hybridInterval_rRelAccuracy, RooRealVar.setVal]
  · simp
  · intro env
    rw [eval_noiseless _ _ _ (noiseless_example _ _)]
    refine ⟨afterFirst (Example.noiseless Example.hyperbola) env (11 / 4), ?_⟩
    norm_num [Example.hyperbola]
  · rw [hybridInterval_clsAccuracy, abs_lt]
    norm_num
  · simp

/-- C18, a counterexample: the object with `saveHybridResult` and `readHybridResults` both on,
no output directory and no input file, in limit mode, the noiseless calculator on the curve
`3 / (3 + 19 r)`, range `[0, 1]`, `cl = 19/20`: `run` raises nothing, makes five requests to
the calculator and returns `true` with the limit `31/32`.  And in significance mode, with
`saveHybridResult` on and no output directory, the exception is thrown only after the request
to the calculator has been made. -/
theorem missing_store_not_detected_before_evaluation :
    (Example.hybridSaveRead : Hybrid ℚ).saveHybridResult_ = true ∧
      (Example.hybridSaveRead : Hybrid ℚ).readHybridResults_ = true ∧
      (Example.combine false).writeToysHere = false ∧
      (Example.combine false).readToysFromHere = none ∧
      (Example.combine false).doSignificance_ = false ∧
      (∃ res, Example.hybridSaveRead.run (Example.noiseless Example.hyperbola) Example.setters
          Example.ops (Example.combine false) 6 (Example.envOf () 1) 0 none = .ok res ∧
        res.outcome = .ok true ∧ res.limit = .finite (31 / 32) ∧
        res.env.requests.map RooRealVar.getVal = [1, 1 / 2, 3 / 4, 7 / 8, 15 / 16]) ∧
      (Example.hybridSave : Hybrid ℚ).saveHybridResult_ = true ∧
      (Example.combine true).writeToysHere = false ∧
      (Example.hybridSave.runSignificance (Example.noiseless Example.hyperbola) Example.ops
        (Example.combine true) (Example.envOf () 1) (.finite 0)).outcome
        = .error ⟨"Option saveToys must be enabled to turn on saveHybridResult"⟩ ∧
      (Example.hybridSave.runSignificance (Example.noiseless Example.hyperbola) Example.ops
        (Example.combine true) (Example.envOf () 1) (.finite 0)).env.requests.map
          RooRealVar.getVal = [1] := by
  refine ⟨rfl, rfl, rfl, rfl, rfl, ⟨_, run_limit_hyperbola_one Example.hybridSaveRead
    (by norm_num [Example.hybridSaveRead, Example.hybrid, ctor])
    (by norm_num [Example.hybridSaveRead, Example.hybrid, ctor])
    (by norm_num [Example.hybridSaveRead, Example.hybrid, ctor]), rfl, rfl, ?_⟩, rfl, rfl, ?_, ?_⟩
  · simp
  · rw [runSignificance_save_example]
  · rw [runSignificance_save_example]
    simp

/-- C18 amended.  In significance mode: with `readHybridResults` on and the input file or its
directory `toys` missing, `runSignificance` throws `std::logic_error` and no request is made to
the calculator; with `readHybridResults` off, `saveHybridResult` on and no output directory,
exactly one request is made to the calculator, and then `runSignificance` returns `false` when
the result is the null pointer and throws `std::logic_error` otherwise.  In limit mode the two
options and the two stores are not looked at: unless the nuisances are missing, a run that
returns raises nothing. -/
theorem missing_store_errors (self : Hybrid α) (hc : HybridCalculatorOriginal σ ρ α)
    (ops : HybridResultOps ρ α) (g : Combine ρ α) (env : Env σ α) :
    (∀ limit : Double α, self.readHybridResults_ = true → NoToysToRead g →
        (self.runSignificance hc ops g env limit).outcome
          = .error ⟨"Cannot use readHybridResult: option toysFile not specified, or input file empty"⟩ ∧
        (self.runSignificance hc ops g env limit).env.requests = env.requests) ∧
      (∀ limit : Double α, self.readHybridResults_ = false → self.saveHybridResult_ = true →
        g.writeToysHere = false →
        (self.runSignificance hc ops g env limit).env.requests
          = env.requests ++ [significanceVar env.r] ∧
        ((hc.GetHypoTest env.hc (significanceVar env.r)).1 = none →
          (self.runSignificance hc ops g env limit).outcome = .ok false) ∧
        ((hc.GetHypoTest env.hc (significanceVar env.r)).1 ≠ none →
          (self.runSignificance hc ops g env limit).outcome
            = .error ⟨"Option saveToys must be enabled to turn on saveHybridResult"⟩)) ∧
      (∀ (set : HybridCalculatorSetters σ) (fuel : Nat) (limit : α) (hint : Option α)
          (res : Run σ ρ α),
        g.doSignificance_ = false → ¬ NuisancesMissing g →
        self.run hc set ops g fuel env limit hint = .ok res →
        ∃ b, res.outcome = .ok b) := by
  refine ⟨?_, ?_, ?_⟩
  · intro limit hr hn
    refine ⟨?_, by rw [runSignificance_requests, hr]; rfl⟩
    rw [runSignificance_of_read_error _ _ _ _ _ _ hr _ (readToysFromFile_noToys ops g hn)]
  · intro limit hr hs hw
    refine ⟨by rw [runSignificance_requests, hr]; rfl, ?_, ?_⟩
    · intro hg
      rw [runSignificance_of_null _ _ _ _ _ _ hr hg]
    · intro hg
      obtain ⟨hcResult, hg⟩ := Option.ne_none_iff_exists'.mp hg
      rw [runSignificance_of_result _ _ _ _ _ _ hr hcResult hg,
        reportSignificance_throw _ _ _ _ _ _ ⟨hs, hw⟩]
  · intro set fuel limit hint res hm hn h
    rw [run_eq _ _ _ _ _ _ _ _ _ hn, hm] at h
    simp only [Bool.false_eq_true, if_false] at h
    split at h
    · simp at h
    · simp only [Except.ok.injEq] at h
      subst h
      exact ⟨_, rfl⟩

/-- Witness for C18 amended: the object with `readHybridResults` on and no input file, in
significance mode: `runSignificance` throws and the request log is still empty. -/
theorem missing_store_errors_witness :
    (Example.hybridRead : Hybrid ℚ).readHybridResults_ = true ∧
      NoToysToRead (Example.combine true) ∧
      (Example.hybridRead.runSignificance (Example.noiseless Example.hyperbola) Example.ops
        (Example.combine true) (Example.envOf () 1) (.finite 0)).outcome
          = .error ⟨"Cannot use readHybridResult: option toysFile not specified, or input file empty"⟩ ∧
      (Example.hybridRead.runSignificance (Example.noiseless Example.hyperbola) Example.ops
        (Example.combine true) (Example.envOf () 1) (.finite 0)).env.requests
          = (Example.envOf () (1 : ℚ)).requests :=
  ⟨rfl, Or.inl rfl,
    (missing_store_errors Example.hybridRead (Example.noiseless Example.hyperbola) Example.ops
      (Example.combine true) (Example.envOf () 1)).1 (.finite 0) rfl (Or.inl rfl)⟩

/-- C19, the code against the claim.  Whatever the test statistic, every request that `run`
makes to the calculator, in limit mode and in significance mode, is made with `r` constant.
With `Atlas`, `run` has set `r` not constant at line 72, and line 81 of `runLimit` and line 152
of `runSignificance` set it constant again before the first request. -/
theorem run_holds_r_constant (self : Hybrid α) (hc : HybridCalculatorOriginal σ ρ α)
    (set : HybridCalculatorSetters σ) (ops : HybridResultOps ρ α) (g : Combine ρ α)
    (fuel : Nat) (env : Env σ α) (limit : α) (hint : Option α) (res : Run σ ρ α)
    (h0 : env.requests = [])
    (h : self.run hc set ops g fuel env limit hint = .ok res) :
    (self.testStat_ = "Atlas" → (configured self set g env).r.isConstant = false) ∧
      ∀ x ∈ res.env.requests, x.isConstant = true := by
  refine ⟨fun ht => ?_, run_heldConstant self hc set ops g fuel env limit hint res
    (by rw [h0]; simp) h⟩
  simp [configured, ht, RooRealVar.setConstant]

/-- Witness for C19: the object with the test statistic `Atlas`, the noiseless calculator on the
curve `3 / (3 + 19 r)`, range `[0, 1]`.  In limit mode `run` makes five requests, in
significance mode one, each with `r` constant. -/
theorem run_holds_r_constant_witness :
    (Example.hybridAtlas : Hybrid ℚ).testStat_ = "Atlas" ∧
      (∃ res, Example.hybridAtlas.run (Example.noiseless Example.hyperbola) Example.setters
          Example.ops (Example.combine false) 6 (Example.envOf () 1) 0 none = .ok res ∧
        res.env.requests = [⟨1, 0, 1, true⟩, ⟨1 / 2, 0, 1, true⟩, ⟨3 / 4, 0, 1, true⟩,
          ⟨7 / 8, 0, 1, true⟩, ⟨15 / 16, 0, 1, true⟩] ∧
        ∀ x ∈ res.env.requests, x.isConstant = true) ∧
      (∃ res, Example.hybridAtlas.run (Example.noiseless Example.hyperbola) Example.setters
          Example.ops (Example.combine true) 6 (Example.envOf () 1) 0 none = .ok res ∧
        res.env.requests = [⟨1, 0, 1, true⟩] ∧
        ∀ x ∈ res.env.requests, x.isConstant = true) :=
  have hl := run_limit_hyperbola_one (Example.hybridAtlas : Hybrid ℚ)
    (by norm_num [Example.hybridAtlas, Example.hybrid, ctor])
    (by norm_num [Example.hybridAtlas, Example.hybrid, ctor])
    (by norm_num [Example.hybridAtlas, Example.hybrid, ctor])
  have hs := run_significance_hyperbola_one (Example.hybridAtlas : Hybrid ℚ) rfl rfl
  ⟨rfl,
    ⟨_, hl, rfl, (run_holds_r_constant Example.hybridAtlas (Example.noiseless Example.hyperbola)
      Example.setters Example.ops (Example.combine false) 6 (Example.envOf () 1) 0 none _ rfl
      hl).2⟩,
    ⟨_, hs, rfl, (run_holds_r_constant Example.hybridAtlas (Example.noiseless Example.hyperbola)
      Example.setters Example.ops (Example.combine true) 6 (Example.envOf () 1) 0 none _ rfl
      hs).2⟩⟩

/-- C20.  For `0 < cl ≤ 1` and every calculator: when the bisection loop begins the stored
samples are `clsMin = (1, 0)` and `clsMax = (0, 0)`, whatever the calculator returned during the
bracket expansion, and they satisfy `clsMax.value ≤ clsTarget < clsMin.value`; from locals with
that property the replacement rule of line 117 is the direct comparison (the midpoint replaces
`rMax` exactly when the sample is not above `clsTarget`, and `rMin` exactly when it is above) and
keeps the property; the bisection loop is equal to the loop written with the direct comparison;
and the property holds of the locals with which the loop is left. -/
theorem bisect_direct_comparison (self : Hybrid α) (hc : HybridCalculatorOriginal σ ρ α)
    (cl : α) (fuel : Nat) (hcl0 : 0 < cl) (hcl1 : cl ≤ 1) :
    (∀ (env : Env σ α) (limit : α) (hint : Option α) (env1 : Env σ α),
        self.expand hc cl (prepare env hint).r.getMax fuel fuel (prepare env hint)
          = .ok (true, env1) →
        self.runLimit hc cl fuel env limit hint
          = self.search hc (1 - cl) fuel fuel limit (bracket env1) ∧
        (bracket env1).clsMin = (1, 0) ∧ (bracket env1).clsMax = (0, 0) ∧
        Straddles (1 - cl) (bracket env1)) ∧
    (∀ (s : Search σ α) (clsMid : CLs_t α) (env1 : Env σ α), Straddles (1 - cl) s →
        replace (1 - cl) s clsMid env1 = replaceDirect (1 - cl) s clsMid env1 ∧
        Straddles (1 - cl) (replace (1 - cl) s clsMid env1)) ∧
    (∀ (n : Nat) (s : Search σ α), Straddles (1 - cl) s →
        self.bisect hc (1 - cl) fuel n s = self.bisectDirect hc (1 - cl) fuel n s) ∧
    (∀ (n : Nat) (s : Search σ α) (ex : Exit) (s1 : Search σ α), Straddles (1 - cl) s →
        self.bisect hc (1 - cl) fuel n s = .ok (ex, s1) → Straddles (1 - cl) s1) := by
  refine ⟨?_, ?_, bisect_eq_direct self hc (1 - cl) fuel, bisect_straddles self hc (1 - cl) fuel⟩
  · intro env limit hint env1 h
    exact ⟨runLimit_accepted self hc cl fuel env limit hint env1 h, rfl, rfl,
      straddles_bracket cl hcl0 hcl1 env1⟩
  · intro s clsMid env1 hs
    refine ⟨replace_eq_direct _ s clsMid env1 hs, ?_⟩
    rw [replace_eq_direct _ s clsMid env1 hs]
    exact straddles_replaceDirect _ s clsMid env1 hs

/-- Witness for C20: the default object and the noiseless calculator on the curve
`3 / (3 + 19 r)`, with `cl = 19/20`: the bisection from the bracket `[0, 1]` is the one written
with the direct comparison. -/
theorem bisect_direct_comparison_witness :
    (0 : ℚ) < 19 / 20 ∧ (19 / 20 : ℚ) ≤ 1 ∧
    Example.hybrid.bisect (Example.noiseless Example.hyperbola) (1 - 19 / 20) 6 6
        (bracket (Example.envOf () 1))
      = Example.hybrid.bisectDirect (Example.noiseless Example.hyperbola) (1 - 19 / 20) 6 6
          (bracket (Example.envOf () 1)) :=
  ⟨by norm_num, by norm_num,
    (bisect_direct_comparison Example.hybrid (Example.noiseless Example.hyperbola) (19 / 20) 6
      (by norm_num) (by norm_num)).2.2.1 6 (bracket (Example.envOf () 1))
      (straddles_bracket (19 / 20) (by norm_num) (by norm_num) _)⟩

end Hybrid

end CombinedLimit
